import Mathlib

/-!
# pstate-frequency: the CPU attribute controller

A shallow embedding of `app/src/psfreq_cpu.c`, of the turbo and scaling accessors
of `project/src/psfreq_cpu_public.cpp` and of the frequency setter of
`src/cpu.c`, together with machine-checked statements about them.

Conventions of the embedding.

* C integers are `Nat` / `Int` with explicit range tests where the C conversion
  is only defined inside a range.
* `double` arithmetic is IEEE-754 binary64 with round-to-nearest, ties-to-even,
  each operation rounded once (evaluation method 0, as on x86-64).  A finite
  double is kept as an exact fraction; every value the program can produce has
  a magnitude between `2^-32` and `2^40`, far inside the normal exponent range,
  so only the 53-bit significand rounding is modelled.
* A result of `none` at the outermost `Option` of an operation means that the C
  language does not fix what the program does there (a conversion out of range,
  a NULL dereference, an index past the end of a vector).
* `cpu_num` holds what `psfreq_cpu_init_number_cpus` returns, an `unsigned char`,
  so the `unsigned char` loop counters never wrap and the loops run over `Nat`.
* The sysfs tree is a list of bindings from path to text, a list of paths that
  refuse writes, and the record of the writes attempted.
-/

namespace Psfreq

/-! ## binary64 arithmetic -/

/-- Fuel-driven worker of `ilog2`. -/
def ilog2Aux : Nat → Nat → Nat
  | 0, _ => 0
  | f + 1, n => if n < 2 then 0 else ilog2Aux f (n / 2) + 1

/-- Position of the highest set bit: `2 ^ ilog2 n ≤ n < 2 ^ (ilog2 n + 1)` for `n > 0`. -/
def ilog2 (n : Nat) : Nat := ilog2Aux n n

/-- The fraction `n / d` rounded to the nearest integer, ties going to the even one. -/
def roundNearestEven (n d : Nat) : Nat :=
  let q := n / d
  let r := n % d
  if 2 * r < d then q
  else if d < 2 * r then q + 1
  else if q % 2 = 0 then q else q + 1

/-- The positive fraction `n / d` rounded to a 53-bit significand, returned as a
fraction whose denominator is a power of two.  The fraction is first scaled by a
power of two into `[2^52, 2^53)`, rounded to an integer there, and scaled back. -/
def fl (n d : Nat) : Nat × Nat :=
  if n = 0 then (0, 1)
  else
    let a := (ilog2 d + 53) - ilog2 n
    let b := ilog2 n - (ilog2 d + 53)
    let b2 := if (n * 2 ^ a) / (d * 2 ^ b) < 2 ^ 53 then b else b + 1
    (roundNearestEven (n * 2 ^ a) (d * 2 ^ b2) * 2 ^ b2, 2 ^ a)

/-- A finite double: sign and magnitude `num / den`. -/
structure Dbl where
  neg : Bool
  num : Nat
  den : Nat
deriving DecidableEq

namespace Dbl

/-- Conversion of a C integer of at most 32 bits to double (always exact). -/
def ofInt (i : Int) : Dbl := ⟨decide (i < 0), i.natAbs, 1⟩

/-- Conversion of an `unsigned int` to double (always exact). -/
def ofNat (n : Nat) : Dbl := ⟨false, n, 1⟩

/-- Double multiplication: the exact product, rounded once. -/
def mul (x y : Dbl) : Dbl :=
  let r := fl (x.num * y.num) (x.den * y.den)
  ⟨xor x.neg y.neg, r.1, r.2⟩

/-- Double division: the exact quotient, rounded once.  `none` stands for the
non-finite results (infinity, NaN) of a division by zero. -/
def div (x y : Dbl) : Option Dbl :=
  if y.num = 0 then none
  else
    let r := fl (x.num * y.den) (x.den * y.num)
    some ⟨xor x.neg y.neg, r.1, r.2⟩

/-- The integral part, fraction discarded (truncation toward zero). -/
def trunc (x : Dbl) : Int :=
  if x.neg then -((x.num / x.den : Nat) : Int) else ((x.num / x.den : Nat) : Int)

/-- Conversion to `int`: defined only when the integral part fits in 32 signed bits. -/
def toInt32 (x : Dbl) : Option Int :=
  if -(2 : Int) ^ 31 ≤ x.trunc ∧ x.trunc < (2 : Int) ^ 31 then some x.trunc else none

/-- Conversion to `unsigned int`: defined only when the integral part fits in 32 bits. -/
def toUInt32 (x : Dbl) : Option Nat :=
  if 0 ≤ x.trunc ∧ x.trunc < (2 : Int) ^ 32 then some x.trunc.toNat else none

end Dbl

/-! ## Text conversions and the sysfs accessor

The accessor (`psfreq_sysfs_*`), the string helpers (`psfreq_strings_*`) and the
pipe reader (`psfreq_util_read_pipe`) are collaborators of the controller. -/

/-- The line terminator. -/
def newline : Char := Char.ofNat 10

/-- Decimal text of a C `int`, as printed by the conversion `%d`. -/
def fmtInt (i : Int) : String :=
  if i < 0 then "-" ++ Nat.repr i.natAbs else Nat.repr i.toNat

/-- Removes exactly one trailing line terminator, when there is one. -/
def trimLine (s : String) : String :=
  if s.data.getLast? = some newline then String.mk s.data.dropLast else s

/-- One step of reading decimal digits, most significant first. -/
def digitStep (acc : Option Nat) (c : Char) : Option Nat :=
  acc.bind fun a => if c.isDigit then some (10 * a + (c.toNat - 48)) else none

/-- Drops the white space (blank, tab, line terminators) that ends a line. -/
def trimRight (cs : List Char) : List Char :=
  (cs.reverse.dropWhile Char.isWhitespace).reverse

/-- Value of a non-empty string of decimal digits, white space after it allowed. -/
def parseNat (cs : List Char) : Option Nat :=
  if trimRight cs = [] then none else (trimRight cs).foldl digitStep (some 0)

/-- Modelled from the spec: `psfreq_strings_to_uint`, the text-to-unsigned
conversion of the strings helper ("non-numeric content where an integer was
expected is treated as value 0"); a number that does not fit is not a number. -/
def psfreq_strings_to_uint (line : String) : Nat :=
  match parseNat line.data with
  | some v => if v < 2 ^ 32 then v else 0
  | none => 0

/-- Modelled from the spec: `psfreq_strings_to_int`, the text-to-int conversion of
the strings helper: an optional minus sign and decimal digits, anything else is 0. -/
def psfreq_strings_to_int (line : String) : Int :=
  match line.data with
  | [] => 0
  | c :: cs =>
    if c = '-' then
      match parseNat cs with
      | some v => if v ≤ 2 ^ 31 then -(v : Int) else 0
      | none => 0
    else
      match parseNat (c :: cs) with
      | some v => if v < 2 ^ 31 then (v : Int) else 0
      | none => 0

/-- The sysfs tree as the controller sees it: the text of each file (the most
recent binding of a path comes first), the paths on which a write fails, and the
record of every write attempted, oldest first. -/
structure Sysfs where
  files : List (String × String)
  denied : List String
  log : List (String × String)
deriving DecidableEq

/-- Modelled from the spec: `psfreq_sysfs_read`, "read(path) -> string, fails if
the file cannot be opened or read", "trims exactly one trailing line terminator". -/
def psfreq_sysfs_read (s : Sysfs) (path : String) : Option String :=
  (s.files.lookup path).map trimLine

/-- Modelled from the spec: `psfreq_sysfs_write`, "write(path, value) ->
success/failure"; the value is stored followed by a line terminator. -/
def psfreq_sysfs_write (s : Sysfs) (path data : String) : Bool × Sysfs :=
  if path ∈ s.denied then
    (false, { s with log := s.log ++ [(path, data)] })
  else
    (true, { s with files := (path, data ++ "\n") :: s.files, log := s.log ++ [(path, data)] })

/-- Modelled from the spec: `psfreq_sysfs_write_num`, "write serializes the value
as decimal text followed by a line terminator". -/
def psfreq_sysfs_write_num (s : Sysfs) (path : String) (n : Int) : Bool × Sysfs :=
  psfreq_sysfs_write s path (fmtInt n)

/-- The services outside the controller that initialisation relies on. -/
structure Env where
  /-- Modelled from the spec: `psfreq_util_read_pipe` asked for one line: the
  first line the command prints, or nothing when the pipe fails. -/
  pipe : String → Option String
  /-- Whether `malloc` of a vector of that many pointers succeeds. -/
  malloc_ok : Nat → Bool
  /-- Whether `psfreq_strings_asprintf` succeeds in producing that text. -/
  asprintf_ok : String → Bool

/-- Modelled from the spec: `psfreq_strings_asprintf`, formatting into a fresh
buffer; `none` is the negative return value. -/
def psfreq_strings_asprintf (env : Env) (text : String) : Option String :=
  if env.asprintf_ok text then some text else none

/-! ## The CPU object (`psfreq_cpu_type`) -/

/-- The fields of `psfreq_cpu_type` that `psfreq_cpu.c` reads and writes.  A
pointer field is an `Option`, `none` being NULL. -/
structure psfreq_cpu_type where
  cpu_num : Nat
  scaling_driver : Option String
  has_pstate : Nat
  cpuinfo_min_freq : Nat
  cpuinfo_max_freq : Nat
  scaling_min_freq : Nat
  scaling_max_freq : Nat
  scaling_governor : Option String
  pst_turbo : Int
  pst_max : Int
  pst_min : Int
  vector_scaling_min_freq : Option (List String)
  vector_scaling_max_freq : Option (List String)
  vector_scaling_governor : Option (List String)
deriving DecidableEq

/-- The expression `((double) a / max) * 100` converted to `unsigned int`. -/
def percent_of (a max : Nat) : Option Nat :=
  match Dbl.div (Dbl.ofNat a) (Dbl.ofNat max) with
  | none => none
  | some r => (Dbl.mul r (Dbl.ofNat 100)).toUInt32

/-- The expression `max * ((double) n / 100)` converted to `int`. -/
def freq_of (max : Nat) (n : Int) : Option Int :=
  match Dbl.div (Dbl.ofInt n) (Dbl.ofNat 100) with
  | none => none
  | some r => (Dbl.mul (Dbl.ofNat max) r).toInt32

def psfreq_cpu_get_cpuinfo_min (cpu : Option psfreq_cpu_type) : Option Nat :=
  match cpu with
  | none => some 0
  | some c => percent_of c.cpuinfo_min_freq c.cpuinfo_max_freq

def psfreq_cpu_get_cpuinfo_max : Nat := 100

def psfreq_cpu_get_scaling_min (cpu : Option psfreq_cpu_type) : Option Nat :=
  match cpu with
  | none => some 0
  | some c => percent_of c.scaling_min_freq c.cpuinfo_max_freq

def psfreq_cpu_get_scaling_max (cpu : Option psfreq_cpu_type) : Option Nat :=
  match cpu with
  | none => some 0
  | some c => percent_of c.scaling_max_freq c.cpuinfo_max_freq

/-- Conversion of an `unsigned int` to `int`: the value itself when it fits. -/
def uintToInt (u : Nat) : Option Int :=
  if u < 2 ^ 31 then some (u : Int) else none

/-- The effective percent `n` of `psfreq_cpu_set_max` (lines 388 to 394). -/
def set_max_percent (cpu : Option psfreq_cpu_type) (m : Int) : Option Int :=
  if m ≥ 100 then some (psfreq_cpu_get_cpuinfo_max : Int)
  else if m ≤ 0 then
    match psfreq_cpu_get_cpuinfo_min cpu with
    | none => none
    | some v => uintToInt ((v + 1) % 2 ^ 32)
  else some m

/-- The effective percent `n` of `psfreq_cpu_set_min` (lines 439 to 445). -/
def set_min_percent (cpu : Option psfreq_cpu_type) (m : Int) : Option Int :=
  if m ≥ 100 then uintToInt ((psfreq_cpu_get_cpuinfo_max + 2 ^ 32 - 1) % 2 ^ 32)
  else if m ≤ 0 then
    match psfreq_cpu_get_cpuinfo_min cpu with
    | none => none
    | some v => uintToInt v
  else some m

/-- The per-CPU loop of the setters, `for (i = 0; i < cpu_num; ++i)`: `k`
iterations are left, the next index is `i`, and `w` is the write made on the
path `vector[i]`.  The first failing write ends the call with 0. -/
def fan_out (w : Sysfs → String → Bool × Sysfs) (v : List String) :
    Nat → Nat → Sysfs → Option (Nat × Sysfs)
  | 0, _, s => some (1, s)
  | k + 1, i, s =>
    match v.get? i with
    | none => none
    | some path => if (w s path).1 then fan_out w v k (i + 1) (w s path).2 else some (0, (w s path).2)

/-- The part shared by both frequency setters once `n` and `freq` are computed
(lines 396 to 429 for the maximum, 447 to 480 for the minimum). -/
def set_freq_tail (cpu_num : Nat) (vector : Option (List String)) (pct_path : String)
    (n freq : Int) (sysfs : Option Sysfs) : Option (Nat × Option Sysfs) :=
  match sysfs with
  | none => some (0, none)
  | some s =>
    if cpu_num = 0 then some (0, some s)
    else
      match vector with
      | none => some (0, some s)
      | some v =>
        if (psfreq_sysfs_write_num s pct_path n).1 then
          match fan_out (fun t path => psfreq_sysfs_write_num t path freq) v cpu_num 0
              (psfreq_sysfs_write_num s pct_path n).2 with
          | none => none
          | some r => some (r.1, some r.2)
        else some (0, some (psfreq_sysfs_write_num s pct_path n).2)

def psfreq_cpu_set_max (cpu : Option psfreq_cpu_type) (sysfs : Option Sysfs) (m : Int) :
    Option (Nat × Option Sysfs) :=
  match set_max_percent cpu m, cpu with
  | some n, some c =>
    match freq_of c.cpuinfo_max_freq n with
    | none => none
    | some freq =>
      set_freq_tail c.cpu_num c.vector_scaling_max_freq "intel_pstate/max_perf_pct" n freq sysfs
  | _, _ => none

def psfreq_cpu_set_min (cpu : Option psfreq_cpu_type) (sysfs : Option Sysfs) (m : Int) :
    Option (Nat × Option Sysfs) :=
  match set_min_percent cpu m, cpu with
  | some n, some c =>
    match freq_of c.cpuinfo_max_freq n with
    | none => none
    | some freq =>
      set_freq_tail c.cpu_num c.vector_scaling_min_freq "intel_pstate/min_perf_pct" n freq sysfs
  | _, _ => none

def psfreq_cpu_set_gov (cpu : Option psfreq_cpu_type) (sysfs : Option Sysfs) (m : String) :
    Option (Nat × Option Sysfs) :=
  match sysfs with
  | none => some (0, none)
  | some s =>
    match cpu with
    | none => some (0, some s)
    | some c =>
      if c.cpu_num = 0 then some (0, some s)
      else
        match c.vector_scaling_governor with
        | none => some (0, some s)
        | some v =>
          match fan_out (fun t path => psfreq_sysfs_write t path m) v c.cpu_num 0 s with
          | none => none
          | some r => some (r.1, some r.2)

def psfreq_cpu_set_turbo (sysfs : Option Sysfs) (m : Int) : Nat × Option Sysfs :=
  match sysfs with
  | none => (0, none)
  | some s =>
    if (psfreq_sysfs_write_num s "intel_pstate/no_turbo" m).1 then
      (1, some (psfreq_sysfs_write_num s "intel_pstate/no_turbo" m).2)
    else (0, some (psfreq_sysfs_write_num s "intel_pstate/no_turbo" m).2)

/-! ## Initialisation -/

/-- The library function `strcmp`: zero for equal strings, otherwise the sign of
the difference at the first place where the strings differ (the end of a string
counting as the smallest character). -/
def strcmp : List Char → List Char → Int
  | [], [] => 0
  | [], _ :: _ => -1
  | _ :: _, [] => 1
  | a :: as, b :: bs => if a = b then strcmp as bs else (a.toNat : Int) - (b.toNat : Int)

def psfreq_cpu_init_number_cpus (env : Env) : Nat :=
  match env.pipe "grep processor /proc/cpuinfo | wc -l" with
  | none => 0
  | some line => psfreq_strings_to_uint line % 256

def psfreq_cpu_init_driver (sysfs : Option Sysfs) : Option String :=
  match sysfs with
  | none => none
  | some s => psfreq_sysfs_read s "cpu0/cpufreq/scaling_driver"

/-- The outer `none` is `strcmp` applied to a NULL driver name. -/
def psfreq_cpu_init_has_pstate (cpu : psfreq_cpu_type) : Option Nat :=
  match cpu.scaling_driver with
  | none => none
  | some driver => some (if strcmp driver.data "intel_pstate".data = 0 then 1 else 0)

def psfreq_cpu_init_freq (env : Env) (sysfs : Option Sysfs) (type what : String) : Nat :=
  match sysfs with
  | none => 0
  | some s =>
    match psfreq_strings_asprintf env ("cpu0/cpufreq/" ++ type ++ "_" ++ what ++ "_freq") with
    | none => 0
    | some f =>
      match psfreq_sysfs_read s f with
      | none => 0
      | some line => psfreq_strings_to_uint line

/-- The loop of `psfreq_cpu_init_vector`: `k` iterations are left, the next index
is `i`, `acc` holds the entries `0 .. i-1`.  A failed `asprintf` discards the
whole vector. -/
def init_vector_loop (env : Env) (what : String) : Nat → Nat → List String → Option (List String)
  | 0, _, acc => some acc
  | k + 1, i, acc =>
    match psfreq_strings_asprintf env ("cpu" ++ Nat.repr i ++ "/cpufreq/scaling_" ++ what) with
    | none => none
    | some buf => init_vector_loop env what k (i + 1) (acc ++ [buf])

/-- The count is first copied into the local `unsigned char num`. -/
def psfreq_cpu_init_vector (env : Env) (cpu : Option psfreq_cpu_type) (what : String) :
    Option (List String) :=
  match cpu with
  | none => none
  | some c =>
    if c.cpu_num % 256 = 0 then none
    else if env.malloc_ok (c.cpu_num % 256) then init_vector_loop env what (c.cpu_num % 256) 0 []
    else none

/-- The outer `none` is the read of `vector_scaling_governor[0]` in an empty vector. -/
def psfreq_cpu_init_governor (cpu : Option psfreq_cpu_type) (sysfs : Option Sysfs) :
    Option (Option String) :=
  match cpu with
  | none => some none
  | some c =>
    match c.vector_scaling_governor with
    | none => some none
    | some v =>
      match sysfs with
      | none => some none
      | some s =>
        match v.get? 0 with
        | none => none
        | some f => some (psfreq_sysfs_read s f)

/-- Narrowing of an `int` to `char` (signed, eight bits, wrapping). -/
def intToChar (i : Int) : Int := (i + 128) % 256 - 128

def psfreq_cpu_init_turbo_boost (sysfs : Option Sysfs) : Int :=
  match sysfs with
  | none => -1
  | some s =>
    match psfreq_sysfs_read s "intel_pstate/no_turbo" with
    | none => -1
    | some line => intToChar (psfreq_strings_to_int line)

def psfreq_cpu_init_dynamic (env : Env) (cpu : psfreq_cpu_type) (sysfs : Option Sysfs) :
    Option (Nat × psfreq_cpu_type) :=
  let cpu1 := { cpu with scaling_max_freq := psfreq_cpu_init_freq env sysfs "scaling" "max" }
  let cpu2 := { cpu1 with scaling_min_freq := psfreq_cpu_init_freq env sysfs "scaling" "min" }
  match psfreq_cpu_init_governor (some cpu2) sysfs with
  | none => none
  | some gov =>
    let cpu3 := { cpu2 with scaling_governor := gov }
    some (1, { cpu3 with pst_turbo := psfreq_cpu_init_turbo_boost sysfs })

def psfreq_cpu_reinit (env : Env) (cpu : psfreq_cpu_type) (sysfs : Option Sysfs) :
    Option (Nat × psfreq_cpu_type) :=
  psfreq_cpu_init_dynamic env cpu sysfs

/-- Modelled from the spec: the text-to-int conversion applied to the result of a
read, a failed read (NULL) counting as unparsable text, hence 0. -/
def read_int (sysfs : Option Sysfs) (path : String) : Int :=
  match sysfs with
  | none => 0
  | some s =>
    match psfreq_sysfs_read s path with
    | none => 0
    | some line => psfreq_strings_to_int line

def psfreq_cpu_init (env : Env) (cpu : psfreq_cpu_type) (sysfs : Option Sysfs) :
    Option (Nat × psfreq_cpu_type) :=
  let cpu1 := { cpu with scaling_driver := psfreq_cpu_init_driver sysfs }
  match psfreq_cpu_init_has_pstate cpu1 with
  | none => none
  | some hp =>
    let cpu2 := { cpu1 with has_pstate := hp }
    if hp = 0 then some (0, cpu2)
    else
      let cpu3 := { cpu2 with cpu_num := psfreq_cpu_init_number_cpus env }
      let cpu4 := { cpu3 with
        vector_scaling_min_freq := psfreq_cpu_init_vector env (some cpu3) "min_freq" }
      let cpu5 := { cpu4 with
        vector_scaling_max_freq := psfreq_cpu_init_vector env (some cpu4) "max_freq" }
      let cpu6 := { cpu5 with
        vector_scaling_governor := psfreq_cpu_init_vector env (some cpu5) "governor" }
      let cpu7 := { cpu6 with cpuinfo_max_freq := psfreq_cpu_init_freq env sysfs "cpuinfo" "max" }
      let cpu8 := { cpu7 with cpuinfo_min_freq := psfreq_cpu_init_freq env sysfs "cpuinfo" "min" }
      let cpu9 := { cpu8 with pst_max := read_int sysfs "intel_pstate/max_perf_pct" }
      let cpu10 := { cpu9 with pst_min := read_int sysfs "intel_pstate/min_perf_pct" }
      psfreq_cpu_init_dynamic env cpu10 sysfs

/-! ## The turbo accessors of the C++ variant (`psfreq_cpu_public.cpp`) -/

/-- The file that holds the turbo switch: `hasPstate() ? "intel_pstate/no_turbo"
: "cpufreq/boost"`. -/
def turbo_file (pstate : Bool) : String :=
  if pstate then "intel_pstate/no_turbo" else "cpufreq/boost"

/-- Modelled from the spec: `sysfs::exists`, "exists(path) -> bool". -/
def sysfs_exists (s : Sysfs) (path : String) : Bool :=
  (s.files.lookup path).isSome

/-- The method `cpu::setTurboBoost`: the sysfs tree after the call. -/
def cpu_setTurboBoost (pstate : Bool) (s : Sysfs) (turbo : Int) : Sysfs :=
  if sysfs_exists s (turbo_file pstate) then
    (psfreq_sysfs_write_num s (turbo_file pstate) turbo).2
  else s

/-- The method `cpu::getTurboBoost`; `none` when the read fails.  The number read
is converted by `stringToNumber`, modelled from the spec as the text-to-int
conversion. -/
def cpu_getTurboBoost (pstate : Bool) (s : Sysfs) : Option Int :=
  (psfreq_sysfs_read s (turbo_file pstate)).map psfreq_strings_to_int

/-! ## The scaling accessors of the C++ variant (`psfreq_cpu_public.cpp`)

The class `sysfs` behind `cpuSysfs` and the helper `stringToNumber` are
collaborators; `cpuSysfs.write` and `cpuSysfs.read` are taken to behave as the
accessor above, a refused write changing nothing. -/

/-- Value of integer text with an optional minus sign, 0 for anything else. -/
def parseInt (cs : List Char) : Int :=
  match cs with
  | [] => 0
  | c :: r =>
    if c = '-' then
      match parseNat r with
      | some v => -(v : Int)
      | none => 0
    else
      match parseNat (c :: r) with
      | some v => (v : Int)
      | none => 0

/-- Modelled from the spec: `stringToNumber`, the text-to-number conversion of the
C++ utilities, returning a `double`: integer text gives that integer (rounded to
53 bits when it needs more), anything else gives 0. -/
def stringToNumber (line : String) : Dbl :=
  if (parseInt line.data).natAbs < 2 ^ 53 then Dbl.ofInt (parseInt line.data)
  else
    { neg := decide (parseInt line.data < 0),
      num := (fl (parseInt line.data).natAbs 1).1,
      den := (fl (parseInt line.data).natAbs 1).2 }

/-- The data members of the C++ class `cpu` that the scaling accessors use.  The
two `Info` frequencies are `double`s. -/
structure cpu_members where
  number : Nat
  pstate : Bool
  minInfoFrequency : Dbl
  maxInfoFrequency : Dbl
  minFrequencyFileVector : List String
  maxFrequencyFileVector : List String
  governorFileVector : List String
deriving DecidableEq

/-- The loop `for (unsigned int i = 0; i < number; ++i) cpuSysfs.write(vector[i],
value)`: `k` iterations are left, the next index is `i`.  The outcome of a write
is not looked at. -/
def cpu_write_each (v : List String) (value : Int) : Nat → Nat → Sysfs → Option Sysfs
  | 0, _, s => some s
  | k + 1, i, s =>
    match v.get? i with
    | none => none
    | some path => cpu_write_each v value k (i + 1) (psfreq_sysfs_write_num s path value).2

/-- The expression `maxInfoFrequency / 100 * percent` converted to `int`. -/
def cpu_scaling_value (maxInfo : Dbl) (percent : Int) : Option Int :=
  match Dbl.div maxInfo (Dbl.ofNat 100) with
  | none => none
  | some r => (Dbl.mul r (Dbl.ofInt percent)).toInt32

/-- The method `cpu::setScalingMax`: the sysfs tree after the call. -/
def cpu_setScalingMax (c : cpu_members) (s : Sysfs) (max : Int) : Option Sysfs :=
  if c.number = c.maxFrequencyFileVector.length then
    match cpu_scaling_value c.maxInfoFrequency max with
    | none => none
    | some scalingMax =>
      match cpu_write_each c.maxFrequencyFileVector scalingMax c.number 0 s with
      | none => none
      | some s1 =>
        if c.pstate then some (psfreq_sysfs_write_num s1 "intel_pstate/max_perf_pct" max).2
        else some s1
  else some s

/-- The method `cpu::setScalingMin`: the sysfs tree after the call. -/
def cpu_setScalingMin (c : cpu_members) (s : Sysfs) (min : Int) : Option Sysfs :=
  if c.number = c.minFrequencyFileVector.length then
    match cpu_scaling_value c.maxInfoFrequency min with
    | none => none
    | some scalingMin =>
      match cpu_write_each c.minFrequencyFileVector scalingMin c.number 0 s with
      | none => none
      | some s1 =>
        if c.pstate then some (psfreq_sysfs_write_num s1 "intel_pstate/min_perf_pct" min).2
        else some s1
  else some s

/-- The method `cpu::getScalingMinFrequency`; `none` when the read fails. -/
def cpu_getScalingMinFrequency (s : Sysfs) : Option Dbl :=
  (psfreq_sysfs_read s "cpu0/cpufreq/scaling_min_freq").map stringToNumber

/-- The method `cpu::getScalingMaxFrequency`; `none` when the read fails. -/
def cpu_getScalingMaxFrequency (s : Sysfs) : Option Dbl :=
  (psfreq_sysfs_read s "cpu0/cpufreq/scaling_max_freq").map stringToNumber

/-- The expression `static_cast<int>(freq / maxInfoFrequency * 100)`. -/
def cpu_pstate_of (freq maxInfo : Dbl) : Option Int :=
  match Dbl.div freq maxInfo with
  | none => none
  | some r => (Dbl.mul r (Dbl.ofNat 100)).toInt32

/-- The method `cpu::getMaxPState`. -/
def cpu_getMaxPState (c : cpu_members) (s : Sysfs) : Option Int :=
  match cpu_getScalingMaxFrequency s with
  | none => none
  | some freq => cpu_pstate_of freq c.maxInfoFrequency

/-- The method `cpu::getMinPState`. -/
def cpu_getMinPState (c : cpu_members) (s : Sysfs) : Option Int :=
  match cpu_getScalingMinFrequency s with
  | none => none
  | some freq => cpu_pstate_of freq c.maxInfoFrequency

/-! ## The frequency setter of the first C variant (`src/cpu.c`)

A result of `none` means that the call does not return (the program calls
`exit`) or that a conversion is out of range. -/

/-- Modelled from the spec: the macro `FILE_CPUINFO_MAX_FREQ` of `cpu.h`, the
absolute path of `cpu0/cpufreq/cpuinfo_max_freq`. -/
def FILE_CPUINFO_MAX_FREQ : String := "/sys/devices/system/cpu/cpu0/cpufreq/cpuinfo_max_freq"

/-- The value of the longest run of decimal digits that starts a text. -/
def digitsValue : List Char → Nat → Nat
  | [], acc => acc
  | c :: cs, acc => if c.isDigit then digitsValue cs (10 * acc + (c.toNat - 48)) else acc

/-- The library function `isspace` in the C locale: blank, horizontal tab, line
feed, vertical tab, form feed and carriage return. -/
def isspace (c : Char) : Bool :=
  c = ' ' || c = Char.ofNat 9 || c = Char.ofNat 10 || c = Char.ofNat 11 || c = Char.ofNat 12 ||
    c = Char.ofNat 13

/-- The library function `strtol` in base 10, for values that fit a `long`: white
space as `isspace` knows it, an optional sign, then digits; 0 when there is no
digit. -/
def strtol (cs : List Char) : Int :=
  match cs.dropWhile isspace with
  | [] => 0
  | c :: r =>
    if c = '-' then -(digitsValue r 0 : Int)
    else if c = '+' then (digitsValue r 0 : Int)
    else (digitsValue (c :: r) 0 : Int)

/-- The line that `getline` hands over, its terminator left out: the text up to the
first line terminator. -/
def firstLine (text : String) : List Char :=
  text.data.takeWhile (fun c => c != newline)

/-- The functions `pyam_cpu_internal_get` and `pyam_cpu_to_num` on the first line of
a file, the result (a `long` turned into a `double`) stored in an `int32_t`: `exit`
when the file cannot be opened or holds no line. -/
def pyam_cpu_read_int32 (fs : Sysfs) (file_name : String) : Option Int :=
  match fs.files.lookup file_name with
  | none => none
  | some text =>
    if text = "" then none
    else if -(2 : Int) ^ 31 ≤ strtol (firstLine text) ∧ strtol (firstLine text) < (2 : Int) ^ 31 then
      some (strtol (firstLine text))
    else none

/-- The function `pyam_cpu_get_cpuinfo_max_freq`, whose `double` result the caller
stores in an `int32_t` again. -/
def pyam_cpu_get_cpuinfo_max_freq (fs : Sysfs) : Option Int :=
  pyam_cpu_read_int32 fs FILE_CPUINFO_MAX_FREQ

/-- The loop of `pyam_cpu_internal_freq`: `k` iterations are left, the next index
is `i`; each file is opened for writing and receives the text and a line
terminator.  A file that cannot be opened ends the program. -/
def pyam_cpu_internal_freq_loop (frequency_files : List String) (scaling : String) :
    Nat → Nat → Sysfs → Option Sysfs
  | 0, _, fs => some fs
  | k + 1, i, fs =>
    match frequency_files.get? i with
    | none => none
    | some path =>
      if (psfreq_sysfs_write fs path scaling).1 then
        pyam_cpu_internal_freq_loop frequency_files scaling k (i + 1)
          (psfreq_sysfs_write fs path scaling).2
      else none

/-- The number that `pyam_cpu_set_freq` formats: `scaling_value / 100 * max` in
`size_t` arithmetic, the quotient being an `int` division. -/
def pyam_cpu_scaling_max (scaling_value : Int) (max : Nat) : Nat :=
  ((Int.tdiv scaling_value 100 % 2 ^ 64).toNat * max) % 2 ^ 64

/-- The function `pyam_cpu_set_freq`; `cpu_number` is what `pyam_cpu_get_number`
returns. -/
def pyam_cpu_set_freq (env : Env) (fs : Sysfs) (cpu_number : Nat) (frequency_files : List String)
    (max : Nat) : Option Sysfs :=
  match pyam_cpu_get_cpuinfo_max_freq fs with
  | none => none
  | some scaling_value =>
    match psfreq_strings_asprintf env
        (Nat.repr (pyam_cpu_scaling_max scaling_value max) ++ "\n") with
    | none => none
    | some buffer => pyam_cpu_internal_freq_loop frequency_files buffer cpu_number 0 fs

/-! ## Notions used to state the results -/

/-- The rational number a fraction stands for. -/
def fracVal (r : Nat × Nat) : ℚ := (r.1 : ℚ) / (r.2 : ℚ)

/-- The sysfs tree after the same text was written to each path of a list in turn. -/
def write_all (d : String) (s : Sysfs) (ps : List String) : Sysfs :=
  ps.foldl (fun t p => (psfreq_sysfs_write t p d).2) s

/-! ## Concrete machines used as examples -/

/-- One logical CPU of a part whose frequency range is 0.8 GHz to 3.4 GHz. -/
def cpu_3400 : psfreq_cpu_type :=
  { cpu_num := 1, scaling_driver := some "intel_pstate", has_pstate := 1,
    cpuinfo_min_freq := 800000, cpuinfo_max_freq := 3400000,
    scaling_min_freq := 800000, scaling_max_freq := 3400000,
    scaling_governor := some "powersave", pst_turbo := 0, pst_max := 100, pst_min := 23,
    vector_scaling_min_freq := some ["cpu0/cpufreq/scaling_min_freq"],
    vector_scaling_max_freq := some ["cpu0/cpufreq/scaling_max_freq"],
    vector_scaling_governor := some ["cpu0/cpufreq/scaling_governor"] }

/-- A sysfs tree with no file bound yet, on which every write succeeds. -/
def sysfs_blank : Sysfs := { files := [], denied := [], log := [] }

/-- Four logical CPUs of the same part, with the path vectors that
`psfreq_cpu_init_vector` builds for them. -/
def cpu_quad : psfreq_cpu_type :=
  { cpu_num := 4, scaling_driver := some "intel_pstate", has_pstate := 1,
    cpuinfo_min_freq := 800000, cpuinfo_max_freq := 3400000,
    scaling_min_freq := 800000, scaling_max_freq := 3400000,
    scaling_governor := some "powersave", pst_turbo := 0, pst_max := 100, pst_min := 23,
    vector_scaling_min_freq := some ["cpu0/cpufreq/scaling_min_freq",
      "cpu1/cpufreq/scaling_min_freq", "cpu2/cpufreq/scaling_min_freq",
      "cpu3/cpufreq/scaling_min_freq"],
    vector_scaling_max_freq := some ["cpu0/cpufreq/scaling_max_freq",
      "cpu1/cpufreq/scaling_max_freq", "cpu2/cpufreq/scaling_max_freq",
      "cpu3/cpufreq/scaling_max_freq"],
    vector_scaling_governor := some ["cpu0/cpufreq/scaling_governor",
      "cpu1/cpufreq/scaling_governor", "cpu2/cpufreq/scaling_governor",
      "cpu3/cpufreq/scaling_governor"] }

/-- A sysfs tree of four CPUs running at full range, in which the file
`scaling_max_freq` of CPU 2 refuses writes. -/
def sysfs_cpu2_refuses : Sysfs :=
  { files := [("cpu0/cpufreq/scaling_max_freq", "3400000\n"),
              ("cpu1/cpufreq/scaling_max_freq", "3400000\n"),
              ("cpu2/cpufreq/scaling_max_freq", "3400000\n"),
              ("cpu3/cpufreq/scaling_max_freq", "3400000\n"),
              ("intel_pstate/max_perf_pct", "100\n")],
    denied := ["cpu2/cpufreq/scaling_max_freq"],
    log := [] }

/-- An environment that reports four processors and in which no allocation fails. -/
def env_four : Env :=
  { pipe := fun _ => some "4", malloc_ok := fun _ => true, asprintf_ok := fun _ => true }

/-- An environment whose processor count comes back as 0. -/
def env_zero : Env :=
  { pipe := fun _ => some "0", malloc_ok := fun _ => true, asprintf_ok := fun _ => true }

/-- A sysfs tree of a machine driven by `intel_pstate`. -/
def sysfs_pstate : Sysfs :=
  { files := [("cpu0/cpufreq/scaling_driver", "intel_pstate\n"),
              ("cpu0/cpufreq/cpuinfo_max_freq", "3400000\n"),
              ("cpu0/cpufreq/cpuinfo_min_freq", "800000\n"),
              ("cpu0/cpufreq/scaling_max_freq", "3400000\n"),
              ("cpu0/cpufreq/scaling_min_freq", "800000\n"),
              ("cpu0/cpufreq/scaling_governor", "powersave\n"),
              ("intel_pstate/no_turbo", "0\n"),
              ("intel_pstate/max_perf_pct", "100\n"),
              ("intel_pstate/min_perf_pct", "23\n")],
    denied := [],
    log := [] }

/-- A sysfs tree of a machine driven by `acpi-cpufreq`. -/
def sysfs_acpi : Sysfs :=
  { files := [("cpu0/cpufreq/scaling_driver", "acpi-cpufreq\n"),
              ("cpufreq/boost", "1\n")],
    denied := [],
    log := [] }

/-- The CPU object before initialisation, every field cleared. -/
def cpu_fresh : psfreq_cpu_type :=
  { cpu_num := 0, scaling_driver := none, has_pstate := 0,
    cpuinfo_min_freq := 0, cpuinfo_max_freq := 0, scaling_min_freq := 0, scaling_max_freq := 0,
    scaling_governor := none, pst_turbo := 0, pst_max := 0, pst_min := 0,
    vector_scaling_min_freq := none, vector_scaling_max_freq := none,
    vector_scaling_governor := none }

/-- One logical CPU of a part whose frequency range is 0.5 GHz to 1.2 GHz. -/
def cpu_1200 : psfreq_cpu_type :=
  { cpu_num := 1, scaling_driver := some "intel_pstate", has_pstate := 1,
    cpuinfo_min_freq := 500000, cpuinfo_max_freq := 1200000,
    scaling_min_freq := 500000, scaling_max_freq := 1200000,
    scaling_governor := some "powersave", pst_turbo := 0, pst_max := 100, pst_min := 41,
    vector_scaling_min_freq := some ["cpu0/cpufreq/scaling_min_freq"],
    vector_scaling_max_freq := some ["cpu0/cpufreq/scaling_max_freq"],
    vector_scaling_governor := some ["cpu0/cpufreq/scaling_governor"] }

/-- An environment whose processor count comes back as 256. -/
def env_256 : Env :=
  { pipe := fun _ => some "256", malloc_ok := fun _ => true, asprintf_ok := fun _ => true }

/-- A sysfs tree of four CPUs in which both percent controls of the driver refuse
writes. -/
def sysfs_pct_refuses : Sysfs :=
  { files := [("cpu0/cpufreq/scaling_max_freq", "3400000\n"),
              ("cpu0/cpufreq/scaling_min_freq", "800000\n"),
              ("intel_pstate/max_perf_pct", "100\n"),
              ("intel_pstate/min_perf_pct", "23\n")],
    denied := ["intel_pstate/max_perf_pct", "intel_pstate/min_perf_pct"],
    log := [] }

/-- One logical CPU of a part that runs at a single frequency, 3.4 GHz. -/
def cpu_fixed : psfreq_cpu_type :=
  { cpu_num := 1, scaling_driver := some "intel_pstate", has_pstate := 1,
    cpuinfo_min_freq := 3400000, cpuinfo_max_freq := 3400000,
    scaling_min_freq := 3400000, scaling_max_freq := 3400000,
    scaling_governor := some "powersave", pst_turbo := 0, pst_max := 100, pst_min := 100,
    vector_scaling_min_freq := some ["cpu0/cpufreq/scaling_min_freq"],
    vector_scaling_max_freq := some ["cpu0/cpufreq/scaling_max_freq"],
    vector_scaling_governor := some ["cpu0/cpufreq/scaling_governor"] }

/-- A sysfs tree of a machine driven by `intel_pstate` in which the file
`cpu0/cpufreq/cpuinfo_max_freq` cannot be read. -/
def sysfs_no_cpuinfo_max : Sysfs :=
  { files := [("cpu0/cpufreq/scaling_driver", "intel_pstate\n"),
              ("cpu0/cpufreq/cpuinfo_min_freq", "800000\n"),
              ("cpu0/cpufreq/scaling_max_freq", "3400000\n"),
              ("cpu0/cpufreq/scaling_min_freq", "800000\n"),
              ("cpu0/cpufreq/scaling_governor", "powersave\n"),
              ("intel_pstate/no_turbo", "0\n"),
              ("intel_pstate/max_perf_pct", "100\n"),
              ("intel_pstate/min_perf_pct", "23\n")],
    denied := [],
    log := [] }

/-- The C++ object for one logical CPU of a part whose frequency range is 0.8 GHz
to 3.4 GHz, driven by `intel_pstate`. -/
def cpp_3400 : cpu_members :=
  { number := 1, pstate := true,
    minInfoFrequency := Dbl.ofNat 800000, maxInfoFrequency := Dbl.ofNat 3400000,
    minFrequencyFileVector := ["cpu0/cpufreq/scaling_min_freq"],
    maxFrequencyFileVector := ["cpu0/cpufreq/scaling_max_freq"],
    governorFileVector := ["cpu0/cpufreq/scaling_governor"] }

/-- The same object on a part whose hardware maximum reads 3292884 kHz. -/
def cpp_3292884 : cpu_members :=
  { cpp_3400 with maxInfoFrequency := Dbl.ofNat 3292884 }

/-- A sysfs tree, under absolute paths, of a part whose hardware maximum reads
1999 kHz. -/
def fs_1999 : Sysfs :=
  { files := [("/sys/devices/system/cpu/cpu0/cpufreq/cpuinfo_max_freq", "1999\n"),
              ("/sys/devices/system/cpu/cpu0/cpufreq/scaling_max_freq", "1999\n")],
    denied := [],
    log := [] }

/-- The same tree on a part whose hardware maximum reads 3400000 kHz. -/
def fs_3400 : Sysfs :=
  { files := [("/sys/devices/system/cpu/cpu0/cpufreq/cpuinfo_max_freq", "3400000\n"),
              ("/sys/devices/system/cpu/cpu0/cpufreq/scaling_max_freq", "3400000\n")],
    denied := [],
    log := [] }

/-- A sysfs tree of the same machine while it is throttled to 2 GHz. -/
def sysfs_throttled : Sysfs :=
  { files := [("cpu0/cpufreq/scaling_driver", "intel_pstate\n"),
              ("cpu0/cpufreq/cpuinfo_max_freq", "3400000\n"),
              ("cpu0/cpufreq/cpuinfo_min_freq", "800000\n"),
              ("cpu0/cpufreq/scaling_max_freq", "2000000\n"),
              ("cpu0/cpufreq/scaling_min_freq", "800000\n"),
              ("cpu0/cpufreq/scaling_governor", "powersave\n"),
              ("intel_pstate/no_turbo", "0\n"),
              ("intel_pstate/max_perf_pct", "59\n"),
              ("intel_pstate/min_perf_pct", "23\n")],
    denied := [],
    log := [] }

/-! ## Facts about the rounding -/

/-- The worker finds the highest set bit when the fuel is at least the number. -/
theorem ilog2Aux_spec : ∀ (f n : Nat), n ≤ f → n ≠ 0 →
    2 ^ ilog2Aux f n ≤ n ∧ n < 2 ^ (ilog2Aux f n + 1) := by
  intro f
  induction f with
  | zero => intro n h h0; omega
  | succ f ih =>
    intro n h h0
    unfold ilog2Aux
    by_cases h2 : n < 2
    · rw [if_pos h2]
      constructor <;> simp <;> omega
    · rw [if_neg h2]
      have hn : n / 2 ≤ f := by omega
      have hn0 : n / 2 ≠ 0 := by omega
      obtain ⟨h3, h4⟩ := ih (n / 2) hn hn0
      rw [pow_succ] at h4
      rw [pow_succ, pow_succ]
      constructor <;> omega

/-- The highest set bit brackets the number between two powers of two. -/
theorem ilog2_spec (n : Nat) (h0 : n ≠ 0) : 2 ^ ilog2 n ≤ n ∧ n < 2 ^ (ilog2 n + 1) :=
  ilog2Aux_spec n n (le_refl n) h0

/-- Rounding to nearest moves the quotient by at most one half. -/
theorem roundNearestEven_spec (n d : Nat) (hd : 0 < d) :
    2 * (roundNearestEven n d * d) ≤ 2 * n + d ∧ 2 * n ≤ 2 * (roundNearestEven n d * d) + d := by
  have h1 : d * (n / d) + n % d = n := Nat.div_add_mod n d
  have h2 : n % d < d := Nat.mod_lt n hd
  have h3 : (n / d + 1) * d = d * (n / d) + d := by ring
  have h4 : n / d * d = d * (n / d) := by ring
  unfold roundNearestEven
  simp only []
  split_ifs <;> rw [h3] at * <;> omega

/-- After scaling, the quotient that is rounded is at least `2^52`. -/
theorem fl_scale (n d : Nat) (hn : n ≠ 0) (hd : d ≠ 0) :
    2 ^ 52 * (d * 2 ^ (ilog2 n - (ilog2 d + 53))) ≤ n * 2 ^ ((ilog2 d + 53) - ilog2 n) := by
  obtain ⟨hn1, -⟩ := ilog2_spec n hn
  obtain ⟨-, hd2⟩ := ilog2_spec d hd
  have e : ilog2 n + ((ilog2 d + 53) - ilog2 n) = 52 + (ilog2 d + 1) + (ilog2 n - (ilog2 d + 53)) := by
    omega
  calc 2 ^ 52 * (d * 2 ^ (ilog2 n - (ilog2 d + 53)))
      ≤ 2 ^ 52 * (2 ^ (ilog2 d + 1) * 2 ^ (ilog2 n - (ilog2 d + 53))) := by
        apply Nat.mul_le_mul_left
        apply Nat.mul_le_mul_right
        exact le_of_lt hd2
    _ = 2 ^ ilog2 n * 2 ^ ((ilog2 d + 53) - ilog2 n) := by
        rw [← pow_add, ← pow_add, ← pow_add, e]; congr 1; omega
    _ ≤ n * 2 ^ ((ilog2 d + 53) - ilog2 n) := Nat.mul_le_mul_right _ hn1

/-- The relative error of one rounding is at most `2^-53` (stated without division). -/
theorem fl_bounds (n d : Nat) (hd : 0 < d) :
    0 < (fl n d).2 ∧
    2 ^ 53 * ((fl n d).1 * d) ≤ (2 ^ 53 + 1) * (n * (fl n d).2) ∧
    (2 ^ 53 - 1) * (n * (fl n d).2) ≤ 2 ^ 53 * ((fl n d).1 * d) := by
  by_cases hn : n = 0
  · subst hn
    simp [fl]
  · have hsc := fl_scale n d hn (by omega)
    unfold fl
    rw [if_neg hn]
    simp only []
    generalize ha : (ilog2 d + 53) - ilog2 n = a at hsc ⊢
    generalize hb : ilog2 n - (ilog2 d + 53) = b at hsc ⊢
    have hA : 0 < 2 ^ a := Nat.pow_pos (by norm_num)
    refine ⟨hA, ?_⟩
    have key : ∀ b2 : Nat, 2 ^ 52 * (d * 2 ^ b2) ≤ n * 2 ^ a →
        2 ^ 53 * (roundNearestEven (n * 2 ^ a) (d * 2 ^ b2) * 2 ^ b2 * d)
          ≤ (2 ^ 53 + 1) * (n * 2 ^ a) ∧
        (2 ^ 53 - 1) * (n * 2 ^ a)
          ≤ 2 ^ 53 * (roundNearestEven (n * 2 ^ a) (d * 2 ^ b2) * 2 ^ b2 * d) := by
      intro b2 h
      have hD : 0 < d * 2 ^ b2 := Nat.mul_pos hd (Nat.pow_pos (by norm_num))
      obtain ⟨r1, r2⟩ := roundNearestEven_spec (n * 2 ^ a) (d * 2 ^ b2) hD
      have e : roundNearestEven (n * 2 ^ a) (d * 2 ^ b2) * 2 ^ b2 * d
          = roundNearestEven (n * 2 ^ a) (d * 2 ^ b2) * (d * 2 ^ b2) := by ring
      rw [e]
      generalize roundNearestEven (n * 2 ^ a) (d * 2 ^ b2) * (d * 2 ^ b2) = mD at r1 r2 ⊢
      generalize n * 2 ^ a = N at h r1 r2 ⊢
      generalize d * 2 ^ b2 = D at h r1 r2 ⊢
      norm_num at h ⊢
      constructor <;> omega
    split_ifs with hlt
    · exact key b hsc
    · apply key (b + 1)
      have hD : 0 < d * 2 ^ b := Nat.mul_pos hd (Nat.pow_pos (by norm_num))
      have h1 : 2 ^ 53 ≤ n * 2 ^ a / (d * 2 ^ b) := by omega
      have h2 := (Nat.le_div_iff_mul_le hD).mp h1
      calc 2 ^ 52 * (d * 2 ^ (b + 1)) = 2 ^ 53 * (d * 2 ^ b) := by ring
        _ ≤ n * 2 ^ a := h2
/-- Rounding to nearest keeps a quotient between two integers that enclose it. -/
theorem roundNearestEven_mono_bounds (n d lo hi : Nat) (hd : 0 < d)
    (h1 : lo * d ≤ n) (h2 : n < hi * d) :
    lo ≤ roundNearestEven n d ∧ roundNearestEven n d ≤ hi := by
  have hq1 : lo ≤ n / d := (Nat.le_div_iff_mul_le hd).mpr h1
  have hq2 : n / d < hi := (Nat.div_lt_iff_lt_mul hd).mpr h2
  unfold roundNearestEven
  simp only []
  split_ifs <;> omega

/-- The significand that `fl` rounds to lies between `2^52` and `2^53`: the
result is a binary64 number. -/
theorem fl_significand (n d : Nat) (hn : n ≠ 0) (hd : d ≠ 0) :
    ∃ m e2 : Nat, fl n d = (m * 2 ^ e2, 2 ^ ((ilog2 d + 53) - ilog2 n)) ∧
      2 ^ 52 ≤ m ∧ m ≤ 2 ^ 53 := by
  have hsc := fl_scale n d hn hd
  obtain ⟨-, hn2⟩ := ilog2_spec n hn
  obtain ⟨hd1, -⟩ := ilog2_spec d hd
  have hup : n * 2 ^ ((ilog2 d + 53) - ilog2 n)
      < 2 ^ 54 * (d * 2 ^ (ilog2 n - (ilog2 d + 53))) := by
    have e : ilog2 n + 1 + ((ilog2 d + 53) - ilog2 n)
        = 54 + (ilog2 d + (ilog2 n - (ilog2 d + 53))) := by omega
    calc n * 2 ^ ((ilog2 d + 53) - ilog2 n)
        < 2 ^ (ilog2 n + 1) * 2 ^ ((ilog2 d + 53) - ilog2 n) :=
          Nat.mul_lt_mul_of_pos_right hn2 (Nat.pow_pos (by norm_num))
      _ = 2 ^ 54 * (2 ^ ilog2 d * 2 ^ (ilog2 n - (ilog2 d + 53))) := by
          rw [← pow_add, ← pow_add, ← pow_add, e]
      _ ≤ 2 ^ 54 * (d * 2 ^ (ilog2 n - (ilog2 d + 53))) := by
          apply Nat.mul_le_mul_left
          exact Nat.mul_le_mul_right _ hd1
  unfold fl
  rw [if_neg hn]
  simp only []
  generalize (ilog2 d + 53) - ilog2 n = a at hsc hup ⊢
  generalize ilog2 n - (ilog2 d + 53) = b at hsc hup ⊢
  have hD : 0 < d * 2 ^ b := Nat.mul_pos (by omega) (Nat.pow_pos (by norm_num))
  split_ifs with hlt
  · refine ⟨_, b, rfl, ?_⟩
    apply roundNearestEven_mono_bounds _ _ _ _ hD
    · exact hsc
    · exact (Nat.div_lt_iff_lt_mul hD).mp hlt
  · refine ⟨_, b + 1, rfl, ?_⟩
    have hD2 : 0 < d * 2 ^ (b + 1) := Nat.mul_pos (by omega) (Nat.pow_pos (by norm_num))
    apply roundNearestEven_mono_bounds _ _ _ _ hD2
    · have h1 : 2 ^ 53 ≤ n * 2 ^ a / (d * 2 ^ b) := by omega
      have h2 := (Nat.le_div_iff_mul_le hD).mp h1
      calc 2 ^ 52 * (d * 2 ^ (b + 1)) = 2 ^ 53 * (d * 2 ^ b) := by ring
        _ ≤ n * 2 ^ a := h2
    · calc n * 2 ^ a < 2 ^ 54 * (d * 2 ^ b) := hup
        _ = 2 ^ 53 * (d * 2 ^ (b + 1)) := by ring
/-- Two values of the rounding, as any binary64 implementation gives them: the
double nearest to `29/100` is `5224175567749775 / 2^54` (`0x1.28f5c28f5c28fp-2`),
which lies below `29/100`; the product of 3400000 with it rounds to
`8469675507711999 / 2^33` (985999.9999999999 when printed), just below 986000. -/
theorem fl_examples :
    fl 29 100 = (5224175567749775 * 2, 2 ^ 55) ∧
    fl (3400000 * (5224175567749775 * 2)) (2 ^ 55) = (8469675507711999 * 2, 2 ^ 34) ∧
    8469675507711999 * 2 / 2 ^ 34 = 985999 := by
  decide

/-- The relative error of one rounding is at most `2^-53`. -/
theorem fl_val (n d : Nat) (hd : 0 < d) :
    0 < (fl n d).2 ∧
    (n : ℚ) / d * (1 - 1 / 2 ^ 53) ≤ fracVal (fl n d) ∧
    fracVal (fl n d) ≤ (n : ℚ) / d * (1 + 1 / 2 ^ 53) := by
  obtain ⟨h0, h1, h2⟩ := fl_bounds n d hd
  have hd' : (0 : ℚ) < d := by exact_mod_cast hd
  have h0' : (0 : ℚ) < ((fl n d).2 : ℚ) := by exact_mod_cast h0
  have h1' : (2 ^ 53 : ℚ) * (((fl n d).1 : ℚ) * d) ≤ (2 ^ 53 + 1) * ((n : ℚ) * (fl n d).2) := by
    exact_mod_cast h1
  have h2' : ((2 ^ 53 - 1 : ℕ) : ℚ) * ((n : ℚ) * (fl n d).2) ≤ 2 ^ 53 * (((fl n d).1 : ℚ) * d) := by
    exact_mod_cast h2
  have e : ((2 ^ 53 - 1 : ℕ) : ℚ) = 2 ^ 53 - 1 := by norm_num
  rw [e] at h2'
  refine ⟨h0, ?_, ?_⟩
  · unfold fracVal
    rw [le_div_iff₀ h0', div_mul_eq_mul_div, div_mul_eq_mul_div, div_le_iff₀ hd']
    norm_num at h2' ⊢
    linarith
  · unfold fracVal
    rw [div_le_iff₀ h0', div_mul_eq_mul_div, div_mul_eq_mul_div, le_div_iff₀ hd']
    norm_num at h1' ⊢
    linarith

/-- Two roundings in a row, as in `c * (a / b)` and in `(a / b) * c`: the result
stays within a relative distance of `3 / 2^53` of the exact quotient. -/
theorem fl_twice (a b c : Nat) (hb : 0 < b) :
    0 < (fl (c * (fl a b).1) (fl a b).2).2 ∧
    ((c * a : ℕ) : ℚ) / b * (1 - 2 / 2 ^ 53) ≤ fracVal (fl (c * (fl a b).1) (fl a b).2) ∧
    fracVal (fl (c * (fl a b).1) (fl a b).2) ≤ ((c * a : ℕ) : ℚ) / b * (1 + 3 / 2 ^ 53) := by
  obtain ⟨p1, l1, u1⟩ := fl_val a b hb
  obtain ⟨p2, l2, u2⟩ := fl_val (c * (fl a b).1) (fl a b).2 p1
  refine ⟨p2, ?_, ?_⟩
  · have hx : (0 : ℚ) ≤ (a : ℚ) / b := by positivity
    have hc : (0 : ℚ) ≤ (c : ℚ) := by positivity
    have e : ((c * (fl a b).1 : ℕ) : ℚ) / ((fl a b).2 : ℚ) = c * fracVal (fl a b) := by
      unfold fracVal; push_cast; ring
    rw [e] at l2
    have s1 : (c : ℚ) * ((a : ℚ) / b * (1 - 1 / 2 ^ 53)) * (1 - 1 / 2 ^ 53)
        ≤ c * fracVal (fl a b) * (1 - 1 / 2 ^ 53) := by
      apply mul_le_mul_of_nonneg_right _ (by norm_num)
      exact mul_le_mul_of_nonneg_left l1 hc
    have s2 : ((c * a : ℕ) : ℚ) / b * (1 - 2 / 2 ^ 53)
        ≤ (c : ℚ) * ((a : ℚ) / b * (1 - 1 / 2 ^ 53)) * (1 - 1 / 2 ^ 53) := by
      have hy : (0 : ℚ) ≤ (c : ℚ) * ((a : ℚ) / b) := mul_nonneg hc hx
      have e2 : ((c * a : ℕ) : ℚ) / b = (c : ℚ) * ((a : ℚ) / b) := by push_cast; ring
      rw [e2, ← mul_assoc]
      generalize (c : ℚ) * ((a : ℚ) / b) = y at hy
      norm_num
      linarith
    linarith
  · have hx : (0 : ℚ) ≤ (a : ℚ) / b := by positivity
    have hc : (0 : ℚ) ≤ (c : ℚ) := by positivity
    have e : ((c * (fl a b).1 : ℕ) : ℚ) / ((fl a b).2 : ℚ) = c * fracVal (fl a b) := by
      unfold fracVal; push_cast; ring
    rw [e] at u2
    have s1 : (c : ℚ) * fracVal (fl a b) * (1 + 1 / 2 ^ 53)
        ≤ c * ((a : ℚ) / b * (1 + 1 / 2 ^ 53)) * (1 + 1 / 2 ^ 53) := by
      apply mul_le_mul_of_nonneg_right _ (by norm_num)
      exact mul_le_mul_of_nonneg_left u1 hc
    have s2 : (c : ℚ) * ((a : ℚ) / b * (1 + 1 / 2 ^ 53)) * (1 + 1 / 2 ^ 53)
        ≤ ((c * a : ℕ) : ℚ) / b * (1 + 3 / 2 ^ 53) := by
      have hy : (0 : ℚ) ≤ (c : ℚ) * ((a : ℚ) / b) := mul_nonneg hc hx
      have e2 : ((c * a : ℕ) : ℚ) / b = (c : ℚ) * ((a : ℚ) / b) := by push_cast; ring
      rw [e2, ← mul_assoc]
      generalize (c : ℚ) * ((a : ℚ) / b) = y at hy
      norm_num
      linarith
    linarith

/-- Truncating the twice-rounded value of `c * a / b`: the integer quotient, or
one less, and one less only when the division is exact. -/
theorem fl_twice_floor (a b c : Nat) (hb : 0 < b) (h : 3 * (c * a) < 2 ^ 53) :
    (fl (c * (fl a b).1) (fl a b).2).1 / (fl (c * (fl a b).1) (fl a b).2).2 ≤ c * a / b ∧
    c * a / b ≤ (fl (c * (fl a b).1) (fl a b).2).1 / (fl (c * (fl a b).1) (fl a b).2).2 + 1 ∧
    (¬ b ∣ c * a →
      (fl (c * (fl a b).1) (fl a b).2).1 / (fl (c * (fl a b).1) (fl a b).2).2 = c * a / b) := by
  obtain ⟨hp, hl, hu⟩ := fl_twice a b c hb
  generalize fl (c * (fl a b).1) (fl a b).2 = r at hp hl hu ⊢
  generalize c * a = P at h hl hu ⊢
  have hbq : (0 : ℚ) < (b : ℚ) := by exact_mod_cast hb
  have hr2 : (0 : ℚ) < (r.2 : ℚ) := by exact_mod_cast hp
  -- the truncated value
  have f1 : ((r.1 / r.2 : ℕ) : ℚ) ≤ fracVal r := by
    unfold fracVal
    rw [le_div_iff₀ hr2]
    exact_mod_cast Nat.div_mul_le_self r.1 r.2
  have f2 : fracVal r < ((r.1 / r.2 : ℕ) : ℚ) + 1 := by
    unfold fracVal
    rw [div_lt_iff₀ hr2]
    have := Nat.lt_div_mul_add hp (a := r.1)
    have e : r.1 / r.2 * r.2 + r.2 = (r.1 / r.2 + 1) * r.2 := by ring
    rw [e] at this
    exact_mod_cast this
  generalize r.1 / r.2 = f at f1 f2 ⊢
  generalize fracVal r = v at hl hu f1 f2
  -- the exact quotient
  have hdm : b * (P / b) + P % b = P := Nat.div_add_mod P b
  have hmod : P % b < b := Nat.mod_lt P hb
  have hX : (P : ℚ) / b = ((P / b : ℕ) : ℚ) + ((P % b : ℕ) : ℚ) / b := by
    have e : (P : ℚ) = b * ((P / b : ℕ) : ℚ) + ((P % b : ℕ) : ℚ) := by exact_mod_cast hdm.symm
    field_simp
    linarith
  have hm1 : ((P % b : ℕ) : ℚ) / b + 1 / b ≤ 1 := by
    rw [← add_div, div_le_one hbq]
    exact_mod_cast hmod
  have hm0 : (0 : ℚ) ≤ ((P % b : ℕ) : ℚ) / b := by positivity
  have hm2 : P % b ≠ 0 → 1 / (b : ℚ) ≤ ((P % b : ℕ) : ℚ) / b := by
    intro hne
    rw [div_le_div_iff_of_pos_right hbq]
    have : 1 ≤ P % b := by omega
    exact_mod_cast this
  have hε : (P : ℚ) / b * (3 / 2 ^ 53) < 1 / b := by
    rw [div_mul_eq_mul_div, div_lt_div_iff_of_pos_right hbq]
    have : ((3 * P : ℕ) : ℚ) < ((2 ^ 53 : ℕ) : ℚ) := by exact_mod_cast h
    push_cast at this
    norm_num at this ⊢
    linarith
  have hP0 : (0 : ℚ) ≤ (P : ℚ) / b := by positivity
  have hib : (0 : ℚ) < 1 / (b : ℚ) := by positivity
  have hib1 : 1 / (b : ℚ) ≤ 1 := by
    rw [div_le_one hbq]
    exact_mod_cast hb
  generalize (P : ℚ) / b = X at hl hu hX hε hP0
  generalize ((P % b : ℕ) : ℚ) / b = ρ at hX hm1 hm0 hm2
  generalize 1 / (b : ℚ) = ib at hm1 hε hib hib1 hm2
  refine ⟨?_, ?_, ?_⟩
  · have : (f : ℚ) < ((P / b : ℕ) : ℚ) + 1 := by norm_num at hu hε; linarith
    have : f < P / b + 1 := by exact_mod_cast this
    omega
  · have : ((P / b : ℕ) : ℚ) < (f : ℚ) + 1 + 1 := by norm_num at hl hε; linarith
    have : P / b < f + 1 + 1 := by exact_mod_cast this
    omega
  · intro hdvd
    have hne : P % b ≠ 0 := fun h0 => hdvd (Nat.dvd_of_mod_eq_zero h0)
    have hm3 := hm2 hne
    have : ((P / b : ℕ) : ℚ) < (f : ℚ) + 1 := by norm_num at hl hε; linarith
    have h4 : P / b < f + 1 := by exact_mod_cast this
    have : (f : ℚ) < ((P / b : ℕ) : ℚ) + 1 := by norm_num at hu hε; linarith
    have h5 : f < P / b + 1 := by exact_mod_cast this
    omega

/-- What `freq_of` computes for a non-negative percent whose frequency fits an
`int`: the exact integer quotient `max * n / 100`, or one less, and one less only
when `100` divides `max * n`. -/
theorem freq_of_spec (F k : Nat) (h : F * k < 100 * 2 ^ 31) :
    ∃ f : Nat, freq_of F (k : Int) = some (f : Int) ∧
      f ≤ F * k / 100 ∧ F * k / 100 ≤ f + 1 ∧ (¬ 100 ∣ F * k → f = F * k / 100) := by
  obtain ⟨h1, h2, h3⟩ := fl_twice_floor k 100 F (by norm_num) (by omega)
  refine ⟨(fl (F * (fl k 100).1) (fl k 100).2).1 / (fl (F * (fl k 100).1) (fl k 100).2).2,
    ?_, h1, h2, h3⟩
  have hlt : (fl (F * (fl k 100).1) (fl k 100).2).1 / (fl (F * (fl k 100).1) (fl k 100).2).2
      < 2 ^ 31 := by
    have : F * k / 100 < 2 ^ 31 := by omega
    omega
  have hnn : ¬ ((k : Int) < 0) := by omega
  simp only [freq_of, Dbl.div, Dbl.ofInt, Dbl.ofNat, Dbl.mul, Dbl.toInt32, Dbl.trunc,
    Int.natAbs_ofNat, Nat.mul_one, Nat.one_mul, hnn, decide_False, Bool.xor_false,
    Bool.false_eq_true, if_false, show ¬ ((100 : Nat) = 0) by norm_num]
  generalize (fl (F * (fl k 100).1) (fl k 100).2).1 / (fl (F * (fl k 100).1) (fl k 100).2).2
    = f at hlt
  have c1 : -(2 : Int) ^ 31 ≤ (f : Int) := by
    have : (0 : Int) ≤ (f : Int) := Int.natCast_nonneg f
    norm_num
    omega
  have c2 : (f : Int) < 2 ^ 31 := by exact_mod_cast hlt
  rw [if_pos ⟨c1, c2⟩]

/-- What `percent_of` computes when the percentage fits an `unsigned int`: the
exact integer quotient `100 * a / max`, or one less, and one less only when `max`
divides `100 * a`. -/
theorem percent_of_spec (a F : Nat) (hF : 0 < F) (ha : a < 2 ^ 32) (h : 100 * a / F < 2 ^ 32) :
    ∃ q : Nat, percent_of a F = some q ∧
      q ≤ 100 * a / F ∧ 100 * a / F ≤ q + 1 ∧ (¬ F ∣ 100 * a → q = 100 * a / F) := by
  obtain ⟨h1, h2, h3⟩ := fl_twice_floor a F 100 hF (by omega)
  refine ⟨(fl (100 * (fl a F).1) (fl a F).2).1 / (fl (100 * (fl a F).1) (fl a F).2).2,
    ?_, h1, h2, h3⟩
  have hlt : (fl (100 * (fl a F).1) (fl a F).2).1 / (fl (100 * (fl a F).1) (fl a F).2).2
      < 2 ^ 32 := by omega
  have hF0 : F ≠ 0 := by omega
  simp only [percent_of, Dbl.div, Dbl.ofNat, Dbl.mul, Dbl.toUInt32, Dbl.trunc,
    Nat.mul_one, Nat.one_mul, hF0, Bool.xor_false, Bool.false_eq_true, if_false,
    Nat.mul_comm (fl a F).1 100]
  generalize (fl (100 * (fl a F).1) (fl a F).2).1 / (fl (100 * (fl a F).1) (fl a F).2).2
    = q at hlt
  have c1 : (0 : Int) ≤ (q : Int) := Int.natCast_nonneg q
  have c2 : (q : Int) < 2 ^ 32 := by exact_mod_cast hlt
  rw [if_pos ⟨c1, c2⟩, Int.toNat_ofNat]

/-- Percent to frequency and back, for a maximum frequency of at least 101: the
percent comes back, or one less. -/
theorem percent_roundtrip (F p : Nat) (hF : 101 ≤ F) (hF2 : F < 2 ^ 31) (hp : p ≤ 100) :
    ∃ a q : Nat, freq_of F (p : Int) = some (a : Int) ∧ percent_of a F = some q ∧
      a ≤ F * p / 100 ∧ q ≤ p ∧ p ≤ q + 1 := by
  have hFp : F * p < 100 * 2 ^ 31 := by
    calc F * p ≤ F * 100 := Nat.mul_le_mul_left F hp
      _ < 100 * 2 ^ 31 := by omega
  obtain ⟨f, hf, f1, f2, f3⟩ := freq_of_spec F p hFp
  have hTF : F * p / 100 ≤ F := by
    apply Nat.div_le_of_le_mul
    calc F * p ≤ F * 100 := Nat.mul_le_mul_left F hp
      _ = 100 * F := Nat.mul_comm _ _
  have hfF : f ≤ F := le_trans f1 hTF
  have hq100 : 100 * f / F ≤ 100 := by
    apply Nat.div_le_of_le_mul
    calc 100 * f ≤ 100 * F := Nat.mul_le_mul_left 100 hfF
      _ = F * 100 := Nat.mul_comm _ _
  obtain ⟨q, hq, q1, q2, q3⟩ := percent_of_spec f F (by omega) (by omega) (by omega)
  refine ⟨f, q, hf, hq, f1, ?_, ?_⟩
  · -- q ≤ p
    have h1 : 100 * f / F * F ≤ 100 * f := Nat.div_mul_le_self _ _
    have h2 : 100 * (F * p / 100) ≤ F * p := Nat.mul_div_le _ _
    have h3 : 100 * f / F * F ≤ p * F := by
      calc 100 * f / F * F ≤ 100 * f := h1
        _ ≤ 100 * (F * p / 100) := Nat.mul_le_mul_left 100 f1
        _ ≤ F * p := h2
        _ = p * F := Nat.mul_comm _ _
    have h4 : 100 * f / F ≤ p := Nat.le_of_mul_le_mul_right h3 (by omega)
    omega
  · -- p ≤ q + 1
    have hFP : F * p ≤ 100 * f + 100 := by
      have hd : 100 ∣ F * p ↔ F * p % 100 = 0 := Nat.dvd_iff_mod_eq_zero
      rw [hd] at f3
      generalize F * p = FP at f1 f2 f3
      by_cases h0 : FP % 100 = 0
      · omega
      · have := f3 h0; omega
    have hlt : F * p < 100 * f + F := by omega
    by_cases hdv : F ∣ 100 * f
    · have e : F * (100 * f / F) = 100 * f := Nat.mul_div_cancel' hdv
      have h5 : F * p < F * (100 * f / F + 1) := by
        rw [Nat.mul_add, e]; omega
      have h6 : p < 100 * f / F + 1 := Nat.lt_of_mul_lt_mul_left h5
      omega
    · have e := q3 hdv
      have h7 : 100 * f < (100 * f / F + 1) * F := by
        have := Nat.lt_div_mul_add (by omega : 0 < F) (a := 100 * f)
        rw [Nat.add_mul]; omega
      have h8 : p * F < (100 * f / F + 2) * F := by
        rw [Nat.mul_comm p F]
        have e2 : (100 * f / F + 2) * F = (100 * f / F + 1) * F + F := by ring
        omega
      have h9 : p < 100 * f / F + 2 := Nat.lt_of_mul_lt_mul_right h8
      omega

/-! ## Facts about the text conversions -/

/-- The ten digit characters: each is a digit, has the expected value, and is
neither white space nor a minus sign. -/
theorem digitChar_facts (k : Nat) (hk : k < 10) :
    (Nat.digitChar k).isDigit = true ∧ (Nat.digitChar k).toNat - 48 = k ∧
    (Nat.digitChar k).isWhitespace = false ∧ Nat.digitChar k ≠ '-' := by
  interval_cases k <;> decide

/-- Reading back the digits that `Nat.toDigitsCore` produces gives the number. -/
theorem toDigitsCore_fold : ∀ (fuel n : Nat) (ds : List Char), n < fuel →
    (Nat.toDigitsCore 10 fuel n ds).foldl digitStep (some 0) = ds.foldl digitStep (some n) := by
  intro fuel
  induction fuel with
  | zero => intro n ds h; omega
  | succ fuel ih =>
    intro n ds h
    obtain ⟨d1, d2, -, -⟩ := digitChar_facts (n % 10) (Nat.mod_lt n (by norm_num))
    unfold Nat.toDigitsCore
    simp only []
    split_ifs with h0
    · have hn : n % 10 = n := by omega
      simp only [List.foldl_cons, digitStep, Option.bind, d1, d2, if_true]
      rw [hn, Nat.mul_zero, Nat.zero_add]
    · rw [ih (n / 10) _ (by omega)]
      simp only [List.foldl_cons, digitStep, Option.bind, d1, d2, if_true]
      have hn : 10 * (n / 10) + n % 10 = n := Nat.div_add_mod n 10
      rw [hn]

/-- The digits produced end with the units digit and are all digits. -/
theorem toDigitsCore_shape : ∀ (fuel n : Nat) (ds : List Char), 0 < fuel →
    ∃ pre : List Char, (∀ c ∈ pre, c.isDigit = true) ∧
      Nat.toDigitsCore 10 fuel n ds = pre ++ Nat.digitChar (n % 10) :: ds := by
  intro fuel
  induction fuel with
  | zero => intro n ds h; omega
  | succ fuel ih =>
    intro n ds _
    unfold Nat.toDigitsCore
    simp only []
    split_ifs with h0
    · exact ⟨[], by simp, rfl⟩
    · rcases Nat.eq_zero_or_pos fuel with hz | hpos
      · subst hz
        exact ⟨[], by simp, by simp [Nat.toDigitsCore]⟩
      · obtain ⟨pre, hpre, e⟩ := ih (n / 10) (Nat.digitChar (n % 10) :: ds) hpos
        refine ⟨pre ++ [Nat.digitChar (n / 10 % 10)], ?_, ?_⟩
        · intro c hc
          rcases List.mem_append.mp hc with h1 | h1
          · exact hpre c h1
          · have : c = Nat.digitChar (n / 10 % 10) := by simpa using h1
            rw [this]
            exact (digitChar_facts _ (Nat.mod_lt _ (by norm_num))).1
        · rw [e]; simp

/-- The decimal text of a number: digits only, the last one being the units. -/
theorem repr_shape (n : Nat) :
    ∃ pre : List Char, (∀ c ∈ pre, c.isDigit = true) ∧
      (Nat.repr n).data = pre ++ [Nat.digitChar (n % 10)] := by
  obtain ⟨pre, h1, h2⟩ := toDigitsCore_shape (n + 1) n [] (by omega)
  exact ⟨pre, h1, by simp [Nat.repr, Nat.toDigits, h2, List.asString]⟩

/-- The decimal text of a number has no white space to trim. -/
theorem trimRight_repr (n : Nat) : trimRight (Nat.repr n).data = (Nat.repr n).data := by
  obtain ⟨pre, -, e⟩ := repr_shape n
  obtain ⟨-, -, d3, -⟩ := digitChar_facts (n % 10) (Nat.mod_lt n (by norm_num))
  rw [e]
  unfold trimRight
  rw [List.reverse_append, List.reverse_singleton, List.singleton_append,
    List.dropWhile_cons_of_neg (by simp [d3])]
  simp

/-- Parsing the decimal text of a number gives the number back. -/
theorem parseNat_repr (n : Nat) : parseNat (Nat.repr n).data = some n := by
  unfold parseNat
  rw [trimRight_repr]
  have hne : (Nat.repr n).data ≠ [] := by
    obtain ⟨pre, -, e⟩ := repr_shape n
    rw [e]; simp
  rw [if_neg hne]
  have := toDigitsCore_fold (n + 1) n [] (by omega)
  simpa [Nat.repr, Nat.toDigits, List.asString] using this

/-- The unsigned conversion reads back a number that fits 32 bits. -/
theorem strings_to_uint_repr (n : Nat) (h : n < 2 ^ 32) :
    psfreq_strings_to_uint (Nat.repr n) = n := by
  unfold psfreq_strings_to_uint
  rw [parseNat_repr]
  simp only []
  rw [if_pos h]

/-- The int conversion reads back what `%d` printed. -/
theorem strings_to_int_fmtInt (i : Int) (h1 : -(2 : Int) ^ 31 ≤ i) (h2 : i < (2 : Int) ^ 31) :
    psfreq_strings_to_int (fmtInt i) = i := by
  unfold psfreq_strings_to_int fmtInt
  by_cases hneg : i < 0
  · rw [if_pos hneg]
    have e : ("-" ++ Nat.repr i.natAbs).data = '-' :: (Nat.repr i.natAbs).data := by
      simp [String.data_append]
    rw [e]
    simp only [if_true]
    rw [parseNat_repr]
    simp only []
    have hle : i.natAbs ≤ 2 ^ 31 := by omega
    rw [if_pos hle]
    omega
  · rw [if_neg hneg]
    obtain ⟨pre, hpre, e⟩ := repr_shape i.toNat
    have hp := parseNat_repr i.toNat
    obtain ⟨d1, -, -, d4⟩ := digitChar_facts (i.toNat % 10) (Nat.mod_lt _ (by norm_num))
    cases hdata : (Nat.repr i.toNat).data with
    | nil => rw [hdata] at e; simp at e
    | cons c cs =>
      rw [hdata] at hp
      simp only []
      have hc : c ≠ '-' := by
        rw [hdata] at e
        cases pre with
        | nil =>
          simp at e
          rw [e.1]; exact d4
        | cons c2 pre2 =>
          simp at e
          have : c.isDigit = true := by rw [e.1]; exact hpre c2 (by simp)
          intro hcc
          rw [hcc] at this
          exact absurd this (by decide)
      rw [if_neg hc, hp]
      simp only []
      have hlt : i.toNat < 2 ^ 31 := by omega
      rw [if_pos hlt]
      omega

/-- A read undoes the line terminator that a write appends. -/
theorem trimLine_append_newline (s : String) : trimLine (s ++ "\n") = s := by
  unfold trimLine
  have e : (s ++ "\n").data = s.data ++ [newline] := by
    simp [String.data_append, newline]
  rw [e]
  simp

/-! ## Facts about the sysfs accessor and the per-CPU loop -/

/-- A write succeeds exactly on a path that does not refuse writes. -/
theorem write_fst (s : Sysfs) (p d : String) :
    (psfreq_sysfs_write s p d).1 = true ↔ p ∉ s.denied := by
  unfold psfreq_sysfs_write
  split_ifs with h <;> simp [h]

/-- A write does not change which paths refuse writes. -/
theorem write_denied (s : Sysfs) (p d : String) :
    (psfreq_sysfs_write s p d).2.denied = s.denied := by
  unfold psfreq_sysfs_write
  split_ifs <;> rfl

/-- Every write, successful or not, is added to the record. -/
theorem write_log (s : Sysfs) (p d : String) :
    (psfreq_sysfs_write s p d).2.log = s.log ++ [(p, d)] := by
  unfold psfreq_sysfs_write
  split_ifs <;> rfl

/-- After a successful write the file reads as the text written. -/
theorem read_write_same (s : Sysfs) (p d : String) (h : p ∉ s.denied) :
    psfreq_sysfs_read (psfreq_sysfs_write s p d).2 p = some d := by
  unfold psfreq_sysfs_write psfreq_sysfs_read
  rw [if_neg h]
  simp [List.lookup, trimLine_append_newline]

/-- A write leaves every other file as it was. -/
theorem read_write_other (s : Sysfs) (p q d : String) (h : q ≠ p) :
    psfreq_sysfs_read (psfreq_sysfs_write s p d).2 q = psfreq_sysfs_read s q := by
  unfold psfreq_sysfs_write psfreq_sysfs_read
  split_ifs
  · rfl
  · have : (q == p) = false := by simpa using h
    simp [List.lookup, this]

/-- A refused write leaves every file as it was. -/
theorem read_write_denied (s : Sysfs) (p q d : String) (h : p ∈ s.denied) :
    psfreq_sysfs_read (psfreq_sysfs_write s p d).2 q = psfreq_sysfs_read s q := by
  unfold psfreq_sysfs_write psfreq_sysfs_read
  rw [if_pos h]

/-- Writing to a list of paths does not change which paths refuse writes. -/
theorem write_all_denied (d : String) : ∀ (ps : List String) (s : Sysfs),
    (write_all d s ps).denied = s.denied := by
  intro ps
  induction ps with
  | nil => intro s; rfl
  | cons p ps ih =>
    intro s
    show (write_all d (psfreq_sysfs_write s p d).2 ps).denied = s.denied
    rw [ih, write_denied]

/-- Writing to a list of paths adds exactly these writes to the record. -/
theorem write_all_log (d : String) : ∀ (ps : List String) (s : Sysfs),
    (write_all d s ps).log = s.log ++ ps.map (fun p => (p, d)) := by
  intro ps
  induction ps with
  | nil => intro s; simp [write_all]
  | cons p ps ih =>
    intro s
    show (write_all d (psfreq_sysfs_write s p d).2 ps).log = _
    rw [ih, write_log]
    simp

/-- Writing to a list of paths leaves alone the files outside it and those that refuse writes. -/
theorem write_all_read_other (d : String) (q : String) : ∀ (ps : List String) (s : Sysfs),
    (q ∉ ps ∨ q ∈ s.denied) →
    psfreq_sysfs_read (write_all d s ps) q = psfreq_sysfs_read s q := by
  intro ps
  induction ps with
  | nil => intro s _; rfl
  | cons p ps ih =>
    intro s h
    show psfreq_sysfs_read (write_all d (psfreq_sysfs_write s p d).2 ps) q = _
    rw [ih]
    · by_cases hqp : q = p
      · subst hqp
        rcases h with h | h
        · exact absurd (List.mem_cons_self _ _) h
        · exact read_write_denied s q q d h
      · exact read_write_other s p q d hqp
    · rcases h with h | h
      · left; exact fun hm => h (List.mem_cons_of_mem _ hm)
      · right; rw [write_denied]; exact h

/-- After writing to a list of paths, each writable one reads as the text written. -/
theorem write_all_read_same (d : String) (q : String) : ∀ (ps : List String) (s : Sysfs),
    q ∈ ps → q ∉ s.denied →
    psfreq_sysfs_read (write_all d s ps) q = some d := by
  intro ps
  induction ps with
  | nil => intro s h; simp at h
  | cons p ps ih =>
    intro s h hd
    show psfreq_sysfs_read (write_all d (psfreq_sysfs_write s p d).2 ps) q = _
    by_cases hq : q ∈ ps
    · exact ih _ hq (by rw [write_denied]; exact hd)
    · rw [write_all_read_other d q ps _ (Or.inl hq)]
      have : q = p := by
        rcases List.mem_cons.mp h with h1 | h1
        · exact h1
        · exact absurd h1 hq
      subst this
      exact read_write_same s q d hd

/-- The loop when every write succeeds: all `k` paths are written, the result is 1. -/
theorem fan_out_ok (d : String) (v : List String) : ∀ (k i : Nat) (s : Sysfs),
    i + k ≤ v.length → (∀ p ∈ (v.drop i).take k, p ∉ s.denied) →
    fan_out (fun t path => psfreq_sysfs_write t path d) v k i s
      = some (1, write_all d s ((v.drop i).take k)) := by
  intro k
  induction k with
  | zero => intro i s _ _; simp [fan_out, write_all]
  | succ k ih =>
    intro i s hlen hok
    have hi : i < v.length := by omega
    have hdrop : v.drop i = v[i] :: v.drop (i + 1) := List.drop_eq_getElem_cons hi
    have hget : v.get? i = some v[i] := by simp [List.getElem?_eq_getElem hi]
    rw [hdrop, List.take_succ_cons] at hok ⊢
    unfold fan_out
    rw [hget]
    simp only []
    have hw : (psfreq_sysfs_write s v[i] d).1 = true :=
      (write_fst s v[i] d).mpr (hok _ (List.mem_cons_self _ _))
    rw [if_pos hw, ih (i + 1) _ (by omega)]
    · rfl
    · intro p hp
      rw [write_denied]
      exact hok p (List.mem_cons_of_mem _ hp)

/-- The loop when the write at index `i + j` is the first that fails: the paths
before it are written, the failing write is attempted, nothing after it is, and
the result is 0. -/
theorem fan_out_fail (d : String) (v : List String) : ∀ (j k i : Nat) (s : Sysfs),
    j < k → i + k ≤ v.length → (∀ p ∈ (v.drop i).take j, p ∉ s.denied) →
    (∀ p, v.get? (i + j) = some p → p ∈ s.denied) →
    fan_out (fun t path => psfreq_sysfs_write t path d) v k i s
      = some (0, write_all d s ((v.drop i).take (j + 1))) := by
  intro j
  induction j with
  | zero =>
    intro k i s hjk hlen _ hbad
    have hi : i < v.length := by omega
    have hdrop : v.drop i = v[i] :: v.drop (i + 1) := List.drop_eq_getElem_cons hi
    have hget : v.get? i = some v[i] := by simp [List.getElem?_eq_getElem hi]
    obtain ⟨k, rfl⟩ : ∃ k', k = k' + 1 := ⟨k - 1, by omega⟩
    unfold fan_out
    rw [hget]
    simp only []
    have hw : ¬ (psfreq_sysfs_write s v[i] d).1 = true := by
      rw [write_fst]
      exact fun h => h (hbad _ hget)
    rw [if_neg hw, hdrop]
    rfl
  | succ j ih =>
    intro k i s hjk hlen hok hbad
    have hi : i < v.length := by omega
    have hdrop : v.drop i = v[i] :: v.drop (i + 1) := List.drop_eq_getElem_cons hi
    have hget : v.get? i = some v[i] := by simp [List.getElem?_eq_getElem hi]
    obtain ⟨k, rfl⟩ : ∃ k', k = k' + 1 := ⟨k - 1, by omega⟩
    rw [hdrop, List.take_succ_cons] at hok
    unfold fan_out
    rw [hget]
    simp only []
    have hw : (psfreq_sysfs_write s v[i] d).1 = true :=
      (write_fst s v[i] d).mpr (hok _ (List.mem_cons_self _ _))
    rw [if_pos hw, ih k (i + 1) _ (by omega) (by omega)]
    · rw [hdrop, List.take_succ_cons]
      rfl
    · intro p hp
      rw [write_denied]
      exact hok p (List.mem_cons_of_mem _ hp)
    · intro p hp
      rw [write_denied]
      apply hbad
      rw [← hp]
      congr 1
      omega

/-! ## Facts about the path vectors and the driver test -/

/-- Different numbers have different decimal texts. -/
theorem repr_injective (i j : Nat) (h : Nat.repr i = Nat.repr j) : i = j := by
  have hi := parseNat_repr i
  rw [h, parseNat_repr j] at hi
  exact (Option.some.inj hi).symm

/-- Different CPU indices have different paths. -/
theorem cpu_path_injective (what : String) (i j : Nat)
    (h : "cpu" ++ Nat.repr i ++ "/cpufreq/scaling_" ++ what
       = "cpu" ++ Nat.repr j ++ "/cpufreq/scaling_" ++ what) : i = j := by
  have h1 := congrArg String.data h
  simp only [String.data_append, List.append_assoc] at h1
  have h2 := List.append_cancel_left h1
  rw [← List.append_assoc, ← List.append_assoc] at h2
  have h3 := List.append_cancel_right h2
  have h4 := List.append_cancel_right h3
  exact repr_injective i j (String.ext h4)

/-- No per-CPU path is a path under `intel_pstate/`. -/
theorem cpu_path_ne_pstate (what rest : String) (i : Nat) :
    "cpu" ++ Nat.repr i ++ "/cpufreq/scaling_" ++ what ≠ "intel_pstate/" ++ rest := by
  intro h
  have h1 := congrArg String.data h
  simp only [String.data_append, List.append_assoc] at h1
  have h2 := congrArg List.head? h1
  simp at h2

/-- The loop of `psfreq_cpu_init_vector` when every `asprintf` succeeds. -/
theorem init_vector_loop_spec (env : Env) (what : String) : ∀ (k i : Nat) (acc : List String),
    (∀ j, i ≤ j → j < i + k →
      env.asprintf_ok ("cpu" ++ Nat.repr j ++ "/cpufreq/scaling_" ++ what) = true) →
    init_vector_loop env what k i acc
      = some (acc ++ (List.range' i k).map
          (fun j => "cpu" ++ Nat.repr j ++ "/cpufreq/scaling_" ++ what)) := by
  intro k
  induction k with
  | zero => intro i acc _; simp [init_vector_loop]
  | succ k ih =>
    intro i acc h
    unfold init_vector_loop psfreq_strings_asprintf
    rw [if_pos (h i (le_refl i) (by omega))]
    simp only []
    rw [ih (i + 1) _ (fun j h1 h2 => h j (by omega) (by omega))]
    simp [List.range'_succ]

/-- Whenever the loop returns a vector, it has added one entry per iteration. -/
theorem init_vector_loop_length (env : Env) (what : String) :
    ∀ (k i : Nat) (acc v : List String),
    init_vector_loop env what k i acc = some v → v.length = acc.length + k := by
  intro k
  induction k with
  | zero => intro i acc v h; simp [init_vector_loop] at h; rw [← h]; rfl
  | succ k ih =>
    intro i acc v h
    unfold init_vector_loop at h
    cases hb : psfreq_strings_asprintf env ("cpu" ++ Nat.repr i ++ "/cpufreq/scaling_" ++ what) with
    | none => rw [hb] at h; simp at h
    | some buf =>
      rw [hb] at h
      have := ih (i + 1) _ v h
      simp at this
      omega

/-- A vector returned by `psfreq_cpu_init_vector` has as many entries as the count, which is not 0. -/
theorem init_vector_nonempty (env : Env) (c : psfreq_cpu_type) (what : String) (v : List String)
    (h : psfreq_cpu_init_vector env (some c) what = some v) :
    v.length = c.cpu_num % 256 ∧ c.cpu_num % 256 ≠ 0 := by
  unfold psfreq_cpu_init_vector at h
  simp only [] at h
  split_ifs at h with h1 h2
  have := init_vector_loop_length env what _ _ _ _ h
  simp at this
  exact ⟨this, h1⟩

/-- `strcmp` is zero exactly on equal strings. -/
theorem strcmp_eq_zero : ∀ (a b : List Char), strcmp a b = 0 ↔ a = b := by
  intro a
  induction a with
  | nil =>
    intro b
    cases b with
    | nil => simp [strcmp]
    | cons c cs => simp [strcmp]
  | cons x xs ih =>
    intro b
    cases b with
    | nil => simp [strcmp]
    | cons c cs =>
      unfold strcmp
      by_cases hxc : x = c
      · rw [if_pos hxc, ih cs]
        simp [hxc]
      · rw [if_neg hxc]
        have hne : x.toNat ≠ c.toNat := by
          intro heq
          apply hxc
          apply Char.ext
          apply UInt32.ext
          exact heq
        constructor
        · intro h; omega
        · intro h; exact absurd (List.cons.inj h).1 hxc

/-- The loop whatever the outcome of the writes: it attempts the first `j` paths,
for some `j`, and nothing else. -/
theorem fan_out_any (d : String) (v : List String) : ∀ (k i : Nat) (s : Sysfs),
    i + k ≤ v.length →
    ∃ j ret : Nat, j ≤ k ∧
      fan_out (fun t path => psfreq_sysfs_write t path d) v k i s
        = some (ret, write_all d s ((v.drop i).take j)) := by
  intro k
  induction k with
  | zero => intro i s _; exact ⟨0, 1, le_refl 0, by simp [fan_out, write_all]⟩
  | succ k ih =>
    intro i s hlen
    have hi : i < v.length := by omega
    have hdrop : v.drop i = v[i] :: v.drop (i + 1) := List.drop_eq_getElem_cons hi
    have hget : v.get? i = some v[i] := by simp [List.getElem?_eq_getElem hi]
    by_cases hw : (psfreq_sysfs_write s v[i] d).1 = true
    · obtain ⟨j, ret, hj, e⟩ := ih (i + 1) (psfreq_sysfs_write s v[i] d).2 (by omega)
      refine ⟨j + 1, ret, by omega, ?_⟩
      unfold fan_out
      rw [hget]
      simp only []
      rw [if_pos hw, e, hdrop, List.take_succ_cons]
      rfl
    · refine ⟨1, 0, by omega, ?_⟩
      unfold fan_out
      rw [hget]
      simp only []
      rw [if_neg hw, hdrop]
      rfl

/-- Every write attempted by the common tail of the two frequency setters: the
percent, then the frequency on the first `j` per-CPU paths. -/
theorem set_freq_tail_log (cpu_num : Nat) (v : List String) (pct_path : String) (n freq : Int)
    (s : Sysfs) (hnum : cpu_num ≠ 0) (hlen : cpu_num ≤ v.length) :
    ∃ (j ret : Nat) (s2 : Sysfs),
      set_freq_tail cpu_num (some v) pct_path n freq (some s) = some (ret, some s2) ∧
      j ≤ cpu_num ∧
      s2.log = s.log ++ (pct_path, fmtInt n) :: (v.take j).map (fun p => (p, fmtInt freq)) := by
  unfold set_freq_tail
  simp only [if_neg hnum]
  by_cases hw : (psfreq_sysfs_write_num s pct_path n).1 = true
  · rw [if_pos hw]
    obtain ⟨j, ret, hj, e⟩ := fan_out_any (fmtInt freq) v cpu_num 0
      (psfreq_sysfs_write_num s pct_path n).2 (by omega)
    have e2 : fan_out (fun t path => psfreq_sysfs_write_num t path freq) v cpu_num 0
        (psfreq_sysfs_write_num s pct_path n).2
        = some (ret, write_all (fmtInt freq) (psfreq_sysfs_write_num s pct_path n).2
            ((v.drop 0).take j)) := e
    rw [e2]
    refine ⟨j, ret, _, rfl, hj, ?_⟩
    rw [write_all_log]
    unfold psfreq_sysfs_write_num
    rw [write_log]
    simp
  · rw [if_neg hw]
    refine ⟨0, 0, _, rfl, Nat.zero_le _, ?_⟩
    unfold psfreq_sysfs_write_num
    rw [write_log]
    simp

/-- The common tail of the two frequency setters when every write succeeds: the
call returns 1, it has written the percent and then the frequency to each of the
`cpu_num` per-CPU paths, and each of these files reads as the frequency. -/
theorem set_freq_tail_ok (cpu_num : Nat) (v : List String) (pct_path : String) (n freq : Int)
    (s : Sysfs) (hnum : cpu_num ≠ 0) (hlen : cpu_num ≤ v.length)
    (hpct : pct_path ∉ s.denied) (hok : ∀ p ∈ v.take cpu_num, p ∉ s.denied) :
    set_freq_tail cpu_num (some v) pct_path n freq (some s)
      = some (1, some (write_all (fmtInt freq) (psfreq_sysfs_write_num s pct_path n).2
          (v.take cpu_num))) ∧
    (write_all (fmtInt freq) (psfreq_sysfs_write_num s pct_path n).2 (v.take cpu_num)).log
      = s.log ++ (pct_path, fmtInt n) :: (v.take cpu_num).map (fun p => (p, fmtInt freq)) ∧
    (∀ p ∈ v.take cpu_num,
      psfreq_sysfs_read
        (write_all (fmtInt freq) (psfreq_sysfs_write_num s pct_path n).2 (v.take cpu_num)) p
        = some (fmtInt freq)) ∧
    (pct_path ∉ v.take cpu_num →
      psfreq_sysfs_read
        (write_all (fmtInt freq) (psfreq_sysfs_write_num s pct_path n).2 (v.take cpu_num))
        pct_path = some (fmtInt n)) := by
  have hw : (psfreq_sysfs_write_num s pct_path n).1 = true := (write_fst s _ _).mpr hpct
  have hden : (psfreq_sysfs_write_num s pct_path n).2.denied = s.denied := write_denied s _ _
  have hfan := fan_out_ok (fmtInt freq) v cpu_num 0 (psfreq_sysfs_write_num s pct_path n).2
    (by omega) (by
      intro p hp
      rw [List.drop_zero] at hp
      rw [hden]
      exact hok p hp)
  rw [List.drop_zero] at hfan
  refine ⟨?_, ?_, ?_, ?_⟩
  · unfold set_freq_tail
    simp only [if_neg hnum, if_pos hw]
    have e2 : fan_out (fun t path => psfreq_sysfs_write_num t path freq) v cpu_num 0
        (psfreq_sysfs_write_num s pct_path n).2 = _ := hfan
    rw [e2]
  · rw [write_all_log]
    unfold psfreq_sysfs_write_num
    rw [write_log]
    simp
  · intro p hp
    apply write_all_read_same _ _ _ _ hp
    rw [hden]
    exact hok p hp
  · intro hnot
    rw [write_all_read_other _ _ _ _ (Or.inl hnot)]
    exact read_write_same s _ _ hpct

/-- The body of `psfreq_cpu_set_max` once the percent and the frequency are known. -/
theorem set_max_unfold (c : psfreq_cpu_type) (sysfs : Option Sysfs) (m n f : Int)
    (hn : set_max_percent (some c) m = some n) (hf : freq_of c.cpuinfo_max_freq n = some f) :
    psfreq_cpu_set_max (some c) sysfs m
      = set_freq_tail c.cpu_num c.vector_scaling_max_freq "intel_pstate/max_perf_pct" n f
          sysfs := by
  unfold psfreq_cpu_set_max
  rw [hn]
  dsimp only []
  rw [hf]

/-- The body of `psfreq_cpu_set_min` once the percent and the frequency are known. -/
theorem set_min_unfold (c : psfreq_cpu_type) (sysfs : Option Sysfs) (m n f : Int)
    (hn : set_min_percent (some c) m = some n) (hf : freq_of c.cpuinfo_max_freq n = some f) :
    psfreq_cpu_set_min (some c) sysfs m
      = set_freq_tail c.cpu_num c.vector_scaling_min_freq "intel_pstate/min_perf_pct" n f
          sysfs := by
  unfold psfreq_cpu_set_min
  rw [hn]
  dsimp only []
  rw [hf]

/-- A vector is determined by its length and its entries. -/
theorem vector_eq_map_range (v : List String) (N : Nat) (P : Nat → String)
    (hlen : v.length = N) (hp : ∀ i, i < N → v.get? i = some (P i)) :
    v = (List.range N).map P := by
  apply List.ext_get?
  intro i
  by_cases hi : i < N
  · rw [hp i hi, List.get?_eq_getElem?, List.getElem?_map, List.getElem?_range hi]
    rfl
  · rw [List.get?_eq_none.mpr (by omega), List.get?_eq_none.mpr (by simp; omega)]

/-- The driver test of `psfreq_cpu_init_has_pstate`, for a driver name that was read. -/
theorem has_pstate_eq (cpu : psfreq_cpu_type) (d : String) (hd : cpu.scaling_driver = some d) :
    psfreq_cpu_init_has_pstate cpu = some (if d = "intel_pstate" then 1 else 0) := by
  unfold psfreq_cpu_init_has_pstate
  rw [hd]
  simp only []
  by_cases h : d = "intel_pstate"
  · rw [if_pos h, if_pos ((strcmp_eq_zero _ _).mpr (congrArg String.data h))]
  · rw [if_neg h, if_neg (fun h2 => h (String.ext ((strcmp_eq_zero _ _).mp h2)))]

/-- The dynamic part of initialisation is defined and returns 1 as soon as the
governor vector is NULL or non-empty; it leaves the count, the driver fields and
the vectors alone. -/
theorem init_dynamic_total (env : Env) (cpu : psfreq_cpu_type) (sysfs : Option Sysfs)
    (hg : ∀ v, cpu.vector_scaling_governor = some v → v ≠ []) :
    ∃ c2, psfreq_cpu_init_dynamic env cpu sysfs = some (1, c2) ∧
      c2.cpu_num = cpu.cpu_num ∧ c2.has_pstate = cpu.has_pstate ∧
      c2.scaling_driver = cpu.scaling_driver ∧
      c2.cpuinfo_min_freq = cpu.cpuinfo_min_freq ∧ c2.cpuinfo_max_freq = cpu.cpuinfo_max_freq ∧
      c2.scaling_min_freq = psfreq_cpu_init_freq env sysfs "scaling" "min" ∧
      c2.vector_scaling_min_freq = cpu.vector_scaling_min_freq ∧
      c2.vector_scaling_max_freq = cpu.vector_scaling_max_freq ∧
      c2.vector_scaling_governor = cpu.vector_scaling_governor := by
  unfold psfreq_cpu_init_dynamic psfreq_cpu_init_governor
  simp only []
  cases hv : cpu.vector_scaling_governor with
  | none => exact ⟨_, rfl, rfl, rfl, rfl, rfl, rfl, rfl, rfl, rfl, rfl⟩
  | some v =>
    cases sysfs with
    | none => exact ⟨_, rfl, rfl, rfl, rfl, rfl, rfl, rfl, rfl, rfl, rfl⟩
    | some s =>
      cases v with
      | nil => exact absurd rfl (hg [] hv)
      | cons p ps => exact ⟨_, rfl, rfl, rfl, rfl, rfl, rfl, rfl, rfl, rfl, rfl⟩

/-- The whole of `psfreq_cpu_init` on a machine whose driver name was read. -/
theorem init_total (env : Env) (cpu : psfreq_cpu_type) (s : Sysfs) (d : String)
    (hd : psfreq_sysfs_read s "cpu0/cpufreq/scaling_driver" = some d) :
    (d ≠ "intel_pstate" →
      psfreq_cpu_init env cpu (some s)
        = some (0, { cpu with scaling_driver := some d, has_pstate := 0 })) ∧
    (d = "intel_pstate" →
      ∃ c2, psfreq_cpu_init env cpu (some s) = some (1, c2) ∧
        c2.has_pstate = 1 ∧
        c2.cpu_num = psfreq_cpu_init_number_cpus env ∧
        c2.vector_scaling_min_freq = psfreq_cpu_init_vector env
          (some { cpu with scaling_driver := some d, has_pstate := 1,
                           cpu_num := psfreq_cpu_init_number_cpus env }) "min_freq" ∧
        c2.vector_scaling_max_freq = psfreq_cpu_init_vector env
          (some { cpu with scaling_driver := some d, has_pstate := 1,
                           cpu_num := psfreq_cpu_init_number_cpus env }) "max_freq" ∧
        c2.vector_scaling_governor = psfreq_cpu_init_vector env
          (some { cpu with scaling_driver := some d, has_pstate := 1,
                           cpu_num := psfreq_cpu_init_number_cpus env }) "governor") := by
  have hdrv : psfreq_cpu_init_driver (some s) = some d := hd
  constructor
  · intro hne
    unfold psfreq_cpu_init
    simp only [hdrv]
    rw [has_pstate_eq _ d rfl, if_neg hne]
    rfl
  · intro heq
    unfold psfreq_cpu_init
    simp only [hdrv]
    rw [has_pstate_eq _ d rfl, if_pos heq]
    simp only [if_neg (show ¬ (1 : Nat) = 0 by decide)]
    obtain ⟨c2, e, h1, h2, -, -, -, -, h7, h8, h9⟩ := init_dynamic_total env
      { cpu with
        scaling_driver := some d, has_pstate := 1,
        cpu_num := psfreq_cpu_init_number_cpus env,
        vector_scaling_min_freq := psfreq_cpu_init_vector env
          (some { cpu with scaling_driver := some d, has_pstate := 1,
                           cpu_num := psfreq_cpu_init_number_cpus env }) "min_freq",
        vector_scaling_max_freq := psfreq_cpu_init_vector env
          (some { cpu with scaling_driver := some d, has_pstate := 1,
                           cpu_num := psfreq_cpu_init_number_cpus env }) "max_freq",
        vector_scaling_governor := psfreq_cpu_init_vector env
          (some { cpu with scaling_driver := some d, has_pstate := 1,
                           cpu_num := psfreq_cpu_init_number_cpus env }) "governor",
        cpuinfo_max_freq := psfreq_cpu_init_freq env (some s) "cpuinfo" "max",
        cpuinfo_min_freq := psfreq_cpu_init_freq env (some s) "cpuinfo" "min",
        pst_max := read_int (some s) "intel_pstate/max_perf_pct",
        pst_min := read_int (some s) "intel_pstate/min_perf_pct" }
      (some s)
      (by
        intro v hv
        have := (init_vector_nonempty env _ "governor" v hv)
        intro hnil
        rw [hnil] at this
        exact this.2 this.1.symm)
    exact ⟨c2, e, h2, h1, h7, h8, h9⟩

/-- Narrowing to `char` keeps a value that fits. -/
theorem intToChar_id (m : Int) (h1 : -128 ≤ m) (h2 : m ≤ 127) : intToChar m = m := by
  unfold intToChar
  omega

/-- A non-negative `int` prints as the decimal text of the number. -/
theorem fmtInt_natCast (a : Nat) : fmtInt (a : Int) = Nat.repr a := by
  unfold fmtInt
  rw [if_neg (by omega), Int.toNat_ofNat]

/-- What `psfreq_cpu_init_freq` finds in `cpu0/cpufreq/scaling_min_freq` when the
file reads as the decimal text of a number. -/
theorem init_freq_scaling_min (env : Env) (s : Sysfs) (a : Nat) (ha : a < 2 ^ 32)
    (hfmt : env.asprintf_ok "cpu0/cpufreq/scaling_min_freq" = true)
    (hr : psfreq_sysfs_read s "cpu0/cpufreq/scaling_min_freq" = some (Nat.repr a)) :
    psfreq_cpu_init_freq env (some s) "scaling" "min" = a := by
  have e : "cpu0/cpufreq/" ++ "scaling" ++ "_" ++ "min" ++ "_freq"
      = "cpu0/cpufreq/scaling_min_freq" := by decide
  unfold psfreq_cpu_init_freq psfreq_strings_asprintf
  simp only [e, hfmt, if_true, hr]
  exact strings_to_uint_repr a ha

/-! ## Exact cases of the rounding -/

/-- Rounding an exact quotient gives the quotient. -/
theorem roundNearestEven_exact (m d : Nat) (hd : 0 < d) : roundNearestEven (m * d) d = m := by
  unfold roundNearestEven
  simp only [Nat.mul_div_cancel m hd, Nat.mul_mod_left]
  rw [if_pos (by omega)]

/-- A quotient that is an integer below `2^53` is a double: rounding returns it. -/
theorem fl_exact (q d : Nat) (hd : 0 < d) (hq : q < 2 ^ 53) :
    (fl (q * d) d).1 = q * (fl (q * d) d).2 := by
  by_cases hq0 : q = 0
  · subst hq0
    simp [fl]
  · have hn : q * d ≠ 0 := Nat.mul_ne_zero hq0 (by omega)
    obtain ⟨hn1, -⟩ := ilog2_spec (q * d) hn
    obtain ⟨-, hd2⟩ := ilog2_spec d (by omega)
    have hle : ilog2 (q * d) ≤ ilog2 d + 53 := by
      by_contra hcon
      have h1 : ilog2 d + 54 ≤ ilog2 (q * d) := by omega
      have h2 : 2 ^ (ilog2 d + 54) ≤ 2 ^ ilog2 (q * d) := Nat.pow_le_pow_right (by norm_num) h1
      have h3 : q * d < 2 ^ 53 * 2 ^ (ilog2 d + 1) := by
        calc q * d < 2 ^ 53 * d := Nat.mul_lt_mul_of_pos_right hq hd
          _ ≤ 2 ^ 53 * 2 ^ (ilog2 d + 1) := Nat.mul_le_mul_left _ (le_of_lt hd2)
      have h4 : 2 ^ 53 * 2 ^ (ilog2 d + 1) = 2 ^ (ilog2 d + 54) := by
        rw [← pow_add]; congr 1; omega
      omega
    have hb : ilog2 (q * d) - (ilog2 d + 53) = 0 := by omega
    unfold fl
    rw [if_neg hn]
    simp only [hb, pow_zero, Nat.mul_one]
    generalize (ilog2 d + 53) - ilog2 (q * d) = a
    have hdiv : q * d * 2 ^ a / d = q * 2 ^ a := by
      have : q * d * 2 ^ a = q * 2 ^ a * d := by ring
      rw [this, Nat.mul_div_cancel _ hd]
    rw [hdiv]
    split_ifs with hlt
    · have e : q * d * 2 ^ a = q * 2 ^ a * d := by ring
      simp only [pow_zero, Nat.mul_one]
      rw [e, roundNearestEven_exact _ _ hd]
    · have ha : a ≠ 0 := by
        intro h0
        rw [h0] at hlt
        simp at hlt
        omega
      obtain ⟨a2, rfl⟩ : ∃ a2, a = a2 + 1 := ⟨a - 1, by omega⟩
      have e : q * d * 2 ^ (a2 + 1) = q * 2 ^ a2 * (d * 2 ^ (0 + 1)) := by ring
      rw [e, roundNearestEven_exact _ _ (by omega)]
      ring

/-! ## Facts about the guards of the frequency setters -/

/-- The guards of the common tail of the two frequency setters: without a sysfs
object, without CPUs or without a path vector nothing is written, and when the
percent control refuses the write, that attempt is the only one made. -/
theorem set_freq_tail_guards (cpu_num : Nat) (vector : Option (List String)) (pct_path : String)
    (n freq : Int) :
    set_freq_tail cpu_num vector pct_path n freq none = some (0, none) ∧
    (∀ s : Sysfs, cpu_num = 0 ∨ vector = none →
      set_freq_tail cpu_num vector pct_path n freq (some s) = some (0, some s)) ∧
    (∀ s : Sysfs, cpu_num ≠ 0 → vector ≠ none → pct_path ∈ s.denied →
      set_freq_tail cpu_num vector pct_path n freq (some s)
        = some (0, some { s with log := s.log ++ [(pct_path, fmtInt n)] })) := by
  refine ⟨rfl, ?_, ?_⟩
  · intro s h
    unfold set_freq_tail
    rcases h with h | h
    · simp only [if_pos h]
    · by_cases h0 : cpu_num = 0
      · simp only [if_pos h0]
      · simp only [if_neg h0, h]
  · intro s h0 hv hden
    cases vector with
    | none => exact absurd rfl hv
    | some v =>
      unfold set_freq_tail
      simp only [if_neg h0]
      have hw : psfreq_sysfs_write_num s pct_path n
          = (false, { s with log := s.log ++ [(pct_path, fmtInt n)] }) := by
        unfold psfreq_sysfs_write_num psfreq_sysfs_write
        rw [if_pos hden]
      rw [hw]
      simp

/-! ## Facts about the dynamic fields -/

/-- The dynamic part of initialisation, field by field: it returns 1 and replaces
the two scaling frequencies, the governor and the turbo state, nothing else. -/
theorem init_dynamic_eq (env : Env) (cpu : psfreq_cpu_type) (sysfs : Option Sysfs)
    (hg : ∀ v, cpu.vector_scaling_governor = some v → v ≠ []) :
    ∃ g : Option String,
      psfreq_cpu_init_governor (some cpu) sysfs = some g ∧
      psfreq_cpu_init_dynamic env cpu sysfs
        = some (1, { cpu with
            scaling_max_freq := psfreq_cpu_init_freq env sysfs "scaling" "max",
            scaling_min_freq := psfreq_cpu_init_freq env sysfs "scaling" "min",
            scaling_governor := g,
            pst_turbo := psfreq_cpu_init_turbo_boost sysfs }) := by
  unfold psfreq_cpu_init_dynamic psfreq_cpu_init_governor
  simp only []
  cases hv : cpu.vector_scaling_governor with
  | none => exact ⟨none, rfl, rfl⟩
  | some v =>
    cases sysfs with
    | none => exact ⟨none, rfl, rfl⟩
    | some s =>
      cases v with
      | nil => exact absurd rfl (hg [] hv)
      | cons p ps => exact ⟨psfreq_sysfs_read s p, rfl, rfl⟩

/-- The values that `psfreq_cpu_init_freq` leaves when its read does not succeed. -/
theorem init_freq_sentinel (env : Env) (type what : String) :
    psfreq_cpu_init_freq env none type what = 0 ∧
    (∀ s : Sysfs,
      psfreq_sysfs_read s ("cpu0/cpufreq/" ++ type ++ "_" ++ what ++ "_freq") = none →
      psfreq_cpu_init_freq env (some s) type what = 0) ∧
    (∀ s : Sysfs, env.asprintf_ok ("cpu0/cpufreq/" ++ type ++ "_" ++ what ++ "_freq") = false →
      psfreq_cpu_init_freq env (some s) type what = 0) := by
  refine ⟨rfl, ?_, ?_⟩
  · intro s h
    unfold psfreq_cpu_init_freq psfreq_strings_asprintf
    split_ifs
    · simp only [h]
    · rfl
  · intro s h
    unfold psfreq_cpu_init_freq psfreq_strings_asprintf
    rw [if_neg (by simp [h])]

/-- What `psfreq_cpu_init_freq` finds in `cpu0/cpufreq/scaling_max_freq` when the
file reads as the decimal text of a number. -/
theorem init_freq_scaling_max (env : Env) (s : Sysfs) (a : Nat) (ha : a < 2 ^ 32)
    (hfmt : env.asprintf_ok "cpu0/cpufreq/scaling_max_freq" = true)
    (hr : psfreq_sysfs_read s "cpu0/cpufreq/scaling_max_freq" = some (Nat.repr a)) :
    psfreq_cpu_init_freq env (some s) "scaling" "max" = a := by
  have e : "cpu0/cpufreq/" ++ "scaling" ++ "_" ++ "max" ++ "_freq"
      = "cpu0/cpufreq/scaling_max_freq" := by decide
  unfold psfreq_cpu_init_freq psfreq_strings_asprintf
  simp only [e, hfmt, if_true, hr]
  exact strings_to_uint_repr a ha

/-- What `psfreq_cpu_init_governor` returns: NULL without a sysfs object or a path
vector, otherwise what the read of the first path returns. -/
theorem init_governor_cases (cpu : psfreq_cpu_type) :
    (cpu.vector_scaling_governor ≠ some [] →
      psfreq_cpu_init_governor (some cpu) none = some none) ∧
    (cpu.vector_scaling_governor = none →
      ∀ sysfs, psfreq_cpu_init_governor (some cpu) sysfs = some none) ∧
    (∀ s p ps, cpu.vector_scaling_governor = some (p :: ps) →
      psfreq_cpu_init_governor (some cpu) (some s) = some (psfreq_sysfs_read s p)) := by
  unfold psfreq_cpu_init_governor
  simp only []
  refine ⟨?_, ?_, ?_⟩
  · intro _
    cases cpu.vector_scaling_governor <;> rfl
  · intro hv sysfs
    rw [hv]
  · intro s p ps hv
    rw [hv]
    rfl

/-- The frequencies that `psfreq_cpu_init` stores on a machine driven by
`intel_pstate`: each is what `psfreq_cpu_init_freq` returned, whatever that is. -/
theorem init_pstate_freqs (env : Env) (cpu : psfreq_cpu_type) (s : Sysfs)
    (hd : psfreq_sysfs_read s "cpu0/cpufreq/scaling_driver" = some "intel_pstate") :
    ∃ c2, psfreq_cpu_init env cpu (some s) = some (1, c2) ∧
      c2.has_pstate = 1 ∧
      c2.cpuinfo_max_freq = psfreq_cpu_init_freq env (some s) "cpuinfo" "max" ∧
      c2.cpuinfo_min_freq = psfreq_cpu_init_freq env (some s) "cpuinfo" "min" ∧
      c2.scaling_max_freq = psfreq_cpu_init_freq env (some s) "scaling" "max" ∧
      c2.scaling_min_freq = psfreq_cpu_init_freq env (some s) "scaling" "min" := by
  have hdrv : psfreq_cpu_init_driver (some s) = some "intel_pstate" := hd
  unfold psfreq_cpu_init
  simp only [hdrv]
  rw [has_pstate_eq _ "intel_pstate" rfl, if_pos rfl]
  simp only [if_neg (show ¬ (1 : Nat) = 0 by decide)]
  obtain ⟨g, -, e⟩ := init_dynamic_eq env
    { cpu with
      scaling_driver := some "intel_pstate", has_pstate := 1,
      cpu_num := psfreq_cpu_init_number_cpus env,
      vector_scaling_min_freq := psfreq_cpu_init_vector env
        (some { cpu with scaling_driver := some "intel_pstate", has_pstate := 1,
                         cpu_num := psfreq_cpu_init_number_cpus env }) "min_freq",
      vector_scaling_max_freq := psfreq_cpu_init_vector env
        (some { cpu with scaling_driver := some "intel_pstate", has_pstate := 1,
                         cpu_num := psfreq_cpu_init_number_cpus env }) "max_freq",
      vector_scaling_governor := psfreq_cpu_init_vector env
        (some { cpu with scaling_driver := some "intel_pstate", has_pstate := 1,
                         cpu_num := psfreq_cpu_init_number_cpus env }) "governor",
      cpuinfo_max_freq := psfreq_cpu_init_freq env (some s) "cpuinfo" "max",
      cpuinfo_min_freq := psfreq_cpu_init_freq env (some s) "cpuinfo" "min",
      pst_max := read_int (some s) "intel_pstate/max_perf_pct",
      pst_min := read_int (some s) "intel_pstate/min_perf_pct" }
    (some s)
    (by
      intro v hv
      have := (init_vector_nonempty env _ "governor" v hv)
      intro hnil
      rw [hnil] at this
      exact this.2 this.1.symm)
  exact ⟨_, e, rfl, rfl, rfl, rfl, rfl⟩

/-! ## Facts about the text conversions of the other two variants -/

/-- A digit is neither a sign nor white space. -/
theorem isDigit_facts (c : Char) (h : c.isDigit = true) :
    c ≠ '-' ∧ c ≠ '+' ∧ isspace c = false := by
  refine ⟨?_, ?_, ?_⟩
  · intro e; rw [e] at h; exact absurd h (by decide)
  · intro e; rw [e] at h; exact absurd h (by decide)
  · cases hw : isspace c with
    | false => rfl
    | true =>
      simp only [isspace, Bool.or_eq_true, decide_eq_true_eq] at hw
      rcases hw with ((((e | e) | e) | e) | e) | e <;>
        (rw [e] at h; exact absurd h (by decide))

/-- The decimal text of a number consists of digits. -/
theorem repr_digits (n : Nat) : ∀ c ∈ (Nat.repr n).data, c.isDigit = true := by
  obtain ⟨pre, hpre, e⟩ := repr_shape n
  rw [e]
  intro c hc
  rcases List.mem_append.mp hc with h1 | h1
  · exact hpre c h1
  · have : c = Nat.digitChar (n % 10) := by simpa using h1
    rw [this]
    exact (digitChar_facts _ (Nat.mod_lt _ (by norm_num))).1

/-- The decimal text of a number starts with a digit. -/
theorem repr_head (n : Nat) :
    ∃ (c : Char) (cs : List Char), (Nat.repr n).data = c :: cs ∧ c.isDigit = true := by
  cases hdata : (Nat.repr n).data with
  | nil =>
    obtain ⟨pre, -, e⟩ := repr_shape n
    rw [hdata] at e
    simp at e
  | cons c cs =>
    exact ⟨c, cs, rfl, repr_digits n c (by rw [hdata]; exact List.mem_cons_self _ _)⟩

/-- On digits, `digitsValue` computes what the digit-by-digit reader computes. -/
theorem digitsValue_fold : ∀ (cs : List Char) (acc : Nat), (∀ c ∈ cs, c.isDigit = true) →
    cs.foldl digitStep (some acc) = some (digitsValue cs acc) := by
  intro cs
  induction cs with
  | nil => intro acc _; rfl
  | cons c cs ih =>
    intro acc h
    have hc : c.isDigit = true := h c (List.mem_cons_self _ _)
    simp only [List.foldl_cons, digitStep, Option.bind, hc, if_true, digitsValue]
    exact ih _ (fun d hd => h d (List.mem_cons_of_mem _ hd))

/-- Digits followed by something that is not a digit: `digitsValue` stops there. -/
theorem digitsValue_append : ∀ (cs rest : List Char) (acc : Nat),
    (∀ c ∈ cs, c.isDigit = true) → (∀ c, rest.head? = some c → c.isDigit = false) →
    digitsValue (cs ++ rest) acc = digitsValue cs acc := by
  intro cs
  induction cs with
  | nil =>
    intro rest acc _ hrest
    cases rest with
    | nil => rfl
    | cons r rs =>
      have := hrest r rfl
      simp [digitsValue, this]
  | cons c cs ih =>
    intro rest acc h hrest
    have hc : c.isDigit = true := h c (List.mem_cons_self _ _)
    simp only [List.cons_append, digitsValue, hc, if_true]
    exact ih rest _ (fun d hd => h d (List.mem_cons_of_mem _ hd)) hrest

/-- The digits of the decimal text of a number have that number as value. -/
theorem digitsValue_repr (n : Nat) : digitsValue (Nat.repr n).data 0 = n := by
  have h1 := digitsValue_fold (Nat.repr n).data 0 (repr_digits n)
  have h2 := parseNat_repr n
  unfold parseNat at h2
  rw [trimRight_repr] at h2
  obtain ⟨c, cs, e, -⟩ := repr_head n
  rw [if_neg (by rw [e]; simp)] at h2
  rw [h1] at h2
  exact Option.some.inj h2

/-- The function `strtol` reads back a number printed in decimal, whatever
follows it, as long as that is not a digit. -/
theorem strtol_repr (n : Nat) (rest : List Char)
    (hrest : ∀ c, rest.head? = some c → c.isDigit = false) :
    strtol ((Nat.repr n).data ++ rest) = (n : Int) := by
  obtain ⟨c, cs, e, hc⟩ := repr_head n
  obtain ⟨c1, c2, c3⟩ := isDigit_facts c hc
  have hval := digitsValue_append (Nat.repr n).data rest 0 (repr_digits n) hrest
  rw [digitsValue_repr] at hval
  rw [e] at hval
  unfold strtol
  rw [e, List.cons_append, List.dropWhile_cons_of_neg (by simp [c3])]
  simp only [if_neg c1, if_neg c2]
  rw [← List.cons_append, hval]

/-- The signed text reader gives back a number printed in decimal. -/
theorem parseInt_repr (n : Nat) : parseInt (Nat.repr n).data = (n : Int) := by
  obtain ⟨c, cs, e, hc⟩ := repr_head n
  obtain ⟨c1, -, -⟩ := isDigit_facts c hc
  have hp := parseNat_repr n
  rw [e] at hp
  unfold parseInt
  rw [e]
  simp only [if_neg c1, hp]

/-- The conversion `stringToNumber` gives back a number below `2^53` printed in
decimal, as a double. -/
theorem stringToNumber_repr (n : Nat) (h : n < 2 ^ 53) :
    stringToNumber (Nat.repr n) = Dbl.ofNat n := by
  unfold stringToNumber
  rw [parseInt_repr]
  rw [if_pos (by simpa using h)]
  simp [Dbl.ofInt, Dbl.ofNat]

/-! ## Facts about the percent arithmetic of the C++ variant -/

/-- What `cpu_pstate_of` computes for integer frequencies when the percentage fits
an `int`: the exact integer quotient `100 * a / F`, or one less, and one less only
when `F` divides `100 * a`. -/
theorem cpu_pstate_of_spec (a F : Nat) (hF : 0 < F) (ha : a < 2 ^ 32) (h : 100 * a / F < 2 ^ 31) :
    ∃ q : Nat, cpu_pstate_of (Dbl.ofNat a) (Dbl.ofNat F) = some (q : Int) ∧
      q ≤ 100 * a / F ∧ 100 * a / F ≤ q + 1 ∧ (¬ F ∣ 100 * a → q = 100 * a / F) := by
  obtain ⟨h1, h2, h3⟩ := fl_twice_floor a F 100 hF (by omega)
  refine ⟨(fl (100 * (fl a F).1) (fl a F).2).1 / (fl (100 * (fl a F).1) (fl a F).2).2,
    ?_, h1, h2, h3⟩
  have hlt : (fl (100 * (fl a F).1) (fl a F).2).1 / (fl (100 * (fl a F).1) (fl a F).2).2
      < 2 ^ 31 := by omega
  have hF0 : F ≠ 0 := by omega
  simp only [cpu_pstate_of, Dbl.div, Dbl.ofNat, Dbl.mul, Dbl.toInt32, Dbl.trunc,
    Nat.mul_one, Nat.one_mul, hF0, Bool.xor_false, Bool.false_eq_true, if_false,
    Nat.mul_comm (fl a F).1 100]
  generalize (fl (100 * (fl a F).1) (fl a F).2).1 / (fl (100 * (fl a F).1) (fl a F).2).2
    = q at hlt
  have c1 : -(2 : Int) ^ 31 ≤ (q : Int) := by
    have : (0 : Int) ≤ (q : Int) := Int.natCast_nonneg q
    norm_num
    omega
  have c2 : (q : Int) < 2 ^ 31 := by exact_mod_cast hlt
  rw [if_pos ⟨c1, c2⟩]

/-- A frequency that equals the hardware maximum is 100 percent of it. -/
theorem cpu_pstate_of_same (F : Nat) (hF : 0 < F) :
    cpu_pstate_of (Dbl.ofNat F) (Dbl.ofNat F) = some 100 := by
  have hF0 : F ≠ 0 := by omega
  have hr := fl_exact 1 F hF (by norm_num)
  have hr2 := (fl_bounds (1 * F) F hF).1
  simp only [cpu_pstate_of, Dbl.div, Dbl.ofNat, Dbl.mul, Dbl.toInt32, Dbl.trunc,
    Nat.mul_one, Nat.one_mul, hF0, Bool.xor_false, Bool.false_eq_true, if_false]
  rw [Nat.one_mul] at hr hr2
  generalize fl F F = r at hr hr2 ⊢
  rw [hr, Nat.one_mul, Nat.mul_comm r.2 100]
  have ht := fl_exact 100 r.2 hr2 (by norm_num)
  have ht2 := (fl_bounds (100 * r.2) r.2 hr2).1
  generalize fl (100 * r.2) r.2 = t at ht ht2 ⊢
  rw [ht, Nat.mul_div_cancel _ ht2]
  rw [if_pos (by norm_num)]
  rfl

/-- The frequency that the setters of the C++ variant compute when the hardware
maximum is a multiple of 100: the exact product, no rounding taking place. -/
theorem cpu_scaling_value_exact (k p : Nat) (h : k * p < 2 ^ 31) :
    cpu_scaling_value (Dbl.ofNat (k * 100)) (p : Int) = some ((k * p : Nat) : Int) := by
  have hk : k < 2 ^ 53 ∨ p = 0 := by
    by_cases hp : p = 0
    · exact Or.inr hp
    · left
      have : k ≤ k * p := Nat.le_mul_of_pos_right k (by omega)
      have : (2 : Nat) ^ 31 < 2 ^ 53 := by norm_num
      omega
  rcases hk with hk | hp
  · have hr := fl_exact k 100 (by norm_num) hk
    have hr2 := (fl_bounds (k * 100) 100 (by norm_num)).1
    have hnn : ¬ ((p : Int) < 0) := by omega
    simp only [cpu_scaling_value, Dbl.div, Dbl.ofNat, Dbl.ofInt, Dbl.mul, Dbl.toInt32, Dbl.trunc,
      Int.natAbs_ofNat, Nat.mul_one, Nat.one_mul, hnn, decide_False, Bool.xor_false,
      Bool.false_eq_true, if_false, show ¬ ((100 : Nat) = 0) by norm_num]
    generalize fl (k * 100) 100 = r at hr hr2 ⊢
    have e : r.1 * p = k * p * r.2 := by rw [hr]; ring
    rw [e]
    have ht := fl_exact (k * p) r.2 hr2 (by
      have : (2 : Nat) ^ 31 < 2 ^ 53 := by norm_num
      omega)
    have ht2 := (fl_bounds (k * p * r.2) r.2 hr2).1
    generalize fl (k * p * r.2) r.2 = t at ht ht2 ⊢
    rw [ht, Nat.mul_div_cancel _ ht2]
    have c1 : -(2 : Int) ^ 31 ≤ ((k * p : Nat) : Int) := by
      have : (0 : Int) ≤ ((k * p : Nat) : Int) := Int.natCast_nonneg _
      norm_num
      omega
    have c2 : ((k * p : Nat) : Int) < 2 ^ 31 := by exact_mod_cast h
    rw [if_pos ⟨c1, c2⟩]
  · subst hp
    have hr2 := (fl_bounds (k * 100) 100 (by norm_num)).1
    simp only [cpu_scaling_value, Dbl.div, Dbl.ofNat, Dbl.ofInt, Dbl.mul, Dbl.toInt32, Dbl.trunc,
      Nat.mul_one, Nat.one_mul, Bool.xor_false,
      Bool.false_eq_true, if_false, show ¬ ((100 : Nat) = 0) by norm_num]
    simp [fl]

/-- The percentage of a frequency in itself, as `percent_of` computes it: 100,
both operations being exact. -/
theorem percent_of_same (F : Nat) (hF : 0 < F) : percent_of F F = some 100 := by
  have hF0 : F ≠ 0 := by omega
  have hr := fl_exact 1 F hF (by norm_num)
  have hr2 := (fl_bounds (1 * F) F hF).1
  simp only [percent_of, Dbl.div, Dbl.ofNat, Dbl.mul, Dbl.toUInt32, Dbl.trunc,
    Nat.mul_one, Nat.one_mul, hF0, Bool.xor_false, Bool.false_eq_true, if_false]
  rw [Nat.one_mul] at hr hr2
  generalize fl F F = r at hr hr2 ⊢
  rw [hr, Nat.one_mul, Nat.mul_comm r.2 100]
  have ht := fl_exact 100 r.2 hr2 (by norm_num)
  have ht2 := (fl_bounds (100 * r.2) r.2 hr2).1
  generalize fl (100 * r.2) r.2 = t at ht ht2 ⊢
  rw [ht, Nat.mul_div_cancel _ ht2]
  rw [if_pos (by norm_num)]
  rfl

/-! ## Facts about the write loops of the other two variants -/

/-- The loop of the C++ setters writes the value to each of the `k` paths in turn. -/
theorem cpu_write_each_eq (v : List String) (value : Int) : ∀ (k i : Nat) (s : Sysfs),
    i + k ≤ v.length →
    cpu_write_each v value k i s = some (write_all (fmtInt value) s ((v.drop i).take k)) := by
  intro k
  induction k with
  | zero => intro i s _; simp [cpu_write_each, write_all]
  | succ k ih =>
    intro i s hlen
    have hi : i < v.length := by omega
    have hdrop : v.drop i = v[i] :: v.drop (i + 1) := List.drop_eq_getElem_cons hi
    have hget : v.get? i = some v[i] := by simp [List.getElem?_eq_getElem hi]
    unfold cpu_write_each
    rw [hget]
    simp only []
    rw [ih (i + 1) _ (by omega), hdrop, List.take_succ_cons]
    rfl

/-- The loop of `pyam_cpu_internal_freq` when every file can be opened: the text is
written to each of the `k` paths in turn. -/
theorem pyam_loop_ok (files : List String) (scaling : String) : ∀ (k i : Nat) (fs : Sysfs),
    i + k ≤ files.length → (∀ p ∈ (files.drop i).take k, p ∉ fs.denied) →
    pyam_cpu_internal_freq_loop files scaling k i fs
      = some (write_all scaling fs ((files.drop i).take k)) := by
  intro k
  induction k with
  | zero => intro i fs _ _; simp [pyam_cpu_internal_freq_loop, write_all]
  | succ k ih =>
    intro i fs hlen hok
    have hi : i < files.length := by omega
    have hdrop : files.drop i = files[i] :: files.drop (i + 1) := List.drop_eq_getElem_cons hi
    have hget : files.get? i = some files[i] := by simp [List.getElem?_eq_getElem hi]
    rw [hdrop, List.take_succ_cons] at hok ⊢
    unfold pyam_cpu_internal_freq_loop
    rw [hget]
    simp only []
    have hw : (psfreq_sysfs_write fs files[i] scaling).1 = true :=
      (write_fst fs files[i] scaling).mpr (hok _ (List.mem_cons_self _ _))
    rw [if_pos hw, ih (i + 1) _ (by omega)]
    · rfl
    · intro p hp
      rw [write_denied]
      exact hok p (List.mem_cons_of_mem _ hp)

/-- The method `cpu::setScalingMax` once the frequency is known: the frequency goes
to every per-CPU file, then the percent to `intel_pstate/max_perf_pct` when the
driver is `intel_pstate`. -/
theorem setScalingMax_eq (c : cpu_members) (s : Sysfs) (max value : Int)
    (hnum : c.number = c.maxFrequencyFileVector.length)
    (hval : cpu_scaling_value c.maxInfoFrequency max = some value) :
    cpu_setScalingMax c s max
      = some (if c.pstate then
          (psfreq_sysfs_write_num (write_all (fmtInt value) s c.maxFrequencyFileVector)
            "intel_pstate/max_perf_pct" max).2
        else write_all (fmtInt value) s c.maxFrequencyFileVector) := by
  have hloop := cpu_write_each_eq c.maxFrequencyFileVector value
    c.maxFrequencyFileVector.length 0 s (by omega)
  rw [List.drop_zero, List.take_length] at hloop
  unfold cpu_setScalingMax
  rw [if_pos hnum, hval]
  dsimp only []
  rw [hnum, hloop]
  dsimp only []
  cases c.pstate <;> rfl

/-! ## Facts about the frequency setter of the first C variant -/

/-- The first line of a number printed in decimal and ended by a line terminator. -/
theorem firstLine_repr (n : Nat) : firstLine (Nat.repr n ++ "\n") = (Nat.repr n).data := by
  have key : ∀ cs : List Char, (∀ c ∈ cs, c.isDigit = true) →
      (cs ++ [newline]).takeWhile (fun c => c != newline) = cs := by
    intro cs
    induction cs with
    | nil => intro _; simp [List.takeWhile]
    | cons c cs ih =>
      intro h
      have hc : c.isDigit = true := h c (List.mem_cons_self _ _)
      have hne : (c != newline) = true := by
        simp only [bne_iff_ne, ne_eq]
        intro e
        rw [e] at hc
        exact absurd hc (by decide)
      rw [List.cons_append, List.takeWhile_cons, hne]
      simp only [if_true]
      rw [ih (fun d hd => h d (List.mem_cons_of_mem _ hd))]
  have e : (Nat.repr n ++ "\n").data = (Nat.repr n).data ++ [newline] := by
    simp [String.data_append, newline]
  unfold firstLine
  rw [e]
  exact key _ (repr_digits n)

/-- What `pyam_cpu_get_cpuinfo_max_freq` returns on a file holding a number that
fits an `int32_t`. -/
theorem pyam_cpuinfo_max_freq_repr (fs : Sysfs) (F : Nat) (hF : F < 2 ^ 31)
    (hfile : fs.files.lookup FILE_CPUINFO_MAX_FREQ = some (Nat.repr F ++ "\n")) :
    pyam_cpu_get_cpuinfo_max_freq fs = some (F : Int) := by
  have hne : ¬ (Nat.repr F ++ "\n" = "") := by
    intro h
    have := congrArg String.data h
    simp [String.data_append] at this
  have hs : strtol (firstLine (Nat.repr F ++ "\n")) = (F : Int) := by
    rw [firstLine_repr]
    have := strtol_repr F [] (by simp)
    rwa [List.append_nil] at this
  unfold pyam_cpu_get_cpuinfo_max_freq pyam_cpu_read_int32
  rw [hfile]
  simp only [if_neg hne, hs]
  rw [if_pos ⟨by omega, by exact_mod_cast hF⟩]

/-- The number formatted by `pyam_cpu_set_freq` when no wrap-around takes place:
the quotient of the hardware maximum by 100, times the percent. -/
theorem pyam_scaling_max_eq (F p : Nat) (hF : F < 2 ^ 31) (hp : p ≤ 100) :
    pyam_cpu_scaling_max (F : Int) p = F / 100 * p := by
  have e : Int.tdiv (F : Int) 100 = ((F / 100 : Nat) : Int) := rfl
  unfold pyam_cpu_scaling_max
  rw [e]
  have h1 : F / 100 < 2 ^ 31 := lt_of_le_of_lt (Nat.div_le_self _ _) hF
  have h2 : (((F / 100 : Nat) : Int) % 2 ^ 64).toNat = F / 100 := by omega
  rw [h2]
  apply Nat.mod_eq_of_lt
  calc F / 100 * p ≤ F / 100 * 100 := Nat.mul_le_mul_left _ hp
    _ < 2 ^ 31 * 100 := Nat.mul_lt_mul_of_pos_right h1 (by norm_num)
    _ < 2 ^ 64 := by norm_num

/-! ## The range of the effective percent -/

/-- On a part whose minimum hardware frequency is below its maximum, both
effective percents are defined and lie between 0 and 100. -/
theorem set_percent_in_range (c : psfreq_cpu_type) (m : Int)
    (h1 : c.cpuinfo_min_freq < c.cpuinfo_max_freq) (h2 : c.cpuinfo_max_freq < 2 ^ 32) :
    ∃ a b : Int, set_max_percent (some c) m = some a ∧ set_min_percent (some c) m = some b ∧
      0 ≤ a ∧ a ≤ 100 ∧ 0 ≤ b ∧ b ≤ 100 := by
  have hq99 : 100 * c.cpuinfo_min_freq / c.cpuinfo_max_freq < 100 := by
    apply Nat.div_lt_of_lt_mul
    rw [Nat.mul_comm c.cpuinfo_max_freq 100]
    exact Nat.mul_lt_mul_of_pos_left h1 (by norm_num)
  obtain ⟨q, hq, q1, -, -⟩ := percent_of_spec c.cpuinfo_min_freq c.cpuinfo_max_freq
    (by omega) (by omega) (by omega)
  have hmin : psfreq_cpu_get_cpuinfo_min (some c) = some q := hq
  unfold set_max_percent set_min_percent
  by_cases c1 : m ≥ 100
  · rw [if_pos c1, if_pos c1]
    exact ⟨100, 99, rfl, by decide, by norm_num, by norm_num, by norm_num, by norm_num⟩
  · rw [if_neg c1, if_neg c1]
    by_cases c2 : m ≤ 0
    · rw [if_pos c2, if_pos c2, hmin]
      simp only [uintToInt]
      have e : (q + 1) % 2 ^ 32 = q + 1 := Nat.mod_eq_of_lt (by omega)
      rw [e, if_pos (by omega), if_pos (by omega)]
      exact ⟨_, _, rfl, rfl, by omega, by omega, by omega, by omega⟩
    · rw [if_neg c2, if_neg c2]
      exact ⟨m, m, rfl, rfl, by omega, by omega, by omega, by omega⟩

/-! ## The claims -/

/-- C1 (as amended): `psfreq_cpu_set_max` uses the effective percent `n = 100`
for `m ≥ 100`, `n = psfreq_cpu_get_cpuinfo_min(cpu) + 1` (unsigned) for `m ≤ 0` and `n = m`
otherwise.  The first write it attempts is `n` to `intel_pstate/max_perf_pct`, every
other write it attempts is one and the same frequency `f` to the per-CPU paths in
order, and `f`, the double product `cpuinfo_max_freq * ((double) n / 100)`
truncated, is the integer quotient `cpuinfo_max_freq * n / 100` or one less, one
less being possible only when 100 divides `cpuinfo_max_freq * n`.  When no write
is refused the call returns 1, the writes are `n` to `intel_pstate/max_perf_pct`
followed by `f` to every one of the `cpu_num` per-CPU paths, and afterwards each
of these per-CPU files reads `f` and the percent control reads `n`. -/
theorem set_max_percent_and_frequency (c : psfreq_cpu_type) (s : Sysfs) (m : Int) (n : Nat)
    (v : List String)
    (hn : set_max_percent (some c) m = some (n : Int))
    (hfit : c.cpuinfo_max_freq * n < 100 * 2 ^ 31)
    (hnum : c.cpu_num ≠ 0) (hv : c.vector_scaling_max_freq = some v)
    (hlen : c.cpu_num ≤ v.length) :
    (100 ≤ m → n = 100) ∧
    (m ≤ 0 → ∃ q, psfreq_cpu_get_cpuinfo_min (some c) = some q ∧ n = (q + 1) % 2 ^ 32) ∧
    (0 < m → m < 100 → (n : Int) = m) ∧
    ∃ f : Nat,
      freq_of c.cpuinfo_max_freq (n : Int) = some (f : Int) ∧
      f ≤ c.cpuinfo_max_freq * n / 100 ∧ c.cpuinfo_max_freq * n / 100 ≤ f + 1 ∧
      (¬ 100 ∣ c.cpuinfo_max_freq * n → f = c.cpuinfo_max_freq * n / 100) ∧
      (∃ (j ret : Nat) (s2 : Sysfs),
        psfreq_cpu_set_max (some c) (some s) m = some (ret, some s2) ∧
        j ≤ c.cpu_num ∧
        s2.log = s.log ++ ("intel_pstate/max_perf_pct", fmtInt n) ::
          (v.take j).map (fun p => (p, fmtInt f))) ∧
      ("intel_pstate/max_perf_pct" ∉ s.denied → (∀ p ∈ v.take c.cpu_num, p ∉ s.denied) →
        ∃ s2 : Sysfs,
          psfreq_cpu_set_max (some c) (some s) m = some (1, some s2) ∧
          s2.log = s.log ++ ("intel_pstate/max_perf_pct", fmtInt n) ::
            (v.take c.cpu_num).map (fun p => (p, fmtInt f)) ∧
          (∀ p ∈ v.take c.cpu_num, psfreq_sysfs_read s2 p = some (fmtInt f)) ∧
          ("intel_pstate/max_perf_pct" ∉ v.take c.cpu_num →
            psfreq_sysfs_read s2 "intel_pstate/max_perf_pct" = some (fmtInt n))) := by
  refine ⟨?_, ?_, ?_, ?_⟩
  · intro h
    unfold set_max_percent at hn
    rw [if_pos h] at hn
    have := Option.some.inj hn
    unfold psfreq_cpu_get_cpuinfo_max at this
    omega
  · intro h
    unfold set_max_percent at hn
    have h1 : ¬ m ≥ 100 := by omega
    rw [if_neg h1, if_pos h] at hn
    cases hq : psfreq_cpu_get_cpuinfo_min (some c) with
    | none => rw [hq] at hn; simp at hn
    | some q =>
      rw [hq] at hn
      simp only [uintToInt] at hn
      split_ifs at hn with h2
      have := Option.some.inj hn
      exact ⟨q, rfl, by omega⟩
  · intro h1 h2
    unfold set_max_percent at hn
    have h3 : ¬ m ≥ 100 := by omega
    have h4 : ¬ m ≤ 0 := by omega
    rw [if_neg h3, if_neg h4] at hn
    exact (Option.some.inj hn).symm
  · obtain ⟨f, hf, f1, f2, f3⟩ := freq_of_spec c.cpuinfo_max_freq n hfit
    have hbody := set_max_unfold c (some s) m n f hn hf
    rw [hv] at hbody
    refine ⟨f, hf, f1, f2, f3, ?_, ?_⟩
    · obtain ⟨j, ret, s2, e, hj, hlog⟩ := set_freq_tail_log c.cpu_num v
        "intel_pstate/max_perf_pct" (n : Int) (f : Int) s hnum hlen
      exact ⟨j, ret, s2, hbody.trans e, hj, hlog⟩
    · intro hpct hok
      obtain ⟨e, hlog, hread, hpread⟩ := set_freq_tail_ok c.cpu_num v
        "intel_pstate/max_perf_pct" (n : Int) (f : Int) s hnum hlen hpct hok
      exact ⟨_, hbody.trans e, hlog, hread, hpread⟩

/-- Witness of C1 at a 3.4 GHz part and 50 percent: no write is refused, the call returns 1 and
the per-CPU file reads the frequency. -/
theorem set_max_percent_and_frequency_witness :
    ∃ f : Nat,
      freq_of cpu_3400.cpuinfo_max_freq ((50 : Nat) : Int) = some (f : Int) ∧
      f ≤ cpu_3400.cpuinfo_max_freq * 50 / 100 ∧
      cpu_3400.cpuinfo_max_freq * 50 / 100 ≤ f + 1 ∧
      ∃ s2 : Sysfs,
        psfreq_cpu_set_max (some cpu_3400) (some sysfs_blank) 50 = some (1, some s2) ∧
        s2.log = sysfs_blank.log ++ ("intel_pstate/max_perf_pct", fmtInt ((50 : Nat) : Int)) ::
          (["cpu0/cpufreq/scaling_max_freq"].take cpu_3400.cpu_num).map
            (fun p => (p, fmtInt f)) ∧
        psfreq_sysfs_read s2 "cpu0/cpufreq/scaling_max_freq" = some (fmtInt f) ∧
        psfreq_sysfs_read s2 "intel_pstate/max_perf_pct" = some (fmtInt ((50 : Nat) : Int)) := by
  obtain ⟨-, -, -, f, hf, f1, f2, -, -, hok⟩ :=
    set_max_percent_and_frequency cpu_3400 sysfs_blank 50 50 ["cpu0/cpufreq/scaling_max_freq"]
      (by decide) (by decide) (by decide) rfl (by decide)
  obtain ⟨s2, e, hlog, hread, hpread⟩ := hok (by decide) (by decide)
  exact ⟨f, hf, f1, f2, s2, e, hlog, hread _ (by decide), hpread (by decide)⟩

/-- Counterexample to C1 as stated: asked for 29 percent of 3400000 kHz,
`psfreq_cpu_set_max` writes 29 to `max_perf_pct` and 985999 to the per-CPU file,
whereas `3400000 * 29 / 100` is 986000. -/
theorem set_max_29_percent_writes_985999 :
    psfreq_cpu_set_max (some cpu_3400) (some sysfs_blank) 29
      = some (1, some
          { files := [("cpu0/cpufreq/scaling_max_freq", "985999\n"),
                      ("intel_pstate/max_perf_pct", "29\n")],
            denied := [],
            log := [("intel_pstate/max_perf_pct", "29"),
                    ("cpu0/cpufreq/scaling_max_freq", "985999")] }) ∧
    cpu_3400.cpuinfo_max_freq * 29 / 100 = 986000 := by
  decide

/-- C2 (as amended): `psfreq_cpu_set_min` uses the effective percent `n = 99`
for `m ≥ 100`, `n = psfreq_cpu_get_cpuinfo_min(cpu)` for `m ≤ 0` and `n = m`
otherwise.  The first write it attempts is `n` to `intel_pstate/min_perf_pct`, every
other write it attempts is one and the same frequency `f` to the per-CPU paths in
order, and `f`, the double product `cpuinfo_max_freq * ((double) n / 100)`
truncated, is the integer quotient `cpuinfo_max_freq * n / 100` or one less, one
less being possible only when 100 divides `cpuinfo_max_freq * n`.  When no write
is refused the call returns 1, the writes are `n` to `intel_pstate/min_perf_pct`
followed by `f` to every one of the `cpu_num` per-CPU paths, and afterwards each
of these per-CPU files reads `f` and the percent control reads `n`. -/
theorem set_min_percent_and_frequency (c : psfreq_cpu_type) (s : Sysfs) (m : Int) (n : Nat)
    (v : List String)
    (hn : set_min_percent (some c) m = some (n : Int))
    (hfit : c.cpuinfo_max_freq * n < 100 * 2 ^ 31)
    (hnum : c.cpu_num ≠ 0) (hv : c.vector_scaling_min_freq = some v)
    (hlen : c.cpu_num ≤ v.length) :
    (100 ≤ m → n = 99) ∧
    (m ≤ 0 → psfreq_cpu_get_cpuinfo_min (some c) = some n) ∧
    (0 < m → m < 100 → (n : Int) = m) ∧
    ∃ f : Nat,
      freq_of c.cpuinfo_max_freq (n : Int) = some (f : Int) ∧
      f ≤ c.cpuinfo_max_freq * n / 100 ∧ c.cpuinfo_max_freq * n / 100 ≤ f + 1 ∧
      (¬ 100 ∣ c.cpuinfo_max_freq * n → f = c.cpuinfo_max_freq * n / 100) ∧
      (∃ (j ret : Nat) (s2 : Sysfs),
        psfreq_cpu_set_min (some c) (some s) m = some (ret, some s2) ∧
        j ≤ c.cpu_num ∧
        s2.log = s.log ++ ("intel_pstate/min_perf_pct", fmtInt n) ::
          (v.take j).map (fun p => (p, fmtInt f))) ∧
      ("intel_pstate/min_perf_pct" ∉ s.denied → (∀ p ∈ v.take c.cpu_num, p ∉ s.denied) →
        ∃ s2 : Sysfs,
          psfreq_cpu_set_min (some c) (some s) m = some (1, some s2) ∧
          s2.log = s.log ++ ("intel_pstate/min_perf_pct", fmtInt n) ::
            (v.take c.cpu_num).map (fun p => (p, fmtInt f)) ∧
          (∀ p ∈ v.take c.cpu_num, psfreq_sysfs_read s2 p = some (fmtInt f)) ∧
          ("intel_pstate/min_perf_pct" ∉ v.take c.cpu_num →
            psfreq_sysfs_read s2 "intel_pstate/min_perf_pct" = some (fmtInt n))) := by
  refine ⟨?_, ?_, ?_, ?_⟩
  · intro h
    unfold set_min_percent at hn
    rw [if_pos h] at hn
    simp only [uintToInt, psfreq_cpu_get_cpuinfo_max] at hn
    norm_num at hn
    omega
  · intro h
    unfold set_min_percent at hn
    have h1 : ¬ m ≥ 100 := by omega
    rw [if_neg h1, if_pos h] at hn
    cases hq : psfreq_cpu_get_cpuinfo_min (some c) with
    | none => rw [hq] at hn; simp at hn
    | some q =>
      rw [hq] at hn
      simp only [uintToInt] at hn
      split_ifs at hn with h2
      have := Option.some.inj hn
      congr 1
      omega
  · intro h1 h2
    unfold set_min_percent at hn
    have h3 : ¬ m ≥ 100 := by omega
    have h4 : ¬ m ≤ 0 := by omega
    rw [if_neg h3, if_neg h4] at hn
    exact (Option.some.inj hn).symm
  · obtain ⟨f, hf, f1, f2, f3⟩ := freq_of_spec c.cpuinfo_max_freq n hfit
    have hbody := set_min_unfold c (some s) m n f hn hf
    rw [hv] at hbody
    refine ⟨f, hf, f1, f2, f3, ?_, ?_⟩
    · obtain ⟨j, ret, s2, e, hj, hlog⟩ := set_freq_tail_log c.cpu_num v
        "intel_pstate/min_perf_pct" (n : Int) (f : Int) s hnum hlen
      exact ⟨j, ret, s2, hbody.trans e, hj, hlog⟩
    · intro hpct hok
      obtain ⟨e, hlog, hread, hpread⟩ := set_freq_tail_ok c.cpu_num v
        "intel_pstate/min_perf_pct" (n : Int) (f : Int) s hnum hlen hpct hok
      exact ⟨_, hbody.trans e, hlog, hread, hpread⟩

/-- Witness of C2 at a 3.4 GHz part and a request of 0 percent, which selects the
hardware minimum of 23 percent: no write is refused, the call returns 1 and
the per-CPU file reads the frequency. -/
theorem set_min_percent_and_frequency_witness :
    ∃ f : Nat,
      freq_of cpu_3400.cpuinfo_max_freq ((23 : Nat) : Int) = some (f : Int) ∧
      f ≤ cpu_3400.cpuinfo_max_freq * 23 / 100 ∧
      cpu_3400.cpuinfo_max_freq * 23 / 100 ≤ f + 1 ∧
      ∃ s2 : Sysfs,
        psfreq_cpu_set_min (some cpu_3400) (some sysfs_blank) 0 = some (1, some s2) ∧
        s2.log = sysfs_blank.log ++ ("intel_pstate/min_perf_pct", fmtInt ((23 : Nat) : Int)) ::
          (["cpu0/cpufreq/scaling_min_freq"].take cpu_3400.cpu_num).map
            (fun p => (p, fmtInt f)) ∧
        psfreq_sysfs_read s2 "cpu0/cpufreq/scaling_min_freq" = some (fmtInt f) ∧
        psfreq_sysfs_read s2 "intel_pstate/min_perf_pct" = some (fmtInt ((23 : Nat) : Int)) := by
  obtain ⟨-, -, -, f, hf, f1, f2, -, -, hok⟩ :=
    set_min_percent_and_frequency cpu_3400 sysfs_blank 0 23 ["cpu0/cpufreq/scaling_min_freq"]
      (by decide) (by decide) (by decide) rfl (by decide)
  obtain ⟨s2, e, hlog, hread, hpread⟩ := hok (by decide) (by decide)
  exact ⟨f, hf, f1, f2, s2, e, hlog, hread _ (by decide), hpread (by decide)⟩

/-- Counterexample to C2 as stated: asked for 57 percent of 3400000 kHz,
`psfreq_cpu_set_min` writes 57 to `min_perf_pct` and 1937999 to the per-CPU file,
whereas `3400000 * 57 / 100` is 1938000. -/
theorem set_min_57_percent_writes_1937999 :
    psfreq_cpu_set_min (some cpu_3400) (some sysfs_blank) 57
      = some (1, some
          { files := [("cpu0/cpufreq/scaling_min_freq", "1937999\n"),
                      ("intel_pstate/min_perf_pct", "57\n")],
            denied := [],
            log := [("intel_pstate/min_perf_pct", "57"),
                    ("cpu0/cpufreq/scaling_min_freq", "1937999")] }) ∧
    cpu_3400.cpuinfo_max_freq * 57 / 100 = 1938000 := by
  decide

/-- C3: when the write to `vector_scaling_max_freq[k]` is the first per-CPU write
that fails, `psfreq_cpu_set_max` returns 0, the files of CPUs `0 .. k-1` hold the
new frequency, the files of CPUs `k .. N-1` read as before, and the writes
attempted are the percent followed by the frequency on the paths `0 .. k` only. -/
theorem set_max_first_failure (c : psfreq_cpu_type) (s : Sysfs) (m n f : Int) (v : List String)
    (k : Nat)
    (hv : c.vector_scaling_max_freq = some v) (hlen : v.length = c.cpu_num)
    (hpaths : ∀ i, i < c.cpu_num →
      v.get? i = some ("cpu" ++ Nat.repr i ++ "/cpufreq/scaling_" ++ "max_freq"))
    (hk : k < c.cpu_num)
    (hn : set_max_percent (some c) m = some n)
    (hf : freq_of c.cpuinfo_max_freq n = some f)
    (hpct : "intel_pstate/max_perf_pct" ∉ s.denied)
    (hok : ∀ i, i < k → "cpu" ++ Nat.repr i ++ "/cpufreq/scaling_" ++ "max_freq" ∉ s.denied)
    (hbad : "cpu" ++ Nat.repr k ++ "/cpufreq/scaling_" ++ "max_freq" ∈ s.denied) :
    ∃ s2 : Sysfs,
      psfreq_cpu_set_max (some c) (some s) m = some (0, some s2) ∧
      (∀ i, i < k →
        psfreq_sysfs_read s2 ("cpu" ++ Nat.repr i ++ "/cpufreq/scaling_" ++ "max_freq")
          = some (fmtInt f)) ∧
      (∀ i, k ≤ i → i < c.cpu_num →
        psfreq_sysfs_read s2 ("cpu" ++ Nat.repr i ++ "/cpufreq/scaling_" ++ "max_freq")
          = psfreq_sysfs_read s ("cpu" ++ Nat.repr i ++ "/cpufreq/scaling_" ++ "max_freq")) ∧
      s2.log = s.log ++ ("intel_pstate/max_perf_pct", fmtInt n) ::
        (List.range (k + 1)).map
          (fun i => ("cpu" ++ Nat.repr i ++ "/cpufreq/scaling_" ++ "max_freq", fmtInt f)) := by
  have hveq := vector_eq_map_range v c.cpu_num
    (fun i => "cpu" ++ Nat.repr i ++ "/cpufreq/scaling_" ++ "max_freq") hlen hpaths
  have htake : ∀ j, j ≤ c.cpu_num → v.take j = (List.range j).map
      (fun i => "cpu" ++ Nat.repr i ++ "/cpufreq/scaling_" ++ "max_freq") := by
    intro j hj
    rw [hveq, ← List.map_take, List.take_range, Nat.min_eq_left hj]
  have hnum : c.cpu_num ≠ 0 := by omega
  have hw : (psfreq_sysfs_write_num s "intel_pstate/max_perf_pct" n).1 = true :=
    (write_fst s _ _).mpr hpct
  have hden : (psfreq_sysfs_write_num s "intel_pstate/max_perf_pct" n).2.denied = s.denied :=
    write_denied s _ _
  have hfan := fan_out_fail (fmtInt f) v k c.cpu_num 0
    (psfreq_sysfs_write_num s "intel_pstate/max_perf_pct" n).2 hk (by omega)
    (by
      intro p hp
      rw [List.drop_zero, htake k (by omega)] at hp
      obtain ⟨i, hi, rfl⟩ := List.mem_map.mp hp
      rw [hden]
      exact hok i (List.mem_range.mp hi))
    (by
      intro p hp
      rw [Nat.zero_add, hpaths k hk] at hp
      rw [hden, ← Option.some.inj hp]
      exact hbad)
  rw [List.drop_zero, htake (k + 1) (by omega)] at hfan
  refine ⟨write_all (fmtInt f) (psfreq_sysfs_write_num s "intel_pstate/max_perf_pct" n).2
    ((List.range (k + 1)).map
      (fun i => "cpu" ++ Nat.repr i ++ "/cpufreq/scaling_" ++ "max_freq")), ?_, ?_, ?_, ?_⟩
  · rw [set_max_unfold c (some s) m n f hn hf, hv]
    unfold set_freq_tail
    simp only [if_neg hnum, if_pos hw]
    have e2 : fan_out (fun t path => psfreq_sysfs_write_num t path f) v c.cpu_num 0
        (psfreq_sysfs_write_num s "intel_pstate/max_perf_pct" n).2 = _ := hfan
    rw [e2]
  · intro i hi
    apply write_all_read_same
    · exact List.mem_map.mpr ⟨i, List.mem_range.mpr (by omega), rfl⟩
    · rw [hden]; exact hok i hi
  · intro i hki hiN
    rw [write_all_read_other]
    · exact read_write_other s _ _ _ (cpu_path_ne_pstate "max_freq" "max_perf_pct" i)
    · rcases Nat.eq_or_lt_of_le hki with h1 | h1
      · right
        rw [hden, ← h1]
        exact hbad
      · left
        intro hmem
        obtain ⟨j, hj, e⟩ := List.mem_map.mp hmem
        have := cpu_path_injective "max_freq" j i e
        have := List.mem_range.mp hj
        omega
  · rw [write_all_log]
    unfold psfreq_sysfs_write_num
    rw [write_log]
    simp

/-- Witness of C3: four CPUs, the write on CPU 2 fails, the request is 50 percent. -/
theorem set_max_first_failure_witness :
    ∃ s2 : Sysfs,
      psfreq_cpu_set_max (some cpu_quad) (some sysfs_cpu2_refuses) 50 = some (0, some s2) ∧
      (∀ i, i < 2 →
        psfreq_sysfs_read s2 ("cpu" ++ Nat.repr i ++ "/cpufreq/scaling_" ++ "max_freq")
          = some (fmtInt 1700000)) ∧
      (∀ i, 2 ≤ i → i < cpu_quad.cpu_num →
        psfreq_sysfs_read s2 ("cpu" ++ Nat.repr i ++ "/cpufreq/scaling_" ++ "max_freq")
          = psfreq_sysfs_read sysfs_cpu2_refuses
              ("cpu" ++ Nat.repr i ++ "/cpufreq/scaling_" ++ "max_freq")) ∧
      s2.log = sysfs_cpu2_refuses.log ++ ("intel_pstate/max_perf_pct", fmtInt 50) ::
        (List.range (2 + 1)).map
          (fun i => ("cpu" ++ Nat.repr i ++ "/cpufreq/scaling_" ++ "max_freq",
            fmtInt 1700000)) :=
  set_max_first_failure cpu_quad sysfs_cpu2_refuses 50 50 1700000
    ["cpu0/cpufreq/scaling_max_freq", "cpu1/cpufreq/scaling_max_freq",
     "cpu2/cpufreq/scaling_max_freq", "cpu3/cpufreq/scaling_max_freq"] 2
    rfl (by decide) (by decide) (by decide) (by decide) (by decide) (by decide) (by decide)
    (by decide)

/-- C4: with `N ≥ 1` CPUs, a governor path vector of length `N` and every write
succeeding, `psfreq_cpu_set_gov` returns 1 after exactly `N` writes, the `i`-th
going to `vector_scaling_governor[i]` with exactly the string given, whatever
that string is (the writes the call adds to the record are the vector itself,
each path paired with the string); each governor file then reads as that string. -/
theorem set_gov_writes_each_path (c : psfreq_cpu_type) (s : Sysfs) (g : String) (v : List String)
    (hnum : 1 ≤ c.cpu_num) (hv : c.vector_scaling_governor = some v)
    (hlen : v.length = c.cpu_num) (hok : ∀ p ∈ v, p ∉ s.denied) :
    ∃ s2 : Sysfs,
      psfreq_cpu_set_gov (some c) (some s) g = some (1, some s2) ∧
      s2.log = s.log ++ v.map (fun p => (p, g)) ∧
      (∀ p ∈ v, psfreq_sysfs_read s2 p = some g) := by
  have hfan := fan_out_ok g v c.cpu_num 0 s (by omega)
    (by
      intro p hp
      exact hok p (List.mem_of_mem_take (by simpa using hp)))
  have htake : (v.drop 0).take c.cpu_num = v := by
    rw [List.drop_zero, ← hlen, List.take_length]
  rw [htake] at hfan
  refine ⟨write_all g s v, ?_, write_all_log g v s, ?_⟩
  · unfold psfreq_cpu_set_gov
    have h0 : c.cpu_num ≠ 0 := by omega
    simp only [if_neg h0, hv]
    rw [hfan]
  · intro p hp
    exact write_all_read_same g p v s hp (hok p hp)

/-- Witness of C4: four CPUs and the governor "performance". -/
theorem set_gov_writes_each_path_witness :
    ∃ s2 : Sysfs,
      psfreq_cpu_set_gov (some cpu_quad) (some sysfs_blank) "performance" = some (1, some s2) ∧
      s2.log = sysfs_blank.log ++
        ["cpu0/cpufreq/scaling_governor", "cpu1/cpufreq/scaling_governor",
         "cpu2/cpufreq/scaling_governor", "cpu3/cpufreq/scaling_governor"].map
          (fun p => (p, "performance")) ∧
      (∀ p ∈ ["cpu0/cpufreq/scaling_governor", "cpu1/cpufreq/scaling_governor",
               "cpu2/cpufreq/scaling_governor", "cpu3/cpufreq/scaling_governor"],
        psfreq_sysfs_read s2 p = some "performance") :=
  set_gov_writes_each_path cpu_quad sysfs_blank "performance"
    ["cpu0/cpufreq/scaling_governor", "cpu1/cpufreq/scaling_governor",
     "cpu2/cpufreq/scaling_governor", "cpu3/cpufreq/scaling_governor"]
    (by decide) rfl (by decide) (by decide)

/-- C5: for a CPU count `N` with `1 ≤ N ≤ 255` and any suffix, when `malloc` and
every `asprintf` succeed, `psfreq_cpu_init_vector` returns a vector of exactly
`N` entries whose `i`-th entry is "cpu", the decimal text of `i`,
"/cpufreq/scaling_" and the suffix. -/
theorem init_vector_entries (env : Env) (c : psfreq_cpu_type) (what : String)
    (h1 : 1 ≤ c.cpu_num) (h255 : c.cpu_num ≤ 255)
    (hm : env.malloc_ok c.cpu_num = true)
    (ha : ∀ i, i < c.cpu_num →
      env.asprintf_ok ("cpu" ++ Nat.repr i ++ "/cpufreq/scaling_" ++ what) = true) :
    ∃ v : List String,
      psfreq_cpu_init_vector env (some c) what = some v ∧
      v.length = c.cpu_num ∧
      ∀ i, i < c.cpu_num →
        v.get? i = some ("cpu" ++ Nat.repr i ++ "/cpufreq/scaling_" ++ what) := by
  have hnarrow : c.cpu_num % 256 = c.cpu_num := Nat.mod_eq_of_lt (by omega)
  refine ⟨(List.range c.cpu_num).map
    (fun j => "cpu" ++ Nat.repr j ++ "/cpufreq/scaling_" ++ what), ?_, by simp, ?_⟩
  · unfold psfreq_cpu_init_vector
    have h0 : ¬ c.cpu_num = 0 := by omega
    simp only [hnarrow, if_neg h0, hm, if_true]
    rw [init_vector_loop_spec env what c.cpu_num 0 []
      (fun j _ h2 => ha j (by omega)), List.range_eq_range']
    simp
  · intro i hi
    rw [List.get?_eq_getElem?, List.getElem?_map, List.getElem?_range hi]
    rfl

/-- Witness of C5: four CPUs and the suffix "governor". -/
theorem init_vector_entries_witness :
    psfreq_cpu_init_vector env_four (some cpu_quad) "governor"
      = some ["cpu0/cpufreq/scaling_governor", "cpu1/cpufreq/scaling_governor",
              "cpu2/cpufreq/scaling_governor", "cpu3/cpufreq/scaling_governor"] ∧
    ∃ v : List String,
      psfreq_cpu_init_vector env_four (some cpu_quad) "governor" = some v ∧
      v.length = cpu_quad.cpu_num ∧
      ∀ i, i < cpu_quad.cpu_num →
        v.get? i = some ("cpu" ++ Nat.repr i ++ "/cpufreq/scaling_" ++ "governor") :=
  ⟨by decide, init_vector_entries env_four cpu_quad "governor" (by decide) (by decide) rfl
    (fun _ _ => rfl)⟩

/-- C6 (what the code does): on an `intel_pstate` machine whose CPU count comes
back as 0, `psfreq_cpu_init` leaves the three path vectors NULL, yet it returns
1, not 0: nothing between the count and the final `return` tests the count. -/
theorem init_returns_one_with_zero_cpus (env : Env) (cpu : psfreq_cpu_type) (s : Sysfs)
    (hd : psfreq_sysfs_read s "cpu0/cpufreq/scaling_driver" = some "intel_pstate")
    (h0 : psfreq_cpu_init_number_cpus env = 0) :
    ∃ c2, psfreq_cpu_init env cpu (some s) = some (1, c2) ∧
      c2.cpu_num = 0 ∧
      c2.vector_scaling_min_freq = none ∧
      c2.vector_scaling_max_freq = none ∧
      c2.vector_scaling_governor = none := by
  obtain ⟨c2, e, -, h2, h3, h4, h5⟩ := (init_total env cpu s "intel_pstate" hd).2 rfl
  rw [h0] at h2 h3 h4 h5
  exact ⟨c2, e, h2, h3, h4, h5⟩

/-- Witness of C6: the processor count reads "0" on a machine driven by
`intel_pstate`. -/
theorem init_returns_one_with_zero_cpus_witness :
    ∃ c2, psfreq_cpu_init env_zero cpu_fresh (some sysfs_pstate) = some (1, c2) ∧
      c2.cpu_num = 0 ∧
      c2.vector_scaling_min_freq = none ∧
      c2.vector_scaling_max_freq = none ∧
      c2.vector_scaling_governor = none :=
  init_returns_one_with_zero_cpus env_zero cpu_fresh sysfs_pstate (by decide) (by decide)

/-- C7: for every driver name `d` read from `cpu0/cpufreq/scaling_driver`,
`psfreq_cpu_init` sets `has_pstate` to 1 exactly when `d` is equal to
"intel_pstate"; when `d` differs it returns 0 with `cpu_num` and the path vectors
of the object untouched, whatever the CPU-count and allocation services would
have answered. -/
theorem init_has_pstate_iff_intel_pstate (env : Env) (cpu : psfreq_cpu_type) (s : Sysfs)
    (d : String)
    (hd : psfreq_sysfs_read s "cpu0/cpufreq/scaling_driver" = some d) :
    (∃ r, psfreq_cpu_init env cpu (some s) = some r ∧
      (r.2.has_pstate = 1 ↔ d = "intel_pstate")) ∧
    (d ≠ "intel_pstate" →
      ∀ env2 : Env, ∃ c2, psfreq_cpu_init env2 cpu (some s) = some (0, c2) ∧
        c2.has_pstate = 0 ∧ c2.cpu_num = cpu.cpu_num ∧
        c2.vector_scaling_min_freq = cpu.vector_scaling_min_freq ∧
        c2.vector_scaling_max_freq = cpu.vector_scaling_max_freq ∧
        c2.vector_scaling_governor = cpu.vector_scaling_governor) := by
  constructor
  · by_cases h : d = "intel_pstate"
    · obtain ⟨c2, e, h1, -⟩ := (init_total env cpu s d hd).2 h
      exact ⟨(1, c2), e, by simp [h1, h]⟩
    · exact ⟨_, (init_total env cpu s d hd).1 h, by simp [h]⟩
  · intro h env2
    exact ⟨_, (init_total env2 cpu s d hd).1 h, rfl, rfl, rfl, rfl, rfl⟩

/-- Witness of C7: the driver read is "acpi-cpufreq". -/
theorem init_has_pstate_iff_intel_pstate_witness :
    (∃ r, psfreq_cpu_init env_four cpu_fresh (some sysfs_acpi) = some r ∧
      (r.2.has_pstate = 1 ↔ "acpi-cpufreq" = "intel_pstate")) ∧
    ("acpi-cpufreq" ≠ "intel_pstate" →
      ∀ env2 : Env, ∃ c2, psfreq_cpu_init env2 cpu_fresh (some sysfs_acpi) = some (0, c2) ∧
        c2.has_pstate = 0 ∧ c2.cpu_num = cpu_fresh.cpu_num ∧
        c2.vector_scaling_min_freq = cpu_fresh.vector_scaling_min_freq ∧
        c2.vector_scaling_max_freq = cpu_fresh.vector_scaling_max_freq ∧
        c2.vector_scaling_governor = cpu_fresh.vector_scaling_governor) :=
  init_has_pstate_iff_intel_pstate env_four cpu_fresh sysfs_acpi "acpi-cpufreq" (by decide)

/-- C8 (as amended): for a hardware maximum `F` with `101 ≤ F < 2^31` and a
percent `p ≤ 100`, converting `p` to a frequency as `psfreq_cpu_set_max` does and
that frequency back to a percent as `psfreq_cpu_get_scaling_max` does yields `p`
or `p - 1`. -/
theorem percent_to_frequency_and_back (c : psfreq_cpu_type) (p : Nat)
    (h101 : 101 ≤ c.cpuinfo_max_freq) (hmax : c.cpuinfo_max_freq < 2 ^ 31) (hp : p ≤ 100) :
    ∃ a q : Nat,
      freq_of c.cpuinfo_max_freq (p : Int) = some (a : Int) ∧
      psfreq_cpu_get_scaling_max (some { c with scaling_max_freq := a }) = some q ∧
      q ≤ p ∧ p ≤ q + 1 := by
  obtain ⟨a, q, h1, h2, -, h4, h5⟩ := percent_roundtrip c.cpuinfo_max_freq p h101 hmax hp
  exact ⟨a, q, h1, h2, h4, h5⟩

/-- Witness of C8: 29 percent of 3400000 kHz. -/
theorem percent_to_frequency_and_back_witness :
    ∃ a q : Nat,
      freq_of cpu_3400.cpuinfo_max_freq ((29 : Nat) : Int) = some (a : Int) ∧
      psfreq_cpu_get_scaling_max (some { cpu_3400 with scaling_max_freq := a }) = some q ∧
      q ≤ 29 ∧ 29 ≤ q + 1 :=
  percent_to_frequency_and_back cpu_3400 29 (by decide) (by decide) (by decide)

/-- Counterexample to C8 as stated: with a hardware maximum of 1, the percent 50
becomes the frequency 0 and comes back as 0; with a hardware maximum of 100, the
percent 58 becomes 57 and comes back as 56. -/
theorem percent_roundtrip_off_by_more_than_one :
    (freq_of 1 50 = some 0 ∧
      psfreq_cpu_get_scaling_max
        (some { cpu_3400 with cpuinfo_max_freq := 1, scaling_max_freq := 0 }) = some 0) ∧
    (freq_of 100 58 = some 57 ∧
      psfreq_cpu_get_scaling_max
        (some { cpu_3400 with cpuinfo_max_freq := 100, scaling_max_freq := 57 }) = some 56) := by
  decide

/-- C9 (as amended): the turbo setters write their argument as it is, with no
translation.  For every `int` value `m`, `psfreq_cpu_set_turbo` called with `m`
writes `m` to `intel_pstate/no_turbo` and returns 1, and the following
`psfreq_cpu_init_turbo_boost` returns `m` narrowed to `char`, which is `m` itself
when `-128 ≤ m ≤ 127`; likewise `cpu::setTurboBoost(m)` on a P-State system writes
`m`, and `cpu::getTurboBoost()` then returns `m`.  Setting 1 therefore writes 1
(turbo off) and reads back 1. -/
theorem set_turbo_writes_its_argument (s : Sysfs) (m : Int)
    (h1 : -(2 : Int) ^ 31 ≤ m) (h2 : m < (2 : Int) ^ 31)
    (hw : "intel_pstate/no_turbo" ∉ s.denied) :
    (∃ s2 : Sysfs,
      psfreq_cpu_set_turbo (some s) m = (1, some s2) ∧
      s2.log = s.log ++ [("intel_pstate/no_turbo", fmtInt m)] ∧
      psfreq_sysfs_read s2 "intel_pstate/no_turbo" = some (fmtInt m) ∧
      psfreq_cpu_init_turbo_boost (some s2) = intToChar m ∧
      (-128 ≤ m → m ≤ 127 → psfreq_cpu_init_turbo_boost (some s2) = m)) ∧
    (sysfs_exists s "intel_pstate/no_turbo" = true →
      (cpu_setTurboBoost true s m).log = s.log ++ [("intel_pstate/no_turbo", fmtInt m)] ∧
      psfreq_sysfs_read (cpu_setTurboBoost true s m) "intel_pstate/no_turbo"
        = some (fmtInt m) ∧
      cpu_getTurboBoost true (cpu_setTurboBoost true s m) = some m) := by
  have hwr : (psfreq_sysfs_write_num s "intel_pstate/no_turbo" m).1 = true :=
    (write_fst s _ _).mpr hw
  have hrd : psfreq_sysfs_read (psfreq_sysfs_write_num s "intel_pstate/no_turbo" m).2
      "intel_pstate/no_turbo" = some (fmtInt m) := read_write_same s _ _ hw
  have hlog : (psfreq_sysfs_write_num s "intel_pstate/no_turbo" m).2.log
      = s.log ++ [("intel_pstate/no_turbo", fmtInt m)] := write_log s _ _
  have hparse : psfreq_strings_to_int (fmtInt m) = m := strings_to_int_fmtInt m h1 h2
  have hget : psfreq_cpu_init_turbo_boost
      (some (psfreq_sysfs_write_num s "intel_pstate/no_turbo" m).2) = intToChar m := by
    unfold psfreq_cpu_init_turbo_boost
    simp only [hrd, hparse]
  constructor
  · refine ⟨(psfreq_sysfs_write_num s "intel_pstate/no_turbo" m).2, ?_, hlog, hrd, hget, ?_⟩
    · unfold psfreq_cpu_set_turbo
      simp only [hwr, if_true]
    · intro h3 h4
      rw [hget]
      exact intToChar_id m h3 h4
  · intro hex
    have e : cpu_setTurboBoost true s m
        = (psfreq_sysfs_write_num s "intel_pstate/no_turbo" m).2 := by
      unfold cpu_setTurboBoost turbo_file
      simp only [if_true, hex]
    rw [e]
    refine ⟨hlog, hrd, ?_⟩
    unfold cpu_getTurboBoost turbo_file
    simp only [if_true, hrd, Option.map, hparse]

/-- Witness of C9 on a machine driven by `intel_pstate`: turbo set to 1 writes 1
and reads back 1 in both variants, and 200 set through `psfreq_cpu_set_turbo`
reads back as -56. -/
theorem set_turbo_writes_its_argument_witness :
    (∃ s2 : Sysfs,
      psfreq_cpu_set_turbo (some sysfs_pstate) 1 = (1, some s2) ∧
      s2.log = sysfs_pstate.log ++ [("intel_pstate/no_turbo", fmtInt 1)] ∧
      psfreq_sysfs_read s2 "intel_pstate/no_turbo" = some (fmtInt 1) ∧
      psfreq_cpu_init_turbo_boost (some s2) = 1) ∧
    ((cpu_setTurboBoost true sysfs_pstate 1).log
        = sysfs_pstate.log ++ [("intel_pstate/no_turbo", fmtInt 1)] ∧
      psfreq_sysfs_read (cpu_setTurboBoost true sysfs_pstate 1) "intel_pstate/no_turbo"
        = some (fmtInt 1) ∧
      cpu_getTurboBoost true (cpu_setTurboBoost true sysfs_pstate 1) = some 1) ∧
    (∃ s2 : Sysfs,
      psfreq_cpu_set_turbo (some sysfs_pstate) 200 = (1, some s2) ∧
      psfreq_cpu_init_turbo_boost (some s2) = -56) := by
  obtain ⟨⟨s2, e, hlog, hrd, -, hsame⟩, hcpp⟩ :=
    set_turbo_writes_its_argument sysfs_pstate 1 (by decide) (by decide) (by decide)
  obtain ⟨⟨t2, e200, -, -, hget, -⟩, -⟩ :=
    set_turbo_writes_its_argument sysfs_pstate 200 (by decide) (by decide) (by decide)
  exact ⟨⟨s2, e, hlog, hrd, hsame (by decide) (by decide)⟩, hcpp (by decide),
    ⟨t2, e200, hget.trans (by decide)⟩⟩

/-- Counterexample to C9 as stated: asked to set turbo to 1 ("enabled") on a
P-State system, both setters write the text "1" to `intel_pstate/no_turbo`, not
"0". -/
theorem set_turbo_one_writes_one :
    ((psfreq_cpu_set_turbo (some sysfs_pstate) 1).2.map fun t => t.log)
      = some [("intel_pstate/no_turbo", "1")] ∧
    (cpu_setTurboBoost true sysfs_pstate 1).log = [("intel_pstate/no_turbo", "1")] ∧
    psfreq_sysfs_read (cpu_setTurboBoost true sysfs_pstate 1) "intel_pstate/no_turbo"
      = some "1" := by
  decide

/-- C10 (as amended): after `psfreq_cpu_set_min` with `m = 0`, every write
succeeding, and `psfreq_cpu_reinit`, `psfreq_cpu_get_scaling_min` returns the
hardware info-min percentage `psfreq_cpu_get_cpuinfo_min(cpu)` or one less, for
every cpu with `cpu_num ≥ 1`, `cpuinfo_min_freq ≤ cpuinfo_max_freq` and
`101 ≤ cpuinfo_max_freq < 2^31`. -/
theorem set_min_zero_then_get_scaling_min (env : Env) (c : psfreq_cpu_type) (s : Sysfs)
    (v : List String)
    (hnum : 1 ≤ c.cpu_num) (hv : c.vector_scaling_min_freq = some v)
    (hlen : v.length = c.cpu_num)
    (h0 : v.get? 0 = some "cpu0/cpufreq/scaling_min_freq")
    (hg : ∀ g, c.vector_scaling_governor = some g → g ≠ [])
    (hle : c.cpuinfo_min_freq ≤ c.cpuinfo_max_freq)
    (h101 : 101 ≤ c.cpuinfo_max_freq) (hmax : c.cpuinfo_max_freq < 2 ^ 31)
    (hpct : "intel_pstate/min_perf_pct" ∉ s.denied) (hok : ∀ p ∈ v, p ∉ s.denied)
    (hfmt : env.asprintf_ok "cpu0/cpufreq/scaling_min_freq" = true) :
    ∃ (s2 : Sysfs) (c2 : psfreq_cpu_type) (n q : Nat),
      psfreq_cpu_set_min (some c) (some s) 0 = some (1, some s2) ∧
      psfreq_cpu_reinit env c (some s2) = some (1, c2) ∧
      psfreq_cpu_get_cpuinfo_min (some c2) = some n ∧
      psfreq_cpu_get_scaling_min (some c2) = some q ∧
      q ≤ n ∧ n ≤ q + 1 := by
  -- the hardware minimum as a percentage
  have hn100 : 100 * c.cpuinfo_min_freq / c.cpuinfo_max_freq ≤ 100 := by
    apply Nat.div_le_of_le_mul
    calc 100 * c.cpuinfo_min_freq ≤ 100 * c.cpuinfo_max_freq := Nat.mul_le_mul_left 100 hle
      _ = c.cpuinfo_max_freq * 100 := Nat.mul_comm _ _
  obtain ⟨n, en, n1, -, -⟩ := percent_of_spec c.cpuinfo_min_freq c.cpuinfo_max_freq
    (by omega) (by omega) (by omega)
  have hnle : n ≤ 100 := le_trans n1 hn100
  have hmin : psfreq_cpu_get_cpuinfo_min (some c) = some n := en
  have hpc : set_min_percent (some c) 0 = some (n : Int) := by
    unfold set_min_percent
    rw [if_neg (by decide), if_pos (by decide), hmin]
    simp only [uintToInt]
    rw [if_pos (by omega)]
  -- the frequency written and the percentage it reads back as
  obtain ⟨a, q, ea, eq, ha, q1, q2⟩ := percent_roundtrip c.cpuinfo_max_freq n h101 hmax hnle
  have ha32 : a < 2 ^ 32 := by
    have : c.cpuinfo_max_freq * n / 100 ≤ c.cpuinfo_max_freq := by
      apply Nat.div_le_of_le_mul
      calc c.cpuinfo_max_freq * n ≤ c.cpuinfo_max_freq * 100 := Nat.mul_le_mul_left _ hnle
        _ = 100 * c.cpuinfo_max_freq := Nat.mul_comm _ _
    omega
  -- the writes
  have hw : (psfreq_sysfs_write_num s "intel_pstate/min_perf_pct" n).1 = true :=
    (write_fst s _ _).mpr hpct
  have hden : (psfreq_sysfs_write_num s "intel_pstate/min_perf_pct" n).2.denied = s.denied :=
    write_denied s _ _
  have htake : (v.drop 0).take c.cpu_num = v := by
    rw [List.drop_zero, ← hlen, List.take_length]
  have hfan := fan_out_ok (fmtInt a) v c.cpu_num 0
    (psfreq_sysfs_write_num s "intel_pstate/min_perf_pct" n).2 (by omega)
    (by
      intro p hp
      rw [htake] at hp
      rw [hden]
      exact hok p hp)
  rw [htake] at hfan
  have hmem : "cpu0/cpufreq/scaling_min_freq" ∈ v := List.get?_mem h0
  have hread : psfreq_sysfs_read
      (write_all (fmtInt a) (psfreq_sysfs_write_num s "intel_pstate/min_perf_pct" n).2 v)
      "cpu0/cpufreq/scaling_min_freq" = some (Nat.repr a) := by
    rw [← fmtInt_natCast]
    exact write_all_read_same _ _ v _ hmem (by rw [hden]; exact hok _ hmem)
  -- the re-read
  obtain ⟨c2, e2, -, -, -, k4, k5, k6, -, -, -⟩ := init_dynamic_total env c
    (some (write_all (fmtInt a) (psfreq_sysfs_write_num s "intel_pstate/min_perf_pct" n).2 v)) hg
  rw [init_freq_scaling_min env _ a ha32 hfmt hread] at k6
  refine ⟨_, c2, n, q, ?_, e2, ?_, ?_, q1, q2⟩
  · rw [set_min_unfold c (some s) 0 n a hpc ea, hv]
    unfold set_freq_tail
    have hnum0 : c.cpu_num ≠ 0 := by omega
    simp only [if_neg hnum0, if_pos hw]
    have e3 : fan_out (fun t path => psfreq_sysfs_write_num t path a) v c.cpu_num 0
        (psfreq_sysfs_write_num s "intel_pstate/min_perf_pct" n).2 = _ := hfan
    rw [e3]
  · show percent_of c2.cpuinfo_min_freq c2.cpuinfo_max_freq = some n
    rw [k4, k5]
    exact en
  · show percent_of c2.scaling_min_freq c2.cpuinfo_max_freq = some q
    rw [k5, k6]
    exact eq

/-- Witness of C10: the 3.4 GHz part, whose hardware minimum is 23 percent. -/
theorem set_min_zero_then_get_scaling_min_witness :
    ∃ (s2 : Sysfs) (c2 : psfreq_cpu_type) (n q : Nat),
      psfreq_cpu_set_min (some cpu_3400) (some sysfs_blank) 0 = some (1, some s2) ∧
      psfreq_cpu_reinit env_four cpu_3400 (some s2) = some (1, c2) ∧
      psfreq_cpu_get_cpuinfo_min (some c2) = some n ∧
      psfreq_cpu_get_scaling_min (some c2) = some q ∧
      q ≤ n ∧ n ≤ q + 1 :=
  set_min_zero_then_get_scaling_min env_four cpu_3400 sysfs_blank
    ["cpu0/cpufreq/scaling_min_freq"] (by decide) rfl (by decide) (by decide) (by decide)
    (by decide) (by decide) (by decide) (by decide) (by decide) rfl

/-- Counterexample to C10 as stated: on a part with a range of 500000 kHz to
1200000 kHz the hardware minimum is 41 percent; `psfreq_cpu_set_min` with 0 writes
491999 kHz, and after the re-read `psfreq_cpu_get_scaling_min` returns 40. -/
theorem set_min_zero_reads_back_40_not_41 :
    psfreq_cpu_get_cpuinfo_min (some cpu_1200) = some 41 ∧
    psfreq_cpu_set_min (some cpu_1200) (some sysfs_blank) 0
      = some (1, some
          { files := [("cpu0/cpufreq/scaling_min_freq", "491999\n"),
                      ("intel_pstate/min_perf_pct", "41\n")],
            denied := [],
            log := [("intel_pstate/min_perf_pct", "41"),
                    ("cpu0/cpufreq/scaling_min_freq", "491999")] }) ∧
    ((psfreq_cpu_reinit env_four cpu_1200 (some
          { files := [("cpu0/cpufreq/scaling_min_freq", "491999\n"),
                      ("intel_pstate/min_perf_pct", "41\n")],
            denied := [],
            log := [("intel_pstate/min_perf_pct", "41"),
                    ("cpu0/cpufreq/scaling_min_freq", "491999")] })).bind
        fun r => psfreq_cpu_get_scaling_min (some r.2)) = some 40 := by
  decide

/-- C11 (as amended): when the hardware maximum is a positive multiple of 100 (in
kHz, below `2^31`), `number` is the length of `maxFrequencyFileVector`, that
vector holds `cpu0/cpufreq/scaling_max_freq` and this file accepts writes,
`cpu::setScalingMax(100)` leaves the hardware maximum in the file and
`cpu::getMaxPState()` then returns 100. -/
theorem setScalingMax_100_then_getMaxPState (c : cpu_members) (s : Sysfs) (k : Nat)
    (hk : 0 < k) (hF : k * 100 < 2 ^ 31)
    (hmax : c.maxInfoFrequency = Dbl.ofNat (k * 100))
    (hnum : c.number = c.maxFrequencyFileVector.length)
    (hcpu0 : "cpu0/cpufreq/scaling_max_freq" ∈ c.maxFrequencyFileVector)
    (hw : "cpu0/cpufreq/scaling_max_freq" ∉ s.denied) :
    ∃ s2, cpu_setScalingMax c s 100 = some s2 ∧
      psfreq_sysfs_read s2 "cpu0/cpufreq/scaling_max_freq" = some (Nat.repr (k * 100)) ∧
      cpu_getMaxPState c s2 = some 100 := by
  have hval : cpu_scaling_value c.maxInfoFrequency 100 = some ((k * 100 : Nat) : Int) := by
    have := cpu_scaling_value_exact k 100 hF
    simp only [Nat.cast_ofNat] at this
    rw [hmax]
    exact this
  have hread : psfreq_sysfs_read
      (write_all (fmtInt ((k * 100 : Nat) : Int)) s c.maxFrequencyFileVector)
      "cpu0/cpufreq/scaling_max_freq" = some (Nat.repr (k * 100)) := by
    rw [write_all_read_same _ _ _ s hcpu0 hw, fmtInt_natCast]
  have hget : ∀ s2 : Sysfs,
      psfreq_sysfs_read s2 "cpu0/cpufreq/scaling_max_freq" = some (Nat.repr (k * 100)) →
      cpu_getMaxPState c s2 = some 100 := by
    intro s2 h2
    have h53 : k * 100 < 2 ^ 53 := lt_trans hF (by norm_num)
    unfold cpu_getMaxPState cpu_getScalingMaxFrequency
    rw [h2]
    simp only [Option.map]
    rw [stringToNumber_repr _ h53, hmax]
    exact cpu_pstate_of_same (k * 100) (by omega)
  refine ⟨_, setScalingMax_eq c s 100 _ hnum hval, ?_⟩
  have hread2 : psfreq_sysfs_read
      (if c.pstate then
        (psfreq_sysfs_write_num
          (write_all (fmtInt ((k * 100 : Nat) : Int)) s c.maxFrequencyFileVector)
          "intel_pstate/max_perf_pct" 100).2
      else write_all (fmtInt ((k * 100 : Nat) : Int)) s c.maxFrequencyFileVector)
      "cpu0/cpufreq/scaling_max_freq" = some (Nat.repr (k * 100)) := by
    cases c.pstate with
    | false => exact hread
    | true =>
      simp only [if_true]
      unfold psfreq_sysfs_write_num
      rw [read_write_other _ _ _ _ (by decide)]
      exact hread
  exact ⟨hread2, hget _ hread2⟩

/-- Witness of C11 at a hardware maximum of 3400000 kHz. -/
theorem setScalingMax_100_then_getMaxPState_witness :
    ∃ s2, cpu_setScalingMax cpp_3400 sysfs_blank 100 = some s2 ∧
      psfreq_sysfs_read s2 "cpu0/cpufreq/scaling_max_freq" = some (Nat.repr (34000 * 100)) ∧
      cpu_getMaxPState cpp_3400 s2 = some 100 :=
  setScalingMax_100_then_getMaxPState cpp_3400 sysfs_blank 34000
    (by decide) (by decide) (by decide) (by decide) (by decide) (by decide)

/-- Counterexample to C11 as stated: with a hardware maximum of 3292884 kHz, one
CPU and a sysfs tree on which every write succeeds, `cpu::setScalingMax(100)`
writes 3292883 to the per-CPU file, and `cpu::getMaxPState()` then returns 99. -/
theorem setScalingMax_100_reads_back_99 :
    0 < cpp_3292884.maxInfoFrequency.num ∧
    cpp_3292884.number = cpp_3292884.maxFrequencyFileVector.length ∧
    cpu_setScalingMax cpp_3292884 sysfs_blank 100
      = some { files := [("intel_pstate/max_perf_pct", "100\n"),
                         ("cpu0/cpufreq/scaling_max_freq", "3292883\n")],
               denied := [],
               log := [("cpu0/cpufreq/scaling_max_freq", "3292883"),
                       ("intel_pstate/max_perf_pct", "100")] } ∧
    (cpu_setScalingMax cpp_3292884 sysfs_blank 100).bind (cpu_getMaxPState cpp_3292884)
      = some 99 := by
  decide

/-- C12 (divergence): on a part whose minimum and maximum hardware frequencies are
equal, `psfreq_cpu_set_max` asked for a percent `m ≤ 0` takes
`psfreq_cpu_get_cpuinfo_min` plus one, that is 101, as the effective percent, and
the first write it attempts is 101 to `intel_pstate/max_perf_pct`; the frequency
it goes on to write to the per-CPU files is 101 percent of the hardware maximum,
or one less. -/
theorem set_max_writes_101_percent (c : psfreq_cpu_type) (s : Sysfs) (m : Int)
    (v : List String)
    (hm : m ≤ 0) (hF : 0 < c.cpuinfo_max_freq) (heq : c.cpuinfo_min_freq = c.cpuinfo_max_freq)
    (hfit : c.cpuinfo_max_freq * 101 < 100 * 2 ^ 31)
    (hnum : c.cpu_num ≠ 0) (hv : c.vector_scaling_max_freq = some v)
    (hlen : c.cpu_num ≤ v.length) :
    psfreq_cpu_get_cpuinfo_min (some c) = some 100 ∧
    set_max_percent (some c) m = some 101 ∧
    ∃ (f j ret : Nat) (s2 : Sysfs),
      psfreq_cpu_set_max (some c) (some s) m = some (ret, some s2) ∧
      s2.log = s.log ++ ("intel_pstate/max_perf_pct", "101") ::
        (v.take j).map (fun p => (p, fmtInt f)) ∧
      c.cpuinfo_max_freq * 101 / 100 ≤ f + 1 := by
  have hmin : psfreq_cpu_get_cpuinfo_min (some c) = some 100 := by
    unfold psfreq_cpu_get_cpuinfo_min
    simp only []
    rw [heq]
    exact percent_of_same _ hF
  have hn : set_max_percent (some c) m = some ((101 : Nat) : Int) := by
    unfold set_max_percent
    rw [if_neg (by omega), if_pos hm, hmin]
    rfl
  obtain ⟨f, hf, -, f2, -⟩ := freq_of_spec c.cpuinfo_max_freq 101 hfit
  obtain ⟨j, ret, s2, e, -, hlog⟩ := set_freq_tail_log c.cpu_num v
    "intel_pstate/max_perf_pct" ((101 : Nat) : Int) (f : Int) s hnum hlen
  refine ⟨hmin, hn, f, j, ret, s2, ?_, hlog, f2⟩
  rw [set_max_unfold c (some s) m _ f hn hf, hv]
  exact e

/-- Witness of C12 at one CPU of a part that runs at 3.4 GHz only, asked for 0
percent: the call writes 101 to `intel_pstate/max_perf_pct`, 3434000 to the
per-CPU file, and returns 1. -/
theorem set_max_writes_101_percent_witness :
    (psfreq_cpu_get_cpuinfo_min (some cpu_fixed) = some 100 ∧
      set_max_percent (some cpu_fixed) 0 = some 101 ∧
      ∃ (f j ret : Nat) (s2 : Sysfs),
        psfreq_cpu_set_max (some cpu_fixed) (some sysfs_blank) 0 = some (ret, some s2) ∧
        s2.log = sysfs_blank.log ++ ("intel_pstate/max_perf_pct", "101") ::
          (["cpu0/cpufreq/scaling_max_freq"].take j).map (fun p => (p, fmtInt f)) ∧
        cpu_fixed.cpuinfo_max_freq * 101 / 100 ≤ f + 1) ∧
    psfreq_cpu_set_max (some cpu_fixed) (some sysfs_blank) 0
      = some (1, some
          { files := [("cpu0/cpufreq/scaling_max_freq", "3434000\n"),
                      ("intel_pstate/max_perf_pct", "101\n")],
            denied := [],
            log := [("intel_pstate/max_perf_pct", "101"),
                    ("cpu0/cpufreq/scaling_max_freq", "3434000")] }) :=
  ⟨set_max_writes_101_percent cpu_fixed sysfs_blank 0 ["cpu0/cpufreq/scaling_max_freq"]
    (by decide) (by decide) (by decide) (by decide) (by decide) rfl (by decide),
   by decide⟩

/-- C13 (divergence): on a machine driven by `intel_pstate` whose file
`cpu0/cpufreq/cpuinfo_max_freq` cannot be read, `psfreq_cpu_init` returns 1 with
`has_pstate` 1 and `cpuinfo_max_freq` 0, and each of
`psfreq_cpu_get_cpuinfo_min`, `psfreq_cpu_get_scaling_min` and
`psfreq_cpu_get_scaling_max` then divides by zero and converts the non-finite
quotient to `unsigned int`, which has no defined result. -/
theorem init_returns_one_with_zero_cpuinfo_max (env : Env) (cpu : psfreq_cpu_type) (s : Sysfs)
    (hd : psfreq_sysfs_read s "cpu0/cpufreq/scaling_driver" = some "intel_pstate")
    (hr : psfreq_sysfs_read s "cpu0/cpufreq/cpuinfo_max_freq" = none) :
    ∃ c2, psfreq_cpu_init env cpu (some s) = some (1, c2) ∧
      c2.has_pstate = 1 ∧ c2.cpuinfo_max_freq = 0 ∧
      psfreq_cpu_get_cpuinfo_min (some c2) = none ∧
      psfreq_cpu_get_scaling_min (some c2) = none ∧
      psfreq_cpu_get_scaling_max (some c2) = none := by
  obtain ⟨c2, e, h1, h2, -, -, -⟩ := init_pstate_freqs env cpu s hd
  have h0 : c2.cpuinfo_max_freq = 0 := by
    rw [h2]
    exact (init_freq_sentinel env "cpuinfo" "max").2.1 s hr
  refine ⟨c2, e, h1, h0, ?_, ?_, ?_⟩
  · simp [psfreq_cpu_get_cpuinfo_min, percent_of, Dbl.div, Dbl.ofNat, h0]
  · simp [psfreq_cpu_get_scaling_min, percent_of, Dbl.div, Dbl.ofNat, h0]
  · simp [psfreq_cpu_get_scaling_max, percent_of, Dbl.div, Dbl.ofNat, h0]

/-- Witness of C13 at a machine of four CPUs whose `cpuinfo_max_freq` file is
missing. -/
theorem init_returns_one_with_zero_cpuinfo_max_witness :
    ∃ c2, psfreq_cpu_init env_four cpu_fresh (some sysfs_no_cpuinfo_max) = some (1, c2) ∧
      c2.has_pstate = 1 ∧ c2.cpuinfo_max_freq = 0 ∧
      psfreq_cpu_get_cpuinfo_min (some c2) = none ∧
      psfreq_cpu_get_scaling_min (some c2) = none ∧
      psfreq_cpu_get_scaling_max (some c2) = none :=
  init_returns_one_with_zero_cpuinfo_max env_four cpu_fresh sysfs_no_cpuinfo_max
    (by decide) (by decide)

/-- C14 (as amended): `psfreq_cpu_get_scaling_max` and `psfreq_cpu_get_scaling_min`
report the fields `scaling_max_freq` and `scaling_min_freq` of the cpu object,
which hold what the cpu0 files contained when `psfreq_cpu_reinit` (or
`psfreq_cpu_init`) last ran: after a reinit on a tree whose files read `amax` and
`amin`, the getters return `((double) a / cpuinfo_max_freq) * 100` truncated for
these two values; the getters take no sysfs object and read no file.  The live
read is that of the C++ variant, whose `cpu::getMaxPState` and
`cpu::getMinPState` convert the line found in the cpu0 file at the time of the
call. -/
theorem get_scaling_reports_last_reinit (env : Env) (c : psfreq_cpu_type) (s : Sysfs)
    (amax amin : Nat) (h1 : amax < 2 ^ 32) (h2 : amin < 2 ^ 32)
    (hg : ∀ v, c.vector_scaling_governor = some v → v ≠ [])
    (hfmax : env.asprintf_ok "cpu0/cpufreq/scaling_max_freq" = true)
    (hfmin : env.asprintf_ok "cpu0/cpufreq/scaling_min_freq" = true)
    (hmax : psfreq_sysfs_read s "cpu0/cpufreq/scaling_max_freq" = some (Nat.repr amax))
    (hmin : psfreq_sysfs_read s "cpu0/cpufreq/scaling_min_freq" = some (Nat.repr amin)) :
    (∃ c2, psfreq_cpu_reinit env c (some s) = some (1, c2) ∧
      c2.scaling_max_freq = amax ∧ c2.scaling_min_freq = amin ∧
      psfreq_cpu_get_scaling_max (some c2) = percent_of amax c.cpuinfo_max_freq ∧
      psfreq_cpu_get_scaling_min (some c2) = percent_of amin c.cpuinfo_max_freq) ∧
    (∀ (cc : cpu_members) (t : Sysfs) (line : String),
      psfreq_sysfs_read t "cpu0/cpufreq/scaling_max_freq" = some line →
      cpu_getMaxPState cc t = cpu_pstate_of (stringToNumber line) cc.maxInfoFrequency) ∧
    (∀ (cc : cpu_members) (t : Sysfs) (line : String),
      psfreq_sysfs_read t "cpu0/cpufreq/scaling_min_freq" = some line →
      cpu_getMinPState cc t = cpu_pstate_of (stringToNumber line) cc.maxInfoFrequency) := by
  refine ⟨?_, ?_, ?_⟩
  · obtain ⟨g, -, e⟩ := init_dynamic_eq env c (some s) hg
    have emax := init_freq_scaling_max env s amax h1 hfmax hmax
    have emin := init_freq_scaling_min env s amin h2 hfmin hmin
    refine ⟨_, e, emax, emin, ?_, ?_⟩
    · show percent_of (psfreq_cpu_init_freq env (some s) "scaling" "max") c.cpuinfo_max_freq = _
      rw [emax]
    · show percent_of (psfreq_cpu_init_freq env (some s) "scaling" "min") c.cpuinfo_max_freq = _
      rw [emin]
  · intro cc t line h
    unfold cpu_getMaxPState cpu_getScalingMaxFrequency
    rw [h]
    rfl
  · intro cc t line h
    unfold cpu_getMinPState cpu_getScalingMinFrequency
    rw [h]
    rfl

/-- Witness of C14 at four CPUs of a 3.4 GHz part throttled to 2 GHz. -/
theorem get_scaling_reports_last_reinit_witness :
    ∃ c2, psfreq_cpu_reinit env_four cpu_quad (some sysfs_throttled) = some (1, c2) ∧
      c2.scaling_max_freq = 2000000 ∧ c2.scaling_min_freq = 800000 ∧
      psfreq_cpu_get_scaling_max (some c2) = percent_of 2000000 cpu_quad.cpuinfo_max_freq ∧
      psfreq_cpu_get_scaling_min (some c2) = percent_of 800000 cpu_quad.cpuinfo_max_freq :=
  (get_scaling_reports_last_reinit env_four cpu_quad sysfs_throttled 2000000 800000
    (by decide) (by decide) (by decide) (by decide) (by decide) (by decide) (by decide)).1

/-- Counterexample to C14 as stated: the cpu object is the one that
`psfreq_cpu_init` builds on a tree at full range; `psfreq_cpu_set_max` at 50
percent then leaves 1700000 in `cpu0/cpufreq/scaling_max_freq`, which is 50
percent of 3400000, yet `psfreq_cpu_get_scaling_max` still returns 100. -/
theorem get_scaling_max_returns_100_while_file_holds_50_percent :
    psfreq_cpu_init env_four cpu_fresh (some sysfs_pstate) = some (1, cpu_quad) ∧
    ((psfreq_cpu_set_max (some cpu_quad) (some sysfs_pstate) 50).bind
      (fun r => r.2.bind (fun t => psfreq_sysfs_read t "cpu0/cpufreq/scaling_max_freq")))
      = some "1700000" ∧
    percent_of 1700000 cpu_quad.cpuinfo_max_freq = some 50 ∧
    psfreq_cpu_get_scaling_max (some cpu_quad) = some 100 := by
  decide

/-- C15: on a cpu whose governor vector is NULL or holds at least one path,
`psfreq_cpu_reinit` returns 1 for every sysfs state, and the cpu it leaves differs
from the one it was given in the four fields `scaling_max_freq`,
`scaling_min_freq`, `scaling_governor` and `pst_turbo` only: `cpu_num`,
`scaling_driver`, `has_pstate`, `cpuinfo_min_freq`, `cpuinfo_max_freq`, `pst_min`,
`pst_max` and the three path vectors are the same.  A sub-read that fails leaves
0 in the frequency, NULL in the governor and -1 in the turbo state. -/
theorem reinit_returns_one_and_keeps_static_fields (env : Env) (cpu : psfreq_cpu_type)
    (sysfs : Option Sysfs)
    (hg : ∀ v, cpu.vector_scaling_governor = some v → v ≠ []) :
    ∃ c2, psfreq_cpu_reinit env cpu sysfs = some (1, c2) ∧
      c2 = { cpu with scaling_max_freq := c2.scaling_max_freq,
                      scaling_min_freq := c2.scaling_min_freq,
                      scaling_governor := c2.scaling_governor,
                      pst_turbo := c2.pst_turbo } ∧
      (c2.cpu_num = cpu.cpu_num ∧ c2.scaling_driver = cpu.scaling_driver ∧
        c2.has_pstate = cpu.has_pstate ∧ c2.cpuinfo_min_freq = cpu.cpuinfo_min_freq ∧
        c2.cpuinfo_max_freq = cpu.cpuinfo_max_freq ∧ c2.pst_min = cpu.pst_min ∧
        c2.pst_max = cpu.pst_max ∧
        c2.vector_scaling_min_freq = cpu.vector_scaling_min_freq ∧
        c2.vector_scaling_max_freq = cpu.vector_scaling_max_freq ∧
        c2.vector_scaling_governor = cpu.vector_scaling_governor) ∧
      (sysfs = none →
        c2.scaling_max_freq = 0 ∧ c2.scaling_min_freq = 0 ∧ c2.scaling_governor = none ∧
        c2.pst_turbo = -1) ∧
      (∀ s, sysfs = some s →
        (psfreq_sysfs_read s "cpu0/cpufreq/scaling_max_freq" = none → c2.scaling_max_freq = 0) ∧
        (psfreq_sysfs_read s "cpu0/cpufreq/scaling_min_freq" = none → c2.scaling_min_freq = 0) ∧
        (∀ p ps, cpu.vector_scaling_governor = some (p :: ps) → psfreq_sysfs_read s p = none →
          c2.scaling_governor = none) ∧
        (cpu.vector_scaling_governor = none → c2.scaling_governor = none) ∧
        (psfreq_sysfs_read s "intel_pstate/no_turbo" = none → c2.pst_turbo = -1)) := by
  obtain ⟨g, hgov, e⟩ := init_dynamic_eq env cpu sysfs hg
  refine ⟨_, e, rfl, ⟨rfl, rfl, rfl, rfl, rfl, rfl, rfl, rfl, rfl, rfl⟩, ?_, ?_⟩
  · intro hs
    subst hs
    refine ⟨rfl, rfl, ?_, rfl⟩
    show g = none
    have h0 := (init_governor_cases cpu).1 (fun hv => hg [] hv rfl)
    rw [h0] at hgov
    exact (Option.some.inj hgov).symm
  · intro s hs
    subst hs
    refine ⟨?_, ?_, ?_, ?_, ?_⟩
    · intro h
      exact (init_freq_sentinel env "scaling" "max").2.1 s h
    · intro h
      exact (init_freq_sentinel env "scaling" "min").2.1 s h
    · intro p ps hv h
      show g = none
      rw [(init_governor_cases cpu).2.2 s p ps hv, h] at hgov
      exact (Option.some.inj hgov).symm
    · intro hv
      show g = none
      rw [(init_governor_cases cpu).2.1 hv (some s)] at hgov
      exact (Option.some.inj hgov).symm
    · intro h
      show psfreq_cpu_init_turbo_boost (some s) = -1
      unfold psfreq_cpu_init_turbo_boost
      simp only [h]

/-- Witness of C15 at a cpu of four CPUs and no sysfs object: the call returns 1,
the static fields are kept and every dynamic field holds its sentinel. -/
theorem reinit_returns_one_and_keeps_static_fields_witness :
    ∃ c2, psfreq_cpu_reinit env_four cpu_quad none = some (1, c2) ∧
      c2 = { cpu_quad with scaling_max_freq := c2.scaling_max_freq,
                           scaling_min_freq := c2.scaling_min_freq,
                           scaling_governor := c2.scaling_governor,
                           pst_turbo := c2.pst_turbo } ∧
      c2.scaling_max_freq = 0 ∧ c2.scaling_min_freq = 0 ∧ c2.scaling_governor = none ∧
      c2.pst_turbo = -1 := by
  obtain ⟨c2, e, h1, -, h3, -⟩ :=
    reinit_returns_one_and_keeps_static_fields env_four cpu_quad none (by decide)
  exact ⟨c2, e, h1, h3 rfl⟩

/-- C16 (as amended): for a hardware maximum `F` below `2^31` read from
`cpuinfo_max_freq` and a percent `p` from 0 to 100, `pyam_cpu_set_freq` writes the
text of `(F / 100) * p`, the quotient being taken first, to each of the first
`cpu_number` frequency files.  That number never exceeds `F * p / 100` and equals
it when 100 divides `F`. -/
theorem pyam_set_freq_writes_quotient_times_percent (env : Env) (fs : Sysfs) (cpu_number : Nat)
    (frequency_files : List String) (F p : Nat)
    (hF : F < 2 ^ 31) (hp : p ≤ 100)
    (hfile : fs.files.lookup FILE_CPUINFO_MAX_FREQ = some (Nat.repr F ++ "\n"))
    (hfmt : env.asprintf_ok (Nat.repr (F / 100 * p) ++ "\n") = true)
    (hlen : cpu_number ≤ frequency_files.length)
    (hok : ∀ path ∈ frequency_files.take cpu_number, path ∉ fs.denied) :
    pyam_cpu_set_freq env fs cpu_number frequency_files p
      = some (write_all (Nat.repr (F / 100 * p) ++ "\n") fs (frequency_files.take cpu_number)) ∧
    F / 100 * p ≤ F * p / 100 ∧
    (100 ∣ F → F / 100 * p = F * p / 100) := by
  refine ⟨?_, ?_, ?_⟩
  · have hloop := pyam_loop_ok frequency_files (Nat.repr (F / 100 * p) ++ "\n") cpu_number 0 fs
      (by omega) (by rw [List.drop_zero]; exact hok)
    rw [List.drop_zero] at hloop
    unfold pyam_cpu_set_freq
    rw [pyam_cpuinfo_max_freq_repr fs F hF hfile]
    dsimp only []
    rw [pyam_scaling_max_eq F p hF hp]
    unfold psfreq_strings_asprintf
    rw [if_pos hfmt]
    exact hloop
  · rw [Nat.le_div_iff_mul_le (by norm_num)]
    calc F / 100 * p * 100 = F / 100 * 100 * p := by ring
      _ ≤ F * p := Nat.mul_le_mul_right _ (Nat.div_mul_le_self F 100)
  · rintro ⟨k, rfl⟩
    rw [Nat.mul_div_cancel_left k (by norm_num), Nat.mul_assoc,
      Nat.mul_div_cancel_left _ (by norm_num)]

/-- Witness of C16 at a hardware maximum of 3400000 kHz and 50 percent. -/
theorem pyam_set_freq_writes_quotient_times_percent_witness :
    pyam_cpu_set_freq env_four fs_3400 1
        ["/sys/devices/system/cpu/cpu0/cpufreq/scaling_max_freq"] 50
      = some (write_all (Nat.repr (3400000 / 100 * 50) ++ "\n") fs_3400
          (["/sys/devices/system/cpu/cpu0/cpufreq/scaling_max_freq"].take 1)) ∧
    3400000 / 100 * 50 ≤ 3400000 * 50 / 100 ∧
    (100 ∣ 3400000 → 3400000 / 100 * 50 = 3400000 * 50 / 100) :=
  pyam_set_freq_writes_quotient_times_percent env_four fs_3400 1
    ["/sys/devices/system/cpu/cpu0/cpufreq/scaling_max_freq"] 3400000 50
    (by decide) (by decide) (by decide) (by decide) (by decide) (by decide)

/-- Counterexample to C16 as stated: with a hardware maximum of 1999 kHz and 50
percent, `pyam_cpu_set_freq` formats 950 and writes it to the frequency file,
whereas `1999 * 50 / 100` truncated is 999. -/
theorem pyam_set_freq_1999_at_50_writes_950 :
    pyam_cpu_get_cpuinfo_max_freq fs_1999 = some 1999 ∧
    pyam_cpu_scaling_max 1999 50 = 950 ∧
    pyam_cpu_set_freq env_four fs_1999 1
        ["/sys/devices/system/cpu/cpu0/cpufreq/scaling_max_freq"] 50
      = some { files := ("/sys/devices/system/cpu/cpu0/cpufreq/scaling_max_freq", "950\n\n")
                 :: fs_1999.files,
               denied := [],
               log := [("/sys/devices/system/cpu/cpu0/cpufreq/scaling_max_freq", "950\n")] } ∧
    1999 * 50 / 100 = 999 := by
  decide

/-- C17 (as amended): with a hardware maximum `F > 0` and the files
`cpu0/cpufreq/scaling_max_freq` and `cpu0/cpufreq/scaling_min_freq` holding the
frequencies `amax` and `amin`, `cpu::getMaxPState` and `cpu::getMinPState` return
the double value of `a / F * 100` with its fraction cut off: the integer quotient
`100 * a / F`, or one less, one less being possible only when `F` divides
`100 * a`.  The result is never rounded up. -/
theorem getPState_truncates (c : cpu_members) (s : Sysfs) (F amax amin : Nat)
    (hF : 0 < F) (hc : c.maxInfoFrequency = Dbl.ofNat F)
    (h1 : amax < 2 ^ 32) (h2 : amin < 2 ^ 32)
    (h3 : 100 * amax / F < 2 ^ 31) (h4 : 100 * amin / F < 2 ^ 31)
    (hmax : psfreq_sysfs_read s "cpu0/cpufreq/scaling_max_freq" = some (Nat.repr amax))
    (hmin : psfreq_sysfs_read s "cpu0/cpufreq/scaling_min_freq" = some (Nat.repr amin)) :
    (∃ q : Nat, cpu_getMaxPState c s = some (q : Int) ∧
      q ≤ 100 * amax / F ∧ 100 * amax / F ≤ q + 1 ∧ (¬ F ∣ 100 * amax → q = 100 * amax / F)) ∧
    (∃ q : Nat, cpu_getMinPState c s = some (q : Int) ∧
      q ≤ 100 * amin / F ∧ 100 * amin / F ≤ q + 1 ∧ (¬ F ∣ 100 * amin → q = 100 * amin / F)) := by
  have h53 : (2 : Nat) ^ 32 < 2 ^ 53 := by norm_num
  constructor
  · obtain ⟨q, hq, r⟩ := cpu_pstate_of_spec amax F hF h1 h3
    refine ⟨q, ?_, r⟩
    unfold cpu_getMaxPState cpu_getScalingMaxFrequency
    rw [hmax]
    simp only [Option.map]
    rw [stringToNumber_repr _ (lt_trans h1 h53), hc]
    exact hq
  · obtain ⟨q, hq, r⟩ := cpu_pstate_of_spec amin F hF h2 h4
    refine ⟨q, ?_, r⟩
    unfold cpu_getMinPState cpu_getScalingMinFrequency
    rw [hmin]
    simp only [Option.map]
    rw [stringToNumber_repr _ (lt_trans h2 h53), hc]
    exact hq

/-- Witness of C17 at a 3.4 GHz part throttled to 2 GHz. -/
theorem getPState_truncates_witness :
    (∃ q : Nat, cpu_getMaxPState cpp_3400 sysfs_throttled = some (q : Int) ∧
      q ≤ 100 * 2000000 / 3400000 ∧ 100 * 2000000 / 3400000 ≤ q + 1 ∧
      (¬ 3400000 ∣ 100 * 2000000 → q = 100 * 2000000 / 3400000)) ∧
    (∃ q : Nat, cpu_getMinPState cpp_3400 sysfs_throttled = some (q : Int) ∧
      q ≤ 100 * 800000 / 3400000 ∧ 100 * 800000 / 3400000 ≤ q + 1 ∧
      (¬ 3400000 ∣ 100 * 800000 → q = 100 * 800000 / 3400000)) :=
  getPState_truncates cpp_3400 sysfs_throttled 3400000 2000000 800000
    (by decide) (by decide) (by decide) (by decide) (by decide) (by decide)
    (by decide) (by decide)

/-- Counterexample to C17 as stated: at 2000000 kHz of 3400000 kHz, 58.82 percent,
`cpu::getMaxPState` returns 58 where the nearest integer is 59, and at 800000 kHz,
23.53 percent, `cpu::getMinPState` returns 23 where the nearest integer is 24. -/
theorem getPState_returns_58_and_23_not_59_and_24 :
    cpu_getMaxPState cpp_3400 sysfs_throttled = some 58 ∧
    roundNearestEven (100 * 2000000) 3400000 = 59 ∧
    cpu_getMinPState cpp_3400 sysfs_throttled = some 23 ∧
    roundNearestEven (100 * 800000) 3400000 = 24 := by
  decide

/-- C19: `psfreq_cpu_set_max` attempts the write to `intel_pstate/max_perf_pct`
before any per-CPU file (the record of attempted writes grows by that write
followed by writes to the first `j` per-CPU paths).  When that first write is
refused the call returns 0 and the only attempt made is that one, every file
keeping its content; when `sysfs` is NULL, `cpu_num` is 0 or the path vector is
NULL the call returns 0 and the sysfs tree is the one it was given.  The same
holds for `psfreq_cpu_set_min` with `intel_pstate/min_perf_pct`. -/
theorem set_max_min_percent_control_first (c : psfreq_cpu_type) (m nmax fmax nmin fmin : Int)
    (hnmax : set_max_percent (some c) m = some nmax)
    (hfmax : freq_of c.cpuinfo_max_freq nmax = some fmax)
    (hnmin : set_min_percent (some c) m = some nmin)
    (hfmin : freq_of c.cpuinfo_max_freq nmin = some fmin) :
    (psfreq_cpu_set_max (some c) none m = some (0, none) ∧
      psfreq_cpu_set_min (some c) none m = some (0, none)) ∧
    (∀ s : Sysfs, c.cpu_num = 0 ∨ c.vector_scaling_max_freq = none →
      psfreq_cpu_set_max (some c) (some s) m = some (0, some s)) ∧
    (∀ s : Sysfs, c.cpu_num = 0 ∨ c.vector_scaling_min_freq = none →
      psfreq_cpu_set_min (some c) (some s) m = some (0, some s)) ∧
    (∀ s : Sysfs, c.cpu_num ≠ 0 → c.vector_scaling_max_freq ≠ none →
      "intel_pstate/max_perf_pct" ∈ s.denied →
      psfreq_cpu_set_max (some c) (some s) m
        = some (0, some { s with log := s.log ++ [("intel_pstate/max_perf_pct", fmtInt nmax)] })) ∧
    (∀ s : Sysfs, c.cpu_num ≠ 0 → c.vector_scaling_min_freq ≠ none →
      "intel_pstate/min_perf_pct" ∈ s.denied →
      psfreq_cpu_set_min (some c) (some s) m
        = some (0, some { s with log := s.log ++ [("intel_pstate/min_perf_pct", fmtInt nmin)] })) ∧
    (∀ (s : Sysfs) (v : List String), c.cpu_num ≠ 0 → c.vector_scaling_max_freq = some v →
      c.cpu_num ≤ v.length →
      ∃ (j ret : Nat) (s2 : Sysfs),
        psfreq_cpu_set_max (some c) (some s) m = some (ret, some s2) ∧ j ≤ c.cpu_num ∧
        s2.log = s.log ++ ("intel_pstate/max_perf_pct", fmtInt nmax) ::
          (v.take j).map (fun p => (p, fmtInt fmax))) ∧
    (∀ (s : Sysfs) (v : List String), c.cpu_num ≠ 0 → c.vector_scaling_min_freq = some v →
      c.cpu_num ≤ v.length →
      ∃ (j ret : Nat) (s2 : Sysfs),
        psfreq_cpu_set_min (some c) (some s) m = some (ret, some s2) ∧ j ≤ c.cpu_num ∧
        s2.log = s.log ++ ("intel_pstate/min_perf_pct", fmtInt nmin) ::
          (v.take j).map (fun p => (p, fmtInt fmin))) := by
  have emax := fun sysfs => set_max_unfold c sysfs m nmax fmax hnmax hfmax
  have emin := fun sysfs => set_min_unfold c sysfs m nmin fmin hnmin hfmin
  obtain ⟨a1, a2, a3⟩ := set_freq_tail_guards c.cpu_num c.vector_scaling_max_freq
    "intel_pstate/max_perf_pct" nmax fmax
  obtain ⟨b1, b2, b3⟩ := set_freq_tail_guards c.cpu_num c.vector_scaling_min_freq
    "intel_pstate/min_perf_pct" nmin fmin
  refine ⟨⟨?_, ?_⟩, ?_, ?_, ?_, ?_, ?_, ?_⟩
  · rw [emax]; exact a1
  · rw [emin]; exact b1
  · intro s h; rw [emax]; exact a2 s h
  · intro s h; rw [emin]; exact b2 s h
  · intro s h0 hv hd; rw [emax]; exact a3 s h0 hv hd
  · intro s h0 hv hd; rw [emin]; exact b3 s h0 hv hd
  · intro s v h0 hv hlen
    rw [emax, hv]
    exact set_freq_tail_log c.cpu_num v "intel_pstate/max_perf_pct" nmax fmax s h0 hlen
  · intro s v h0 hv hlen
    rw [emin, hv]
    exact set_freq_tail_log c.cpu_num v "intel_pstate/min_perf_pct" nmin fmin s h0 hlen

/-- Witness of C19 at four CPUs and 50 percent, on a tree whose percent controls
refuse writes: both calls return 0 after that one attempt. -/
theorem set_max_min_percent_control_first_witness :
    psfreq_cpu_set_max (some cpu_quad) (some sysfs_pct_refuses) 50
      = some (0, some { sysfs_pct_refuses with
          log := sysfs_pct_refuses.log ++ [("intel_pstate/max_perf_pct", fmtInt 50)] }) ∧
    psfreq_cpu_set_min (some cpu_quad) (some sysfs_pct_refuses) 50
      = some (0, some { sysfs_pct_refuses with
          log := sysfs_pct_refuses.log ++ [("intel_pstate/min_perf_pct", fmtInt 50)] }) :=
  ⟨(set_max_min_percent_control_first cpu_quad 50 50 1700000 50 1700000
      (by decide) (by decide) (by decide) (by decide)).2.2.2.1 sysfs_pct_refuses
      (by decide) (by decide) (by decide),
   (set_max_min_percent_control_first cpu_quad 50 50 1700000 50 1700000
      (by decide) (by decide) (by decide) (by decide)).2.2.2.2.1 sysfs_pct_refuses
      (by decide) (by decide) (by decide)⟩

/-- C20: `psfreq_cpu_init_number_cpus` returns the parsed processor count reduced
modulo 256, the `unsigned int` being narrowed to `unsigned char`: a count of 256
gives 0, after which `psfreq_cpu_init_vector` returns NULL for every vector, and
a count from 1 to 255 is returned unchanged. -/
theorem init_number_cpus_is_count_mod_256 (env : Env) (line : String)
    (h : env.pipe "grep processor /proc/cpuinfo | wc -l" = some line) :
    psfreq_cpu_init_number_cpus env = psfreq_strings_to_uint line % 256 ∧
    (psfreq_strings_to_uint line = 256 →
      psfreq_cpu_init_number_cpus env = 0 ∧
      ∀ (cpu : psfreq_cpu_type) (what : String),
        psfreq_cpu_init_vector env
          (some { cpu with cpu_num := psfreq_cpu_init_number_cpus env }) what = none) ∧
    (1 ≤ psfreq_strings_to_uint line → psfreq_strings_to_uint line ≤ 255 →
      psfreq_cpu_init_number_cpus env = psfreq_strings_to_uint line) := by
  have e : psfreq_cpu_init_number_cpus env = psfreq_strings_to_uint line % 256 := by
    unfold psfreq_cpu_init_number_cpus
    rw [h]
  refine ⟨e, ?_, ?_⟩
  · intro h256
    have e0 : psfreq_cpu_init_number_cpus env = 0 := by rw [e, h256]
    refine ⟨e0, ?_⟩
    intro cpu what
    unfold psfreq_cpu_init_vector
    simp only [e0]
    rfl
  · intro h1 h2
    rw [e]
    exact Nat.mod_eq_of_lt (by omega)

/-- Witness of C20 at a machine that reports 256 processors. -/
theorem init_number_cpus_is_count_mod_256_witness :
    psfreq_cpu_init_number_cpus env_256 = psfreq_strings_to_uint "256" % 256 ∧
    (psfreq_strings_to_uint "256" = 256 →
      psfreq_cpu_init_number_cpus env_256 = 0 ∧
      ∀ (cpu : psfreq_cpu_type) (what : String),
        psfreq_cpu_init_vector env_256
          (some { cpu with cpu_num := psfreq_cpu_init_number_cpus env_256 }) what = none) ∧
    (1 ≤ psfreq_strings_to_uint "256" → psfreq_strings_to_uint "256" ≤ 255 →
      psfreq_cpu_init_number_cpus env_256 = psfreq_strings_to_uint "256") :=
  init_number_cpus_is_count_mod_256 env_256 "256" rfl

end Psfreq
